import Mathlib

/-!
# dbus-controller: the D-Bus service of `internal/service/dbus.go`

A shallow embedding of `DBusService` as explicit state passing: the subscription
registry (`NewDBusService`, `getConnection`, `SubscribeToSignal`, `Close`), the
introspection translator (`parseIntrospectionXML`) and the reading operations
(`ListServices` ... `ListSignals`, `CallMethod`, `GetProperty`, `SetProperty`).

* Go pointers are indices: a `*SignalHandler` is an index into `handlers`, a
  `chan *dbus.Signal` an index into `chans`; both heaps only grow.
* The Go map `subscriptions` is an association list with at most one entry per key.
* A Go panic is `Except.error`; an `(value, error)` result is an `Except String _`.
* The bus library (`github.com/godbus/dbus/v5`) is not part of the repository. Its
  answers are inputs of the model: the outcome of `dbus.SystemBus()` and
  `dbus.SessionBus()`, the error of the `AddMatch` call, the clock, and what
  `Conn.Close` does to the channels handed to `Conn.Signal` (`BusLibrary`); for the
  reading operations the replies of the bus and the XML decoder (`Env`).
* A Go slice the code builds itself is a `Slice` (`none` is the nil slice); a slice
  it only passes on is a `List`.
* The mutexes are recorded in the effect log only: the model is sequential.
-/

namespace DBusController

/-! ## Data model -/

/-- The two connection fields of `DBusService`. -/
inductive Bus where
  | system
  | session
  deriving DecidableEq, Repr

/-- A received signal: `dbus.Signal` with its name split in interface and member. -/
structure Signal where
  sender : String
  path : String
  iface : String
  member : String
  deriving DecidableEq, Repr

/-- A buffered Go channel `chan *dbus.Signal`. -/
structure Chan where
  cap : Nat
  buf : List Signal
  closed : Bool
  deriving DecidableEq, Repr

/-- The struct `SignalHandler`: `channel` is a reference into the channel heap. -/
structure SignalHandler where
  channel : Nat
  active : Bool
  deriving DecidableEq, Repr

/-- What the service can observe of a `*dbus.Conn`: whether `Close` was called on it,
the match rules the bus accepted, and the channels passed to `Signal`. -/
structure Conn where
  closed : Bool
  matchRules : List String
  signalChans : List Nat
  deriving DecidableEq, Repr

/-- The struct `model.SignalSubscription`. -/
structure SignalSubscription where
  ID : String
  BusType : String
  Service : String
  Interface : String
  Signal : String
  Active : Bool
  CreatedAt : Nat
  deriving DecidableEq, Repr

/-- The effects an operation performs, in program order. -/
inductive Effect where
  | lock
  | unlock
  | handlerLock (h : Nat)
  | handlerUnlock (h : Nat)
  | connClose (b : Bus)
  | addMatch (b : Bus) (rule : String)
  | connSignal (b : Bus) (ch : Nat)
  | makeChan (ch : Nat)
  | closeChan (ch : Nat)
  | call (b : Bus) (dest member : String)
  | getProperty (b : Bus) (dest name : String)
  | setProperty (b : Bus) (dest name : String)
  deriving DecidableEq, Repr

/-- The struct `DBusService` together with the heap its pointers point into. -/
structure DBusService where
  systemConn : Option Conn
  sessionConn : Option Conn
  subscriptions : List (String × Nat)
  handlers : List SignalHandler
  chans : List Chan
  log : List Effect
  deriving DecidableEq, Repr

/-- Behaviour of the bus library that the repository's code does not fix:
whether `Conn.Close` closes the channels that were passed to `Conn.Signal`. -/
structure BusLibrary where
  closeClosesSignalChans : Bool
  deriving DecidableEq, Repr

/-! ## The Go map -/

/-- Map read `m[k]`. -/
def mapLookup (m : List (String × Nat)) (k : String) : Option Nat :=
  match m with
  | [] => none
  | (k', v) :: t => if k' = k then some v else mapLookup t k

/-- Map write `m[k] = v`: replaces the entry of an existing key, else adds one. -/
def mapInsert (m : List (String × Nat)) (k : String) (v : Nat) : List (String × Nat) :=
  match m with
  | [] => [(k, v)]
  | (k', v') :: t => if k' = k then (k, v) :: t else (k', v') :: mapInsert t k v

/-- The keys of the map. -/
def mapKeys (m : List (String × Nat)) : List String := m.map Prod.fst

/-! ## Connections -/

/-- The connection field for a bus. -/
def DBusService.conn (s : DBusService) : Bus → Option Conn
  | .system => s.systemConn
  | .session => s.sessionConn

/-- Update of the connection object a bus field points to. -/
def DBusService.setConn (s : DBusService) (b : Bus) (c : Conn) : DBusService :=
  match b with
  | .system => { s with systemConn := some c }
  | .session => { s with sessionConn := some c }

/-- A connection as `dbus.SystemBus()` / `dbus.SessionBus()` hands it out. -/
def Conn.fresh : Conn := { closed := false, matchRules := [], signalChans := [] }

/-- `NewDBusService`: an empty registry; each connection is set when the library
could connect (`sysOk`, `sesOk`) and stays nil otherwise. -/
def NewDBusService (sysOk sesOk : Bool) : DBusService :=
  { systemConn := if sysOk then some Conn.fresh else none
    sessionConn := if sesOk then some Conn.fresh else none
    subscriptions := []
    handlers := []
    chans := []
    log := [] }

/-- `getConnection`: the connection for `busType`, or the error. -/
def getConnection (s : DBusService) (busType : String) : Except String Bus :=
  if busType = "system" then
    match s.systemConn with
    | none => .error "system bus not available"
    | some _ => .ok .system
  else if busType = "session" then
    match s.sessionConn with
    | none => .error "session bus not available"
    | some _ => .ok .session
  else .error ("invalid bus type: " ++ busType)

/-! ## SubscribeToSignal -/

/-- The subscription id: `fmt.Sprintf("%s:%s:%s:%s", ...)`. -/
def subscriptionID (busType serviceName interfaceName signalName : String) : String :=
  busType ++ ":" ++ serviceName ++ ":" ++ interfaceName ++ ":" ++ signalName

/-- The match rule passed to `AddMatch`. -/
def matchRule (serviceName interfaceName signalName : String) : String :=
  let rule := "type='signal',interface='" ++ interfaceName ++ "',member='" ++ signalName ++ "'"
  if serviceName ≠ "" then rule ++ (",sender='" ++ serviceName ++ "'") else rule

/-- `make(chan *dbus.Signal, 100)`. -/
def Chan.make : Chan := { cap := 100, buf := [], closed := false }

/-- `SubscribeToSignal`. `addMatchErr` is the error of the `AddMatch` bus call
(`none` for success) and `now` the value of `time.Now()`. -/
def SubscribeToSignal (s : DBusService) (busType serviceName interfaceName signalName : String)
    (addMatchErr : Option String) (now : Nat) : Except String SignalSubscription × DBusService :=
  match getConnection s busType with
  | .error e => (.error e, s)
  | .ok b =>
    match s.conn b with
    | none => (.error "nil connection", s) -- not taken: `getConnection` checked for nil
    | some conn =>
      let id := subscriptionID busType serviceName interfaceName signalName
      -- handler := &SignalHandler{channel: make(chan *dbus.Signal, 100), active: true}
      let ch := s.chans.length
      let h := s.handlers.length
      let rule := matchRule serviceName interfaceName signalName
      let s1 : DBusService :=
        { s with
          chans := s.chans ++ [Chan.make]
          handlers := s.handlers ++ [{ channel := ch, active := true }]
          log := s.log ++ [.makeChan ch, .addMatch b rule] }
      match addMatchErr with
      | some e => (.error ("failed to add match rule: " ++ e), s1)
      | none =>
        -- conn.Signal(handler.channel)
        let conn1 : Conn :=
          { conn with
            matchRules := conn.matchRules ++ [rule]
            signalChans := conn.signalChans ++ [ch] }
        let s2 := s1.setConn b conn1
        -- s.mutex.Lock(); s.subscriptions[subscriptionID] = handler; s.mutex.Unlock()
        let s3 : DBusService :=
          { s2 with
            subscriptions := mapInsert s2.subscriptions id h
            log := s2.log ++ [.connSignal b ch, .lock, .unlock] }
        (.ok { ID := id, BusType := busType, Service := serviceName
               Interface := interfaceName, Signal := signalName
               Active := true, CreatedAt := now }, s3)

/-! ## Close -/

/-- The Go builtin `close(ch)`: panics on a channel that is already closed. -/
def closeChan (s : DBusService) (ch : Nat) : Except String DBusService :=
  match s.chans[ch]? with
  | none => .error "close of nil channel"
  | some c =>
    if c.closed then .error "close of closed channel"
    else .ok { s with
               chans := s.chans.set ch { c with closed := true }
               log := s.log ++ [.closeChan ch] }

/-- The library call `conn.Close()` on the connection of bus `b`, if it is not nil.
It acts once per connection; with `lib.closeClosesSignalChans` it also closes the
channels registered through `Signal` and forgets them. -/
def connClose (lib : BusLibrary) (s : DBusService) (b : Bus) : Except String DBusService :=
  match s.conn b with
  | none => .ok s
  | some conn =>
    let s1 := { s with log := s.log ++ [.connClose b] }
    if conn.closed then .ok s1
    else if lib.closeClosesSignalChans then
      (conn.signalChans.foldlM closeChan s1).map
        (fun s2 => s2.setConn b { conn with closed := true, signalChans := [] })
    else .ok (s1.setConn b { conn with closed := true })

/-- One iteration of the loop in `Close`:
`handler.mu.Lock(); handler.active = false; close(handler.channel); handler.mu.Unlock()`. -/
def closeHandler (s : DBusService) (h : Nat) : Except String DBusService :=
  match s.handlers[h]? with
  | none => .error "nil pointer dereference"
  | some hd =>
    let s1 : DBusService :=
      { s with
        handlers := s.handlers.set h { hd with active := false }
        log := s.log ++ [.handlerLock h] }
    (closeChan s1 hd.channel).map (fun s2 => { s2 with log := s2.log ++ [.handlerUnlock h] })

/-- `Close`: closes both connections, then every handler of the registry. A panic
is `Except.error`. -/
def Close (lib : BusLibrary) (s : DBusService) : Except String DBusService := do
  let s0 : DBusService := { s with log := s.log ++ [.lock] }
  let s1 ← connClose lib s0 .system
  let s2 ← connClose lib s1 .session
  let s3 ← (s2.subscriptions.map Prod.snd).foldlM closeHandler s2
  pure { s3 with log := s3.log ++ [.unlock] }

/-! ## Signal arrival -/

/-- Send on a buffered channel that is neither closed nor full; otherwise the
channel is left as it is (the sender is held back). -/
def Chan.send (c : Chan) (sig : Signal) : Chan :=
  if c.closed || decide (c.cap ≤ c.buf.length) then c else { c with buf := c.buf ++ [sig] }

/-- Modelled from the spec: the bus side of `AddMatch`, which is not part of the
repository. A signal is forwarded to a connection when one of the connection's
match rules is the rule `matchRule` builds for the signal's interface and member,
either without a sender or with the signal's sender (spec: exact match on
interfaceName and memberName, senderService only if the rule names one). -/
def busForwards (c : Conn) (sig : Signal) : Bool :=
  c.matchRules.any fun r =>
    decide (r = matchRule "" sig.iface sig.member) ||
    decide (r = matchRule sig.sender sig.iface sig.member)

/-- Modelled from the spec: the connection's signal feed, which is not part of the
repository (spec: a single feed multiplexes all events of a bus across all
subscriptions). A signal the bus forwards to an open connection is sent on every
channel that was passed to `conn.Signal`; the service has no code between the
connection and the channel. -/
def deliver (s : DBusService) (b : Bus) (sig : Signal) : DBusService :=
  match s.conn b with
  | none => s
  | some conn =>
    if conn.closed || !busForwards conn sig then s
    else { s with
           chans := s.chans.mapIdx fun i c =>
             if i ∈ conn.signalChans then c.send sig else c }

/-! ## Executions -/

/-- States of a service on which `Close` has not run: reached from `NewDBusService`
by `SubscribeToSignal` calls (any arguments, any `AddMatch` outcome) and signal
arrivals. -/
inductive Live : DBusService → Prop where
  | init (sysOk sesOk : Bool) : Live (NewDBusService sysOk sesOk)
  | subscribe {s : DBusService} (busType serviceName interfaceName signalName : String)
      (addMatchErr : Option String) (now : Nat) :
      Live s → Live (SubscribeToSignal s busType serviceName interfaceName signalName
        addMatchErr now).2
  | deliver {s : DBusService} (b : Bus) (sig : Signal) : Live s → Live (deliver s b sig)

/-- All states of a service: as `Live`, and also after completed `Close` calls. -/
inductive Reachable (lib : BusLibrary) : DBusService → Prop where
  | init (sysOk sesOk : Bool) : Reachable lib (NewDBusService sysOk sesOk)
  | subscribe {s : DBusService} (busType serviceName interfaceName signalName : String)
      (addMatchErr : Option String) (now : Nat) :
      Reachable lib s → Reachable lib (SubscribeToSignal s busType serviceName interfaceName
        signalName addMatchErr now).2
  | deliver {s : DBusService} (b : Bus) (sig : Signal) :
      Reachable lib s → Reachable lib (deliver s b sig)
  | close {s t : DBusService} : Reachable lib s → Close lib s = .ok t → Reachable lib t

/-- The pointers of the service are sound: every handler owns the channel made
with it, and the registry holds pairwise different, allocated handlers. -/
structure WellFormed (s : DBusService) : Prop where
  heaps : s.handlers.length = s.chans.length
  owns : ∀ (i : Nat) (hd : SignalHandler), s.handlers[i]? = some hd → hd.channel = i
  allocated : ∀ kv ∈ s.subscriptions, kv.2 < s.handlers.length
  distinct : (s.subscriptions.map Prod.snd).Nodup

/-- No channel of the heap is closed. -/
def AllOpen (s : DBusService) : Prop :=
  ∀ (i : Nat) (c : Chan), s.chans[i]? = some c → c.closed = false

/-- Handler `h` is shut down: inactive, with a closed channel. -/
def handlerClosed (s : DBusService) (h : Nat) : Bool :=
  match s.handlers[h]? with
  | none => false
  | some hd =>
    !hd.active &&
      (match s.chans[hd.channel]? with
       | none => false
       | some c => c.closed)

/-- Handler `h` is in service: active, with an open channel. -/
def handlerOpen (s : DBusService) (h : Nat) : Bool :=
  match s.handlers[h]? with
  | none => false
  | some hd =>
    hd.active &&
      (match s.chans[hd.channel]? with
       | none => false
       | some c => !c.closed)

/-- The unread signals of the channel of handler `h`. -/
def handlerBuf (s : DBusService) (h : Nat) : List Signal :=
  match s.handlers[h]? with
  | none => []
  | some hd =>
    match s.chans[hd.channel]? with
    | none => []
    | some c => c.buf

/-- The `AddMatch` calls of an effect log, in order. -/
def addMatchCalls (log : List Effect) : List (Bus × String) :=
  log.filterMap fun e =>
    match e with
    | .addMatch b rule => some (b, rule)
    | _ => none

/-- The library that leaves the channels passed to `Signal` alone on `Conn.Close`. -/
def libKeepsChans : BusLibrary := { closeClosesSignalChans := false }

/-- The library that closes the channels passed to `Signal` on `Conn.Close`. -/
def libClosesChans : BusLibrary := { closeClosesSignalChans := true }

/-! ## Example states -/

/-- A service whose system bus is available and whose session bus is not. -/
def svcSystem : DBusService := NewDBusService true false

/-- One successful subscription to `NameOwnerChanged` from any sender. -/
def svcOne : DBusService :=
  (SubscribeToSignal svcSystem "system" "" "org.freedesktop.DBus" "NameOwnerChanged" none 1).2

/-- The same subscription requested a second time. -/
def svcTwice : DBusService :=
  (SubscribeToSignal svcOne "system" "" "org.freedesktop.DBus" "NameOwnerChanged" none 2).2

/-- A second subscription on the same connection, for `NameLost`. -/
def svcTwo : DBusService :=
  (SubscribeToSignal svcOne "system" "" "org.freedesktop.DBus" "NameLost" none 2).2

/-- A `NameOwnerChanged` signal sent by the bus driver. -/
def sigOwnerChanged : Signal :=
  { sender := "org.freedesktop.DBus", path := "/org/freedesktop/DBus"
    iface := "org.freedesktop.DBus", member := "NameOwnerChanged" }

/-- A `NameLost` signal sent by the bus driver. -/
def sigNameLost : Signal :=
  { sender := "org.freedesktop.DBus", path := "/org/freedesktop/DBus"
    iface := "org.freedesktop.DBus", member := "NameLost" }

/-! ## Relations between states -/

/-- State `t` has the registry and the pointer structure of state `s`. -/
structure SameShape (s t : DBusService) : Prop where
  subs : t.subscriptions = s.subscriptions
  hlen : t.handlers.length = s.handlers.length
  clen : t.chans.length = s.chans.length
  chan : ∀ i : Nat, (t.handlers[i]?).map SignalHandler.channel
            = (s.handlers[i]?).map SignalHandler.channel

/-- State `t` is state `s` with the handlers `hs` shut down and nothing else changed. -/
structure ClosedFrom (s : DBusService) (hs : List Nat) (t : DBusService) : Prop where
  subs : t.subscriptions = s.subscriptions
  sys : t.systemConn = s.systemConn
  ses : t.sessionConn = s.sessionConn
  handlers : ∀ i : Nat, t.handlers[i]? =
    if i ∈ hs then (s.handlers[i]?).map (fun hd => { hd with active := false })
    else s.handlers[i]?
  chans : ∀ i : Nat, t.chans[i]? =
    if i ∈ hs then (s.chans[i]?).map (fun c => { c with closed := true })
    else s.chans[i]?

/-- Handler `h` owns channel `h`, which is open. -/
def OpenAt (s : DBusService) (h : Nat) : Prop :=
  ∃ (hd : SignalHandler) (c : Chan),
    s.handlers[h]? = some hd ∧ hd.channel = h ∧ s.chans[h]? = some c ∧ c.closed = false

/-- The channels registered with the connection of bus `b` (none for a nil connection). -/
def connChans (s : DBusService) (b : Bus) : List Nat :=
  match s.conn b with
  | none => []
  | some c => c.signalChans

/-- The registrations of a live service are sound: every registered handler has its
channel registered with a connection, no channel is registered twice, every
registered channel is allocated, and no connection is closed. -/
structure Registered (s : DBusService) : Prop where
  covered : ∀ kv ∈ s.subscriptions, kv.2 ∈ connChans s .system ∨ kv.2 ∈ connChans s .session
  once : (connChans s .system ++ connChans s .session).Nodup
  inRange : ∀ (b : Bus), ∀ ch ∈ connChans s b, ch < s.chans.length
  connOpen : ∀ (b : Bus) (c : Conn), s.conn b = some c → c.closed = false

/-! ## Values and answers from outside the repository -/

/-- A value carried over the bus (Go `interface{}`); the service only passes
values on. -/
inductive BusValue where
  | str (s : String)
  | int (n : Int)
  | bool (b : Bool)
  deriving DecidableEq, Repr

/-- A `dbus.Variant`: what `Signature().String()` and `Value()` give. -/
structure Variant where
  signature : String
  value : BusValue
  deriving DecidableEq, Repr

/-- A Go slice: `none` is the nil slice, `some []` an empty slice that was made. -/
abbrev Slice (α : Type) := Option (List α)

/-- The elements of a slice; ranging over a nil slice visits nothing. -/
def Slice.elems {α : Type} (s : Slice α) : List α := s.getD []

/-- The Go builtin `append(s, x)`. -/
def Slice.append {α : Type} (s : Slice α) (x : α) : Slice α := some (s.elems ++ [x])

/-- `make([]T, 0, n)`: empty and not nil. -/
def Slice.make {α : Type} : Slice α := some []

/-- The fields of `introspect.Arg` that the service reads (the `introspect` types
are declared in the bus library). -/
structure Introspect.Arg where
  Name : String
  Typ : String
  Direction : String
  deriving DecidableEq, Repr

/-- The fields of `introspect.Method` that the service reads. -/
structure Introspect.Method where
  Name : String
  Args : List Introspect.Arg
  deriving DecidableEq, Repr

/-- The fields of `introspect.Signal` that the service reads. -/
structure Introspect.Signal where
  Name : String
  Args : List Introspect.Arg
  deriving DecidableEq, Repr

/-- The fields of `introspect.Property` that the service reads. -/
structure Introspect.Property where
  Name : String
  Typ : String
  Access : String
  deriving DecidableEq, Repr

/-- The fields of `introspect.Interface` that the service reads. -/
structure Introspect.Interface where
  Name : String
  Methods : List Introspect.Method
  Signals : List Introspect.Signal
  Properties : List Introspect.Property
  deriving DecidableEq, Repr

/-- A child of an `introspect.Node`: the service reads its name only. -/
structure Introspect.Child where
  Name : String
  deriving DecidableEq, Repr

/-- The fields of `introspect.Node` that the service reads. -/
structure Introspect.Node where
  Interfaces : List Introspect.Interface
  Children : List Introspect.Child
  deriving DecidableEq, Repr

/-- The answers of the code outside the repository to one operation: the replies of
the bus to the calls the operation makes, the XML decoder `xml.Unmarshal` into an
`introspect.Node`, and the clock. -/
structure Env where
  listNames : Bus → Except String (List String)
  getNameOwner : Bus → String → Except String String
  introspect : Bus → String → Except String String
  call : Bus → String → String → List BusValue → Except String (List BusValue)
  getProperty : Bus → String → String → Except String Variant
  setProperty : Bus → String → String → BusValue → Option String
  unmarshal : String → Except String Introspect.Node
  now : Nat

/-! ## The records of `internal/model/types.go` -/

/-- The struct `model.ArgumentInfo`. -/
structure ArgumentInfo where
  Name : String
  Typ : String
  Direction : String
  deriving DecidableEq, Repr

/-- The struct `model.MethodInfo`. -/
structure MethodInfo where
  Name : String
  InArgs : Slice ArgumentInfo
  OutArgs : Slice ArgumentInfo
  Annotations : List (String × String)
  deriving DecidableEq, Repr

/-- The struct `model.PropertyInfo`; a `Value` that was not set is `none`. -/
structure PropertyInfo where
  Name : String
  Typ : String
  Access : String
  Value : Option BusValue
  Annotations : List (String × String)
  deriving DecidableEq, Repr

/-- The struct `model.SignalInfo`. -/
structure SignalInfo where
  Name : String
  Args : Slice ArgumentInfo
  Annotations : List (String × String)
  deriving DecidableEq, Repr

/-- The struct `model.InterfaceInfo`. -/
structure InterfaceInfo where
  Name : String
  Methods : Slice MethodInfo
  Properties : Slice PropertyInfo
  Signals : Slice SignalInfo
  deriving DecidableEq, Repr

/-- The struct `model.NodeInfo`. -/
structure NodeInfo where
  Name : String
  Path : String
  deriving DecidableEq, Repr

/-- The struct `model.ParsedIntrospection`. -/
structure ParsedIntrospection where
  Interfaces : Slice InterfaceInfo
  Nodes : Slice NodeInfo
  deriving DecidableEq, Repr

/-- The struct `model.IntrospectionResult`. -/
structure IntrospectionResult where
  Service : String
  ObjectPath : String
  XML : String
  ParsedData : Option ParsedIntrospection
  Timestamp : Nat
  deriving DecidableEq, Repr

/-- The struct `model.ServiceInfo`. -/
structure ServiceInfo where
  Name : String
  Owner : String
  Interfaces : Slice String
  ObjectPaths : Slice String
  Introspection : Option IntrospectionResult
  deriving DecidableEq, Repr

/-- The struct `model.MethodCallResult`; `ReturnValues` is passed on as received. -/
structure MethodCallResult where
  Success : Bool
  ReturnValues : List BusValue
  Error : String
  Timestamp : Nat
  deriving DecidableEq, Repr

/-- The struct `model.PropertyValue`. -/
structure PropertyValue where
  Name : String
  Typ : String
  Value : BusValue
  Timestamp : Nat
  deriving DecidableEq, Repr

/-! ## parseIntrospectionXML -/

/-- The loop over `method.Args`: an argument whose direction is "in" is appended to
`InArgs`, every other one to `OutArgs`. -/
def convertArgs (methodInfo : MethodInfo) (args : List Introspect.Arg) : MethodInfo :=
  args.foldl
    (fun methodInfo arg =>
      let argInfo : ArgumentInfo :=
        { Name := arg.Name, Typ := arg.Typ, Direction := arg.Direction }
      if arg.Direction = "in" then
        { methodInfo with InArgs := methodInfo.InArgs.append argInfo }
      else
        { methodInfo with OutArgs := methodInfo.OutArgs.append argInfo })
    methodInfo

/-- The body of the loop over `iface.Methods`. -/
def convertMethod (method : Introspect.Method) : MethodInfo :=
  convertArgs
    { Name := method.Name, InArgs := Slice.make, OutArgs := Slice.make, Annotations := [] }
    method.Args

/-- The body of the loop over `iface.Properties`. -/
def convertProperty (prop : Introspect.Property) : PropertyInfo :=
  { Name := prop.Name, Typ := prop.Typ, Access := prop.Access, Value := none
    Annotations := [] }

/-- The body of the loop over `iface.Signals`: every argument gets direction "out". -/
def convertSignal (signal : Introspect.Signal) : SignalInfo :=
  signal.Args.foldl
    (fun signalInfo arg =>
      { signalInfo with
        Args := signalInfo.Args.append
          { Name := arg.Name, Typ := arg.Typ, Direction := "out" } })
    { Name := signal.Name, Args := Slice.make, Annotations := [] }

/-- The body of the loop over `node.Interfaces`. -/
def convertInterface (iface : Introspect.Interface) : InterfaceInfo :=
  let interfaceInfo : InterfaceInfo :=
    { Name := iface.Name, Methods := Slice.make, Properties := Slice.make
      Signals := Slice.make }
  let interfaceInfo := iface.Methods.foldl
    (fun info method => { info with Methods := info.Methods.append (convertMethod method) })
    interfaceInfo
  let interfaceInfo := iface.Properties.foldl
    (fun info prop =>
      { info with Properties := info.Properties.append (convertProperty prop) })
    interfaceInfo
  iface.Signals.foldl
    (fun info signal => { info with Signals := info.Signals.append (convertSignal signal) })
    interfaceInfo

/-- `parseIntrospectionXML`; `unmarshal` is `xml.Unmarshal` into an `introspect.Node`. -/
def parseIntrospectionXML (unmarshal : String → Except String Introspect.Node)
    (xmlData : String) : Except String ParsedIntrospection :=
  match unmarshal xmlData with
  | .error e => .error ("failed to parse introspection XML: " ++ e)
  | .ok node =>
    let parsed : ParsedIntrospection := { Interfaces := Slice.make, Nodes := Slice.make }
    let parsed := node.Interfaces.foldl
      (fun parsed iface =>
        { parsed with Interfaces := parsed.Interfaces.append (convertInterface iface) })
      parsed
    let parsed := node.Children.foldl
      (fun parsed child =>
        { parsed with
          Nodes := parsed.Nodes.append { Name := child.Name, Path := "/" ++ child.Name } })
      parsed
    .ok parsed

/-! ## The operations that only read the registry -/

/-- `ListServices`. -/
def ListServices (env : Env) (s : DBusService) (busType : String) :
    Except String (List String) × DBusService :=
  match getConnection s busType with
  | .error e => (.error e, s)
  | .ok b =>
    let s1 : DBusService :=
      { s with log := s.log ++ [.call b "org.freedesktop.DBus" "org.freedesktop.DBus.ListNames"] }
    match env.listNames b with
    | .error e => (.error ("failed to list services: " ++ e), s1)
    | .ok services => (.ok services, s1)

/-- `IntrospectService`: a document that does not parse is returned without
`ParsedData`. -/
def IntrospectService (env : Env) (s : DBusService) (busType serviceName : String) :
    Except String IntrospectionResult × DBusService :=
  match getConnection s busType with
  | .error e => (.error e, s)
  | .ok b =>
    let s1 : DBusService :=
      { s with
        log := s.log ++ [.call b serviceName "org.freedesktop.DBus.Introspectable.Introspect"] }
    match env.introspect b serviceName with
    | .error e => (.error ("failed to introspect service " ++ serviceName ++ ": " ++ e), s1)
    | .ok xmlData =>
      let result : IntrospectionResult :=
        { Service := serviceName, ObjectPath := "/", XML := xmlData, ParsedData := none
          Timestamp := env.now }
      match parseIntrospectionXML env.unmarshal xmlData with
      | .ok parsed => (.ok { result with ParsedData := some parsed }, s1)
      | .error _ => (.ok result, s1)

/-- `GetServiceInfo`. -/
def GetServiceInfo (env : Env) (s : DBusService) (busType serviceName : String) :
    Except String ServiceInfo × DBusService :=
  match getConnection s busType with
  | .error e => (.error e, s)
  | .ok b =>
    let s1 : DBusService :=
      { s with
        log := s.log ++ [.call b "org.freedesktop.DBus" "org.freedesktop.DBus.GetNameOwner"] }
    let owner : String :=
      match env.getNameOwner b serviceName with
      | .error _ => "unknown"
      | .ok owner => owner
    match IntrospectService env s1 busType serviceName with
    | (.error _, s2) =>
      (.ok { Name := serviceName, Owner := owner, Interfaces := none, ObjectPaths := none
             Introspection := none }, s2)
    | (.ok introspectionResult, s2) =>
      let interfaces : Slice String :=
        match introspectionResult.ParsedData with
        | none => Slice.make
        | some parsed =>
          parsed.Interfaces.elems.foldl (fun interfaces iface => interfaces.append iface.Name)
            Slice.make
      (.ok { Name := serviceName, Owner := owner, Interfaces := interfaces
             ObjectPaths := some ["/"], Introspection := some introspectionResult }, s2)

/-- `ListInterfaces`. -/
def ListInterfaces (env : Env) (s : DBusService) (busType serviceName : String) :
    Except String (Slice String) × DBusService :=
  match GetServiceInfo env s busType serviceName with
  | (.error e, s1) => (.error e, s1)
  | (.ok serviceInfo, s1) => (.ok serviceInfo.Interfaces, s1)

/-- The search of `GetInterfaceInfo`: the first interface of the parsed
introspection data whose name is `interfaceName`, if the data is there. -/
def findInterface (serviceInfo : ServiceInfo) (interfaceName : String) : Option InterfaceInfo :=
  match serviceInfo.Introspection with
  | none => none
  | some introspection =>
    match introspection.ParsedData with
    | none => none
    | some parsed => parsed.Interfaces.elems.find? (fun iface => iface.Name = interfaceName)

/-- `GetInterfaceInfo`. -/
def GetInterfaceInfo (env : Env) (s : DBusService)
    (busType serviceName interfaceName : String) : Except String InterfaceInfo × DBusService :=
  match GetServiceInfo env s busType serviceName with
  | (.error e, s1) => (.error e, s1)
  | (.ok serviceInfo, s1) =>
    match findInterface serviceInfo interfaceName with
    | some iface => (.ok iface, s1)
    | none => (.error ("interface " ++ interfaceName ++ " not found"), s1)

/-- `ListMethods`. -/
def ListMethods (env : Env) (s : DBusService) (busType serviceName interfaceName : String) :
    Except String (Slice MethodInfo) × DBusService :=
  match GetInterfaceInfo env s busType serviceName interfaceName with
  | (.error e, s1) => (.error e, s1)
  | (.ok interfaceInfo, s1) => (.ok interfaceInfo.Methods, s1)

/-- `CallMethod`: the object path is always "/". -/
def CallMethod (env : Env) (s : DBusService)
    (busType serviceName interfaceName methodName : String) (args : List BusValue) :
    Except String MethodCallResult × DBusService :=
  match getConnection s busType with
  | .error e => (.error e, s)
  | .ok b =>
    let s1 : DBusService :=
      { s with log := s.log ++ [.call b serviceName (interfaceName ++ "." ++ methodName)] }
    let result : MethodCallResult :=
      { Success := false, ReturnValues := [], Error := "", Timestamp := env.now }
    match env.call b serviceName (interfaceName ++ "." ++ methodName) args with
    | .error e => (.ok { result with Success := false, Error := e }, s1)
    | .ok body => (.ok { result with Success := true, ReturnValues := body }, s1)

/-- `GetProperty`. -/
def GetProperty (env : Env) (s : DBusService)
    (busType serviceName interfaceName propertyName : String) :
    Except String PropertyValue × DBusService :=
  match getConnection s busType with
  | .error e => (.error e, s)
  | .ok b =>
    let s1 : DBusService :=
      { s with
        log := s.log ++ [.getProperty b serviceName (interfaceName ++ "." ++ propertyName)] }
    match env.getProperty b serviceName (interfaceName ++ "." ++ propertyName) with
    | .error e => (.error ("failed to get property " ++ propertyName ++ ": " ++ e), s1)
    | .ok variant =>
      (.ok { Name := propertyName, Typ := variant.signature, Value := variant.value
             Timestamp := env.now }, s1)

/-- `SetProperty`: after a successful write the property is read back. -/
def SetProperty (env : Env) (s : DBusService)
    (busType serviceName interfaceName propertyName : String) (value : BusValue) :
    Except String PropertyValue × DBusService :=
  match getConnection s busType with
  | .error e => (.error e, s)
  | .ok b =>
    let s1 : DBusService :=
      { s with
        log := s.log ++ [.setProperty b serviceName (interfaceName ++ "." ++ propertyName)] }
    match env.setProperty b serviceName (interfaceName ++ "." ++ propertyName) value with
    | some e => (.error ("failed to set property " ++ propertyName ++ ": " ++ e), s1)
    | none => GetProperty env s1 busType serviceName interfaceName propertyName

/-- The loop of `ListProperties`: each property gets the value `GetProperty` returns
for it, and keeps its value when that call fails. -/
def fillValues (env : Env) (busType serviceName interfaceName : String) :
    List PropertyInfo → DBusService → List PropertyInfo × DBusService
  | [], s => ([], s)
  | p :: ps, s =>
    let r := GetProperty env s busType serviceName interfaceName p.Name
    let p1 : PropertyInfo :=
      match r.1 with
      | .ok value => { p with Value := some value.Value }
      | .error _ => p
    let rest := fillValues env busType serviceName interfaceName ps r.2
    (p1 :: rest.1, rest.2)

/-- `ListProperties`. -/
def ListProperties (env : Env) (s : DBusService)
    (busType serviceName interfaceName : String) :
    Except String (Slice PropertyInfo) × DBusService :=
  match GetInterfaceInfo env s busType serviceName interfaceName with
  | (.error e, s1) => (.error e, s1)
  | (.ok interfaceInfo, s1) =>
    match interfaceInfo.Properties with
    | none => (.ok none, s1)
    | some props =>
      let r := fillValues env busType serviceName interfaceName props s1
      (.ok (some r.1), r.2)

/-- `ListSignals`. -/
def ListSignals (env : Env) (s : DBusService) (busType serviceName interfaceName : String) :
    Except String (Slice SignalInfo) × DBusService :=
  match GetInterfaceInfo env s busType serviceName interfaceName with
  | (.error e, s1) => (.error e, s1)
  | (.ok interfaceInfo, s1) => (.ok interfaceInfo.Signals, s1)

/-! ## The interface of the service -/

/-- The method names of `DBusServiceInterface` (`internal/service/interface.go`), in
the order of the declaration. -/
def DBusServiceInterface : List String :=
  ["ListServices", "GetServiceInfo", "ListInterfaces", "GetInterfaceInfo", "ListMethods",
   "CallMethod", "ListProperties", "GetProperty", "SetProperty", "ListSignals",
   "SubscribeToSignal", "IntrospectService", "Close"]

/-- A call of a method of `DBusServiceInterface`, with its arguments and the
answers it gets from outside the repository. -/
inductive Op where
  | ListServices (env : Env) (busType : String)
  | GetServiceInfo (env : Env) (busType serviceName : String)
  | ListInterfaces (env : Env) (busType serviceName : String)
  | GetInterfaceInfo (env : Env) (busType serviceName interfaceName : String)
  | ListMethods (env : Env) (busType serviceName interfaceName : String)
  | CallMethod (env : Env) (busType serviceName interfaceName methodName : String)
      (args : List BusValue)
  | ListProperties (env : Env) (busType serviceName interfaceName : String)
  | GetProperty (env : Env) (busType serviceName interfaceName propertyName : String)
  | SetProperty (env : Env) (busType serviceName interfaceName propertyName : String)
      (value : BusValue)
  | ListSignals (env : Env) (busType serviceName interfaceName : String)
  | SubscribeToSignal (busType serviceName interfaceName signalName : String)
      (addMatchErr : Option String) (now : Nat)
  | IntrospectService (env : Env) (busType serviceName : String)
  | Close

/-- The name of the method an operation calls. -/
def Op.method : Op → String
  | .ListServices .. => "ListServices"
  | .GetServiceInfo .. => "GetServiceInfo"
  | .ListInterfaces .. => "ListInterfaces"
  | .GetInterfaceInfo .. => "GetInterfaceInfo"
  | .ListMethods .. => "ListMethods"
  | .CallMethod .. => "CallMethod"
  | .ListProperties .. => "ListProperties"
  | .GetProperty .. => "GetProperty"
  | .SetProperty .. => "SetProperty"
  | .ListSignals .. => "ListSignals"
  | .SubscribeToSignal .. => "SubscribeToSignal"
  | .IntrospectService .. => "IntrospectService"
  | .Close => "Close"

/-- The state after an operation, whatever it returned; a panic is `Except.error`. -/
def exec (lib : BusLibrary) (s : DBusService) : Op → Except String DBusService
  | .ListServices env busType => .ok (ListServices env s busType).2
  | .GetServiceInfo env busType serviceName => .ok (GetServiceInfo env s busType serviceName).2
  | .ListInterfaces env busType serviceName => .ok (ListInterfaces env s busType serviceName).2
  | .GetInterfaceInfo env busType serviceName interfaceName =>
    .ok (GetInterfaceInfo env s busType serviceName interfaceName).2
  | .ListMethods env busType serviceName interfaceName =>
    .ok (ListMethods env s busType serviceName interfaceName).2
  | .CallMethod env busType serviceName interfaceName methodName args =>
    .ok (CallMethod env s busType serviceName interfaceName methodName args).2
  | .ListProperties env busType serviceName interfaceName =>
    .ok (ListProperties env s busType serviceName interfaceName).2
  | .GetProperty env busType serviceName interfaceName propertyName =>
    .ok (GetProperty env s busType serviceName interfaceName propertyName).2
  | .SetProperty env busType serviceName interfaceName propertyName value =>
    .ok (SetProperty env s busType serviceName interfaceName propertyName value).2
  | .ListSignals env busType serviceName interfaceName =>
    .ok (ListSignals env s busType serviceName interfaceName).2
  | .SubscribeToSignal busType serviceName interfaceName signalName addMatchErr now =>
    .ok (SubscribeToSignal s busType serviceName interfaceName signalName addMatchErr now).2
  | .IntrospectService env busType serviceName =>
    .ok (IntrospectService env s busType serviceName).2
  | .Close => Close lib s

/-- A condition on the answer of the bus: an `AddMatch` call on a connection that
`Close` has closed returns an error. -/
def closedConnRefuses (s : DBusService) : Op → Bool
  | .SubscribeToSignal busType _ _ _ addMatchErr _ =>
    match getConnection s busType with
    | .error _ => true
    | .ok b =>
      match s.conn b with
      | none => true
      | some c => !c.closed || addMatchErr.isSome
  | _ => true

/-- No condition on the answers of the bus. -/
def anyAnswer (_ : DBusService) (_ : Op) : Bool := true

/-- Executions: state `t` is reached from state `s` by completed operations whose
answers satisfy `ok`, and by signal arrivals. -/
inductive Steps (lib : BusLibrary) (ok : DBusService → Op → Bool) :
    DBusService → DBusService → Prop where
  | refl (s : DBusService) : Steps lib ok s s
  | op {s t u : DBusService} (o : Op) :
      Steps lib ok s t → ok t o = true → exec lib t o = .ok u → Steps lib ok s u
  | arrive {s t : DBusService} (b : Bus) (sig : Signal) :
      Steps lib ok s t → Steps lib ok s (deliver t b sig)

/-- The entry of the registry under `id` is an inactive handler. -/
def entryInactive (s : DBusService) (id : String) : Bool :=
  match mapLookup s.subscriptions id with
  | none => false
  | some h =>
    match s.handlers[h]? with
    | none => false
    | some hd => !hd.active

/-- The entry of the registry under `id` is an active handler. -/
def entryActive (s : DBusService) (id : String) : Bool :=
  match mapLookup s.subscriptions id with
  | none => false
  | some h =>
    match s.handlers[h]? with
    | none => false
    | some hd => hd.active

/-- Every connection of the service has been closed. -/
def Frozen (s : DBusService) : Prop :=
  ∀ (b : Bus) (c : Conn), s.conn b = some c → c.closed = true

/-- An environment whose bus refuses every call and whose decoder rejects every
document. -/
def envDown : Env :=
  { listNames := fun _ => .error "down"
    getNameOwner := fun _ _ => .error "down"
    introspect := fun _ _ => .error "down"
    call := fun _ _ _ _ => .error "down"
    getProperty := fun _ _ _ => .error "down"
    setProperty := fun _ _ _ _ => some "down"
    unmarshal := fun _ => .error "bad document"
    now := 0 }

/-! ## Example documents -/

/-- The node of the document in `TestParseIntrospectionXML`: one interface with two
methods, a property and a signal, and the child node `org`. -/
def testNode : Introspect.Node :=
  { Interfaces :=
      [{ Name := "org.freedesktop.DBus"
         Methods :=
           [{ Name := "Hello", Args := [{ Name := "", Typ := "s", Direction := "out" }] },
            { Name := "RequestName"
              Args := [{ Name := "name", Typ := "s", Direction := "in" },
                       { Name := "flags", Typ := "u", Direction := "in" },
                       { Name := "", Typ := "u", Direction := "out" }] }]
         Signals :=
           [{ Name := "NameOwnerChanged"
              Args := [{ Name := "name", Typ := "s", Direction := "" },
                       { Name := "old_owner", Typ := "s", Direction := "" },
                       { Name := "new_owner", Typ := "s", Direction := "" }] }]
         Properties := [{ Name := "Features", Typ := "as", Access := "read" }] }]
    Children := [{ Name := "org" }] }

/-- A decoder that reads every document as `testNode`. -/
def testUnmarshal : String → Except String Introspect.Node := fun _ => .ok testNode

/-- The node of a document whose method `Echo` declares its first argument without
a `direction` attribute:
`<node><interface name="com.example.Echo"><method name="Echo"><arg name="text"
type="s"/><arg name="reply" type="s" direction="out"/></method></interface></node>`. -/
def echoNode : Introspect.Node :=
  { Interfaces :=
      [{ Name := "com.example.Echo"
         Methods :=
           [{ Name := "Echo"
              Args := [{ Name := "text", Typ := "s", Direction := "" },
                       { Name := "reply", Typ := "s", Direction := "out" }] }]
         Signals := []
         Properties := [] }]
    Children := [] }

/-- A decoder that reads every document as `echoNode`. -/
def echoUnmarshal : String → Except String Introspect.Node := fun _ => .ok echoNode

/-- A decoder that rejects every document. -/
def failUnmarshal : String → Except String Introspect.Node :=
  fun _ => .error "EOF"

/-- An environment whose bus answers every call: every name is owned by ":1.0",
every document decodes to `testNode`, and every property reads "ok". -/
def envUp : Env :=
  { listNames := fun _ => .ok ["org.freedesktop.DBus"]
    getNameOwner := fun _ _ => .ok ":1.0"
    introspect := fun _ _ => .ok "<node/>"
    call := fun _ _ _ _ => .ok []
    getProperty := fun _ _ _ => .ok { signature := "s", value := .str "ok" }
    setProperty := fun _ _ _ _ => none
    unmarshal := testUnmarshal
    now := 7 }

/-- The environment `envUp` with a bus that refuses to read any property. -/
def envNoProps : Env :=
  { envUp with getProperty := fun _ _ _ => .error "no such property" }

/-! ## Relations between the states of an execution -/

/-- The bus type string that selects a connection field in `getConnection`. -/
def Bus.busType : Bus → String
  | .system => "system"
  | .session => "session"

/-- State `t` differs from state `s` in the effect log only, which has grown. -/
def OnlyLogged (s t : DBusService) : Prop :=
  ∃ l : List Effect, t = { s with log := s.log ++ l }

/-- Every handler of `s` is a handler of `t`, and an inactive one is still inactive. -/
def Decays (s t : DBusService) : Prop :=
  ∀ (i : Nat) (hd : SignalHandler), s.handlers[i]? = some hd →
    ∃ hd2 : SignalHandler, t.handlers[i]? = some hd2 ∧ (hd.active = false → hd2.active = false)

/-- A nil connection of `s` is nil in `t`, a connection of `s` is a connection of
`t`, and a closed one is still closed. -/
def ConnsKept (s t : DBusService) : Prop :=
  ∀ b : Bus,
    (s.conn b = none → t.conn b = none) ∧
    (∀ c : Conn, s.conn b = some c →
      ∃ c2 : Conn, t.conn b = some c2 ∧ (c.closed = true → c2.closed = true))

/-- Every id registered in `s` is registered in `t`, and `t` has at least as many
entries as `s`. -/
def RegistryKept (s t : DBusService) : Prop :=
  (∀ id : String, id ∈ mapKeys s.subscriptions → id ∈ mapKeys t.subscriptions) ∧
  s.subscriptions.length ≤ t.subscriptions.length

/-- The log of `t` is the log of `s` followed by `l`, and `l` neither acquires nor
releases the service mutex. -/
def LogGrows (s t : DBusService) (l : List Effect) : Prop :=
  t.log = s.log ++ l ∧ ∀ e ∈ l, e ≠ Effect.lock ∧ e ≠ Effect.unlock

/-- The state after `Close` on `svcOne` with a library that leaves the channels
alone (`svcOne` itself if `Close` panicked, which it does not). -/
def svcShut : DBusService :=
  match Close libKeepsChans svcOne with
  | .ok t => t
  | .error _ => svcOne

/-- The subscription of `svcOne` requested again on `svcShut`, the bus refusing the
`AddMatch` call on the closed connection. -/
def svcShutRefused : DBusService :=
  (SubscribeToSignal svcShut "system" "" "org.freedesktop.DBus" "NameOwnerChanged"
    (some "dbus: connection closed by user") 3).2

/-- The subscription of `svcOne` requested again on `svcShut`, the bus accepting
the `AddMatch` call. -/
def svcShutAccepted : DBusService :=
  (SubscribeToSignal svcShut "system" "" "org.freedesktop.DBus" "NameOwnerChanged" none 3).2

/-! ## A `Close` that panics -/

/-- The loop of `Close` over the handlers `hs`, in the order the map iteration visits
them, as far as it gets. Where `close(handler.channel)` panics the loop ends with the
handler already marked inactive and `handler.mu` still held; the flag tells whether the
loop ended in a panic. -/
def closeHandlersHeap : List Nat → DBusService → Bool × DBusService
  | [], s => (false, s)
  | h :: hs, s =>
    match s.handlers[h]? with
    | none => (true, s)
    | some hd =>
      let s1 : DBusService :=
        { s with
          handlers := s.handlers.set h { hd with active := false }
          log := s.log ++ [.handlerLock h] }
      match closeChan s1 hd.channel with
      | .error _ => (true, s1)
      | .ok s2 => closeHandlersHeap hs { s2 with log := s2.log ++ [.handlerUnlock h] }

/-- The heap that a `Close` whose loop panics leaves to a caller that recovers from
the panic: both connections have been closed, the loop has visited the handlers in
the order `hs` up to the panic, and the deferred `s.mutex.Unlock()` has run. There is
none when the loop does not panic, or when the library call `conn.Close()` itself
does. -/
def ClosePanicHeap (lib : BusLibrary) (s : DBusService) (hs : List Nat) :
    Option DBusService :=
  match connClose lib { s with log := s.log ++ [.lock] } .system with
  | .error _ => none
  | .ok s1 =>
    match connClose lib s1 .session with
    | .error _ => none
    | .ok s2 =>
      match closeHandlersHeap hs s2 with
      | (false, _) => none
      | (true, s3) => some { s3 with log := s3.log ++ [.unlock] }

/-- Executions in which the caller recovers from a panic of `Close` and goes on using
the service: state `t` is reached from state `s` by completed operations whose answers
satisfy `ok`, by signal arrivals, and by calls of `Close` that panic in their loop,
the map iteration visiting the handlers of the registry in any order `hs`. A later
`Close` that comes to a handler whose mutex a panic has left locked blocks for ever;
here it goes on, which only adds executions. -/
inductive Runs (lib : BusLibrary) (ok : DBusService → Op → Bool) :
    DBusService → DBusService → Prop where
  | refl (s : DBusService) : Runs lib ok s s
  | op {s t u : DBusService} (o : Op) :
      Runs lib ok s t → ok t o = true → exec lib t o = .ok u → Runs lib ok s u
  | arrive {s t : DBusService} (b : Bus) (sig : Signal) :
      Runs lib ok s t → Runs lib ok s (deliver t b sig)
  | panicked {s t u : DBusService} (hs : List Nat) :
      Runs lib ok s t → hs.Perm (t.subscriptions.map Prod.snd) →
      ClosePanicHeap lib t hs = some u → Runs lib ok s u

/-- The heap after `Close` on `svcOne` has panicked, the library having closed the
channel of the one handler (`svcOne` itself if there is no such heap, which there
is). -/
def svcCrashed : DBusService :=
  (ClosePanicHeap libClosesChans svcOne [0]).getD svcOne

/-- The subscription of `svcOne` requested again on `svcCrashed`, the bus refusing the
`AddMatch` call on the closed connection. -/
def svcCrashedRefused : DBusService :=
  (SubscribeToSignal svcCrashed "system" "" "org.freedesktop.DBus" "NameOwnerChanged"
    (some "dbus: connection closed by user") 3).2

/-- The subscription of `svcOne` requested again on `svcCrashed`, the bus accepting
the `AddMatch` call. -/
def svcCrashedAccepted : DBusService :=
  (SubscribeToSignal svcCrashed "system" "" "org.freedesktop.DBus" "NameOwnerChanged" none 3).2

/-! ## The match rule as a filter -/

/-- The apostrophe, the character that quotes a value in a match rule. -/
def apostrophe : Char := Char.ofNat 39

/-- Modelled from the spec: the matching predicate of the filter rule with sender
`serviceName`, interface `interfaceName` and member `signalName` (spec: E matches F
iff `E.interfaceName == F.interfaceName && E.memberName == F.memberName &&
(F.senderService == "" || E.senderService == F.senderService)`). -/
def specMatches (serviceName interfaceName signalName : String) (sig : Signal) : Bool :=
  decide (sig.iface = interfaceName) && decide (sig.member = signalName) &&
    (decide (serviceName = "") || decide (sig.sender = serviceName))

/-- A connection whose only match rule is `rule`. -/
def connWithRule (rule : String) : Conn :=
  { closed := false, matchRules := [rule], signalChans := [] }

/-! ## The handlers of `internal/handler/handler.go` that answer without the service -/

/-- The struct `model.BusInfo`. -/
structure BusInfo where
  Typ : String
  Description : String
  deriving DecidableEq, Repr

/-- The fields of `fuego.BadRequestError` that the handlers set. -/
structure BadRequestError where
  Title : String
  Detail : String
  deriving DecidableEq, Repr

/-- The request context `fuego.ContextNoBody` as far as the handlers read it: the
path parameters of the request. -/
structure Context where
  PathParam : String → String

/-- `Handler.ListBuses`: the service `s` behind the field `dbusService` is handed
back as it was received; the context, which may be nil, is not read. -/
def Handler.ListBuses (s : DBusService) (_c : Option Context) :
    Except BadRequestError (Slice BusInfo) × DBusService :=
  let buses : Slice BusInfo :=
    some [{ Typ := "system", Description := "System D-Bus" },
          { Typ := "session", Description := "Session D-Bus" }]
  (.ok buses, s)

/-- `Handler.GetBusInfo`: the bus type is the path parameter `busType` of the
request. -/
def Handler.GetBusInfo (s : DBusService) (c : Context) :
    Except BadRequestError BusInfo × DBusService :=
  let busType := c.PathParam "busType"
  if busType ≠ "system" ∧ busType ≠ "session" then
    (.error { Title := "Invalid bus type", Detail := "Bus type must be 'system' or 'session'" }, s)
  else
    let bus : BusInfo := { Typ := busType, Description := busType ++ " D-Bus" }
    (.ok bus, s)

/-- A request whose path parameters all read `v`. -/
def requestFor (v : String) : Context := { PathParam := fun _ => v }

/-! ## The effects performed while the service mutex is held -/

/-- A call on a bus connection. -/
def Effect.isBusCall : Effect → Bool
  | .connClose _ => true
  | .addMatch _ _ => true
  | .connSignal _ _ => true
  | .call _ _ _ => true
  | .getProperty _ _ _ => true
  | .setProperty _ _ _ => true
  | _ => false

/-- An operation on a channel. -/
def Effect.isChanOp : Effect → Bool
  | .makeChan _ => true
  | .closeChan _ => true
  | _ => false

/-- The effects of a sequence that occur while the service mutex is held, `held`
telling whether it is held at the start. -/
def underLock : Bool → List Effect → List Effect
  | _, [] => []
  | held, e :: rest =>
    match e with
    | .lock => underLock true rest
    | .unlock => underLock false rest
    | _ => if held then e :: underLock held rest else underLock held rest

/-- The effects that an operation leading from `s` to `t` has appended to the log. -/
def effectsSince (s t : DBusService) : List Effect := t.log.drop s.log.length

/-! # Theorems -/

/-! ## The Go map: lemmas -/

theorem mapLookup_mapInsert_self (m : List (String × Nat)) (k : String) (v : Nat) :
    mapLookup (mapInsert m k v) k = some v := by
  induction m with
  | nil => simp [mapInsert, mapLookup]
  | cons kv t ih =>
    obtain ⟨k', v'⟩ := kv
    by_cases h : k' = k
    · simp [mapInsert, mapLookup, h]
    · simp [mapInsert, mapLookup, h, ih]

theorem mapLookup_mapInsert_ne (m : List (String × Nat)) (k k2 : String) (v : Nat)
    (hne : k2 ≠ k) : mapLookup (mapInsert m k v) k2 = mapLookup m k2 := by
  induction m with
  | nil =>
    have : ¬ k = k2 := fun h => hne h.symm
    simp [mapInsert, mapLookup, this]
  | cons kv t ih =>
    obtain ⟨k', v'⟩ := kv
    by_cases h : k' = k
    · subst h
      have : ¬ k' = k2 := fun h => hne h.symm
      simp [mapInsert, mapLookup, this]
    · by_cases h2 : k' = k2
      · subst h2
        simp [mapInsert, mapLookup, h]
      · simp [mapInsert, mapLookup, h, h2, ih]

theorem mapKeys_mapInsert_of_mem (m : List (String × Nat)) (k : String) (v v0 : Nat)
    (hk : mapLookup m k = some v0) : mapKeys (mapInsert m k v) = mapKeys m := by
  induction m with
  | nil => simp [mapLookup] at hk
  | cons kv t ih =>
    obtain ⟨k', v'⟩ := kv
    by_cases h : k' = k
    · simp [mapInsert, mapKeys, h]
    · simp only [mapLookup, h, if_false] at hk
      have := ih hk
      simp only [mapKeys] at this
      simp [mapInsert, mapKeys, h, this]

theorem mem_of_mapLookup (m : List (String × Nat)) (k : String) (v : Nat)
    (hk : mapLookup m k = some v) : (k, v) ∈ m := by
  induction m with
  | nil => simp [mapLookup] at hk
  | cons kv t ih =>
    obtain ⟨k', v'⟩ := kv
    by_cases h : k' = k
    · simp only [mapLookup, h, if_true, Option.some.injEq] at hk
      simp [h, hk]
    · simp only [mapLookup, h, if_false] at hk
      exact List.mem_cons_of_mem _ (ih hk)

/-- Every value of the map after a write is the written one or an old one. -/
theorem mem_mapInsert (m : List (String × Nat)) (k : String) (v : Nat) (kv : String × Nat)
    (h : kv ∈ mapInsert m k v) : kv = (k, v) ∨ kv ∈ m := by
  induction m with
  | nil => simpa [mapInsert] using h
  | cons e t ih =>
    obtain ⟨k', v'⟩ := e
    by_cases hk : k' = k
    · simp only [mapInsert, hk, if_true, List.mem_cons] at h
      rcases h with h | h
      · exact Or.inl h
      · exact Or.inr (List.mem_cons_of_mem _ h)
    · simp only [mapInsert, hk, if_false, List.mem_cons] at h
      rcases h with h | h
      · exact Or.inr (by simp [h])
      · rcases ih h with h | h
        · exact Or.inl h
        · exact Or.inr (List.mem_cons_of_mem _ h)

/-! ## getConnection and SubscribeToSignal: basic facts -/

theorem conn_of_getConnection (s : DBusService) (busType : String) (b : Bus)
    (h : getConnection s busType = .ok b) : ∃ c, s.conn b = some c := by
  unfold getConnection at h
  split at h
  · cases hs : s.systemConn with
    | none => simp [hs] at h
    | some c =>
      simp only [hs, Except.ok.injEq] at h
      subst h
      exact ⟨c, hs⟩
  · split at h
    · cases hs : s.sessionConn with
      | none => simp [hs] at h
      | some c =>
        simp only [hs, Except.ok.injEq] at h
        subst h
        exact ⟨c, hs⟩
    · simp at h

@[simp] theorem setConn_subscriptions (s : DBusService) (b : Bus) (c : Conn) :
    (s.setConn b c).subscriptions = s.subscriptions := by
  cases b <;> rfl

@[simp] theorem setConn_handlers (s : DBusService) (b : Bus) (c : Conn) :
    (s.setConn b c).handlers = s.handlers := by
  cases b <;> rfl

@[simp] theorem setConn_chans (s : DBusService) (b : Bus) (c : Conn) :
    (s.setConn b c).chans = s.chans := by
  cases b <;> rfl

@[simp] theorem setConn_log (s : DBusService) (b : Bus) (c : Conn) :
    (s.setConn b c).log = s.log := by
  cases b <;> rfl

@[simp] theorem setConn_conn_self (s : DBusService) (b : Bus) (c : Conn) :
    (s.setConn b c).conn b = some c := by
  cases b <;> rfl

theorem setConn_conn_ne (s : DBusService) (b b' : Bus) (c : Conn) (h : b' ≠ b) :
    (s.setConn b c).conn b' = s.conn b' := by
  cases b <;> cases b' <;> first | rfl | exact absurd rfl h

/-- The state after a call whose `AddMatch` failed. -/
theorem SubscribeToSignal_error_state (s : DBusService)
    (busType serviceName interfaceName signalName e : String) (now : Nat) (b : Bus)
    (hconn : getConnection s busType = .ok b) :
    SubscribeToSignal s busType serviceName interfaceName signalName (some e) now =
      (.error ("failed to add match rule: " ++ e),
       { s with
         chans := s.chans ++ [Chan.make]
         handlers := s.handlers ++ [{ channel := s.chans.length, active := true }]
         log := s.log ++ [.makeChan s.chans.length,
                          .addMatch b (matchRule serviceName interfaceName signalName)] }) := by
  obtain ⟨c, hc⟩ := conn_of_getConnection s busType b hconn
  simp [SubscribeToSignal, hconn, hc]

/-- The state after a successful call. -/
theorem SubscribeToSignal_ok_state (s : DBusService)
    (busType serviceName interfaceName signalName : String) (now : Nat) (b : Bus) (c : Conn)
    (hconn : getConnection s busType = .ok b) (hc : s.conn b = some c) :
    SubscribeToSignal s busType serviceName interfaceName signalName none now =
      (.ok { ID := subscriptionID busType serviceName interfaceName signalName
             BusType := busType, Service := serviceName, Interface := interfaceName
             Signal := signalName, Active := true, CreatedAt := now },
       { ({ s with
            chans := s.chans ++ [Chan.make]
            handlers := s.handlers ++ [{ channel := s.chans.length, active := true }]
            log := s.log ++ [.makeChan s.chans.length,
                             .addMatch b (matchRule serviceName interfaceName signalName)] }
            : DBusService).setConn b
              { c with
                matchRules := c.matchRules ++ [matchRule serviceName interfaceName signalName]
                signalChans := c.signalChans ++ [s.chans.length] } with
         subscriptions := mapInsert s.subscriptions
           (subscriptionID busType serviceName interfaceName signalName) s.handlers.length
         log := s.log ++ [.makeChan s.chans.length,
                          .addMatch b (matchRule serviceName interfaceName signalName)] ++
                  [.connSignal b s.chans.length, .lock, .unlock] }) := by
  simp [SubscribeToSignal, hconn, hc]

/-- A call that does not get a connection changes nothing. -/
theorem SubscribeToSignal_noconn_state (s : DBusService)
    (busType serviceName interfaceName signalName e : String) (addMatchErr : Option String)
    (now : Nat) (hconn : getConnection s busType = .error e) :
    SubscribeToSignal s busType serviceName interfaceName signalName addMatchErr now =
      (.error e, s) := by
  simp [SubscribeToSignal, hconn]

/-- The id a successful call returns. -/
theorem SubscribeToSignal_ok_ID (s : DBusService)
    (busType serviceName interfaceName signalName : String) (addMatchErr : Option String)
    (now : Nat) (sub : SignalSubscription)
    (h : (SubscribeToSignal s busType serviceName interfaceName signalName addMatchErr now).1
      = .ok sub) :
    sub.ID = subscriptionID busType serviceName interfaceName signalName := by
  cases hg : getConnection s busType with
  | error e =>
    rw [SubscribeToSignal_noconn_state s _ _ _ _ e addMatchErr now hg] at h
    simp at h
  | ok b =>
    obtain ⟨c, hc⟩ := conn_of_getConnection s busType b hg
    cases addMatchErr with
    | some e =>
      rw [SubscribeToSignal_error_state s _ _ _ _ e now b hg] at h
      simp at h
    | none =>
      rw [SubscribeToSignal_ok_state s _ _ _ _ now b c hg hc] at h
      simp only [Except.ok.injEq] at h
      rw [← h]

theorem handlerOpen_of_get (s : DBusService) (h : Nat) (hd : SignalHandler) (c : Chan)
    (hh : s.handlers[h]? = some hd) (hc : s.chans[hd.channel]? = some c)
    (ha : hd.active = true) (ho : c.closed = false) : handlerOpen s h = true := by
  simp [handlerOpen, hh, hc, ha, ho]

/-! ## A failed and a successful `SubscribeToSignal` -/

/-- C1: when the `AddMatch` bus call returns an error, `SubscribeToSignal` returns
no subscription and the error "failed to add match rule: ...", the registry is
what it was before the call, both connections are what they were (so no channel
was registered with one), and the only effects are making the channel and the
`AddMatch` call itself. -/
theorem SubscribeToSignal_addMatch_error_atomic (s : DBusService)
    (busType serviceName interfaceName signalName e : String) (now : Nat) (b : Bus)
    (hconn : getConnection s busType = .ok b) :
    (SubscribeToSignal s busType serviceName interfaceName signalName (some e) now).1
        = .error ("failed to add match rule: " ++ e) ∧
    (SubscribeToSignal s busType serviceName interfaceName signalName (some e) now).2.subscriptions
        = s.subscriptions ∧
    (SubscribeToSignal s busType serviceName interfaceName signalName (some e) now).2.systemConn
        = s.systemConn ∧
    (SubscribeToSignal s busType serviceName interfaceName signalName (some e) now).2.sessionConn
        = s.sessionConn ∧
    (SubscribeToSignal s busType serviceName interfaceName signalName (some e) now).2.log
        = s.log ++ [.makeChan s.chans.length,
                    .addMatch b (matchRule serviceName interfaceName signalName)] := by
  rw [SubscribeToSignal_error_state s _ _ _ _ e now b hconn]
  exact ⟨rfl, rfl, rfl, rfl, rfl⟩

theorem SubscribeToSignal_addMatch_error_atomic_witness :
    getConnection svcOne "system" = .ok .system ∧
    (SubscribeToSignal svcOne "system" "" "org.freedesktop.DBus" "NameLost"
        (some "rejected") 2).1 = .error ("failed to add match rule: " ++ "rejected") ∧
    (SubscribeToSignal svcOne "system" "" "org.freedesktop.DBus" "NameLost"
        (some "rejected") 2).2.subscriptions = svcOne.subscriptions :=
  ⟨rfl,
   (SubscribeToSignal_addMatch_error_atomic svcOne "system" "" "org.freedesktop.DBus"
      "NameLost" "rejected" 2 .system rfl).1,
   (SubscribeToSignal_addMatch_error_atomic svcOne "system" "" "org.freedesktop.DBus"
      "NameLost" "rejected" 2 .system rfl).2.1⟩

/-- C2: when the connection of `busType` is available and `AddMatch` succeeds,
`SubscribeToSignal` returns a subscription with `Active = true`, the four arguments
and the computed id, and afterwards the registry maps that id to a handler that is
active and whose channel is open. -/
theorem SubscribeToSignal_success (s : DBusService)
    (busType serviceName interfaceName signalName : String) (now : Nat) (b : Bus)
    (hconn : getConnection s busType = .ok b) :
    (SubscribeToSignal s busType serviceName interfaceName signalName none now).1
        = .ok { ID := subscriptionID busType serviceName interfaceName signalName
                BusType := busType, Service := serviceName, Interface := interfaceName
                Signal := signalName, Active := true, CreatedAt := now } ∧
    ∃ h : Nat,
      mapLookup
        (SubscribeToSignal s busType serviceName interfaceName signalName none now).2.subscriptions
        (subscriptionID busType serviceName interfaceName signalName) = some h ∧
      handlerOpen (SubscribeToSignal s busType serviceName interfaceName signalName none now).2 h
        = true := by
  obtain ⟨c, hc⟩ := conn_of_getConnection s busType b hconn
  rw [SubscribeToSignal_ok_state s _ _ _ _ now b c hconn hc]
  refine ⟨rfl, s.handlers.length, ?_, ?_⟩
  · exact mapLookup_mapInsert_self _ _ _
  · apply handlerOpen_of_get _ _ { channel := s.chans.length, active := true } Chan.make
    · simp
    · simp
    · rfl
    · rfl

theorem SubscribeToSignal_success_witness :
    getConnection svcSystem "system" = .ok .system ∧
    (SubscribeToSignal svcSystem "system" "" "org.freedesktop.DBus" "NameOwnerChanged"
        none 1).1
      = .ok { ID := subscriptionID "system" "" "org.freedesktop.DBus" "NameOwnerChanged"
              BusType := "system", Service := "", Interface := "org.freedesktop.DBus"
              Signal := "NameOwnerChanged", Active := true, CreatedAt := 1 } :=
  ⟨rfl,
   (SubscribeToSignal_success svcSystem "system" "" "org.freedesktop.DBus" "NameOwnerChanged"
      1 .system rfl).1⟩

/-! ## Shape preservation by `Close` -/

theorem sameShape_refl (s : DBusService) : SameShape s s :=
  ⟨rfl, rfl, rfl, fun _ => rfl⟩

theorem sameShape_trans {s t u : DBusService} (h1 : SameShape s t) (h2 : SameShape t u) :
    SameShape s u :=
  ⟨h2.subs.trans h1.subs, h2.hlen.trans h1.hlen, h2.clen.trans h1.clen,
   fun i => (h2.chan i).trans (h1.chan i)⟩

theorem except_foldlM_induct {α : Type} (P : DBusService → Prop)
    (f : DBusService → α → Except String DBusService)
    (hf : ∀ s x t, P s → f s x = .ok t → P t) :
    ∀ (l : List α) (s t : DBusService), P s → l.foldlM f s = .ok t → P t := by
  intro l
  induction l with
  | nil =>
    intro s t hs h
    simp only [List.foldlM_nil, pure, Except.pure, Except.ok.injEq] at h
    exact h ▸ hs
  | cons x l ih =>
    intro s t hs h
    rw [List.foldlM_cons] at h
    cases hx : f s x with
    | error e => simp [hx, bind, Except.bind] at h
    | ok u =>
      simp only [hx, bind, Except.bind] at h
      exact ih u t (hf s x u hs hx) h

theorem closeChan_shape (s t : DBusService) (ch : Nat) (h : closeChan s ch = .ok t) :
    SameShape s t := by
  unfold closeChan at h
  split at h
  · simp at h
  · split at h
    · simp at h
    · simp only [Except.ok.injEq] at h
      subst h
      exact ⟨rfl, rfl, by simp, fun _ => rfl⟩

theorem closeHandler_shape (s t : DBusService) (h : Nat) (hc : closeHandler s h = .ok t) :
    SameShape s t := by
  unfold closeHandler at hc
  split at hc
  · simp at hc
  · rename_i hd hget
    cases hcc : closeChan { s with
        handlers := s.handlers.set h { hd with active := false }
        log := s.log ++ [.handlerLock h] } hd.channel with
    | error e => simp [hcc, Except.map] at hc
    | ok u =>
      simp only [hcc, Except.map, Except.ok.injEq] at hc
      subst hc
      have hu := closeChan_shape _ _ _ hcc
      refine ⟨hu.subs, by simpa using hu.hlen, hu.clen, ?_⟩
      intro i
      have := hu.chan i
      simp only at this
      rw [this, List.getElem?_set]
      by_cases hi : h = i
      · subst hi
        have hl : h < s.handlers.length := by
          by_contra hl
          simp [List.getElem?_eq_none (Nat.le_of_not_lt hl)] at hget
        simp [hl, hget]
      · simp [hi]

theorem setConn_shape (s : DBusService) (b : Bus) (c : Conn) : SameShape s (s.setConn b c) :=
  ⟨by simp, by simp, by simp, fun _ => by simp⟩

theorem logAppend_shape (s : DBusService) (l : List Effect) :
    SameShape s { s with log := s.log ++ l } :=
  ⟨rfl, rfl, rfl, fun _ => rfl⟩

theorem connClose_shape (lib : BusLibrary) (s t : DBusService) (b : Bus)
    (h : connClose lib s b = .ok t) : SameShape s t := by
  unfold connClose at h
  split at h
  · simp only [Except.ok.injEq] at h
    exact h ▸ sameShape_refl s
  · rename_i conn hconn
    split at h
    · simp only [Except.ok.injEq] at h
      exact h ▸ ⟨rfl, rfl, rfl, fun _ => rfl⟩
    · split at h
      · cases hf : List.foldlM closeChan
            ({ s with log := s.log ++ [.connClose b] } : DBusService) conn.signalChans with
        | error e => simp [hf, Except.map] at h
        | ok u =>
          simp only [hf, Except.map, Except.ok.injEq] at h
          subst h
          have hu : SameShape s u :=
            except_foldlM_induct (SameShape s) closeChan
              (fun a x c ha hx => sameShape_trans ha (closeChan_shape a c x hx)) _ _ _
              (logAppend_shape s [.connClose b]) hf
          exact sameShape_trans hu (setConn_shape _ _ _)
      · simp only [Except.ok.injEq] at h
        subst h
        exact sameShape_trans (logAppend_shape s [.connClose b]) (setConn_shape _ _ _)

theorem Close_shape (lib : BusLibrary) (s t : DBusService) (h : Close lib s = .ok t) :
    SameShape s t := by
  unfold Close at h
  simp only [bind, Except.bind, pure, Except.pure] at h
  split at h
  · simp at h
  · rename_i s1 h1
    split at h
    · simp at h
    · rename_i s2 h2
      split at h
      · simp at h
      · rename_i s3 h3
        simp only [Except.ok.injEq] at h
        subst h
        have a1 : SameShape s s1 :=
          sameShape_trans (logAppend_shape s [.lock]) (connClose_shape lib _ _ _ h1)
        have a2 : SameShape s s2 := sameShape_trans a1 (connClose_shape lib _ _ _ h2)
        have a3 : SameShape s s3 :=
          except_foldlM_induct (SameShape s) closeHandler
            (fun a x c ha hx => sameShape_trans ha (closeHandler_shape a c x hx)) _ _ _ a2 h3
        exact sameShape_trans a3 (logAppend_shape s3 [.unlock])

theorem wellFormed_of_shape {s t : DBusService} (hs : WellFormed s) (h : SameShape s t) :
    WellFormed t := by
  refine ⟨?_, ?_, ?_, ?_⟩
  · rw [h.hlen, h.clen]; exact hs.heaps
  · intro i hd hget
    have := h.chan i
    rw [hget] at this
    cases hsi : s.handlers[i]? with
    | none => simp [hsi] at this
    | some hd0 =>
      simp only [hsi, Option.map_some', Option.some.injEq] at this
      rw [this]
      exact hs.owns i hd0 hsi
  · intro kv hkv
    rw [h.subs] at hkv
    rw [h.hlen]
    exact hs.allocated kv hkv
  · rw [h.subs]; exact hs.distinct

/-! ## Invariants of the reachable states -/

theorem mapInsert_values_nodup (m : List (String × Nat)) (k : String) (v : Nat)
    (hm : (m.map Prod.snd).Nodup) (hv : v ∉ m.map Prod.snd) :
    ((mapInsert m k v).map Prod.snd).Nodup := by
  induction m with
  | nil => simp [mapInsert]
  | cons e t ih =>
    obtain ⟨k', v'⟩ := e
    simp only [List.map_cons, List.nodup_cons, List.mem_cons, not_or] at hm hv
    by_cases hk : k' = k
    · simp only [mapInsert, hk, if_true, List.map_cons, List.nodup_cons]
      exact ⟨hv.2, hm.2⟩
    · simp only [mapInsert, hk, if_false, List.map_cons, List.nodup_cons]
      refine ⟨?_, ih hm.2 hv.2⟩
      intro hmem
      obtain ⟨kv, hkv, hkv2⟩ := List.mem_map.mp hmem
      rcases mem_mapInsert t k v kv hkv with h | h
      · rw [h] at hkv2
        exact hv.1 hkv2
      · exact hm.1 (hkv2 ▸ List.mem_map_of_mem Prod.snd h)

theorem getElem?_append_singleton {α : Type} (l : List α) (a x : α) (i : Nat)
    (h : (l ++ [a])[i]? = some x) : l[i]? = some x ∨ (i = l.length ∧ x = a) := by
  by_cases hi : i < l.length
  · rw [List.getElem?_append_left hi] at h
    exact Or.inl h
  · rw [List.getElem?_append_right (Nat.le_of_not_lt hi)] at h
    by_cases h0 : i - l.length = 0
    · right
      rw [h0] at h
      simp only [List.getElem?_cons_zero, Option.some.injEq] at h
      exact ⟨by omega, h.symm⟩
    · obtain ⟨n, hn⟩ := Nat.exists_eq_succ_of_ne_zero h0
      rw [hn] at h
      simp at h

theorem wellFormed_init (sysOk sesOk : Bool) : WellFormed (NewDBusService sysOk sesOk) :=
  ⟨rfl, fun i hd h => by simp [NewDBusService] at h,
   fun kv h => by simp [NewDBusService] at h, by simp [NewDBusService]⟩

theorem wellFormed_alloc {s : DBusService} (hs : WellFormed s) (l : List Effect) :
    WellFormed { s with
      chans := s.chans ++ [Chan.make]
      handlers := s.handlers ++ [{ channel := s.chans.length, active := true }]
      log := l } := by
  refine ⟨by simp [hs.heaps], ?_, ?_, hs.distinct⟩
  · intro i hd h
    rcases getElem?_append_singleton _ _ _ _ h with h | ⟨hi, hx⟩
    · exact hs.owns i hd h
    · rw [hx, hi]; exact hs.heaps.symm
  · intro kv hkv
    have := hs.allocated kv hkv
    simp only [List.length_append, List.length_singleton]
    omega

theorem wellFormed_subscribe {s : DBusService} (hs : WellFormed s)
    (busType serviceName interfaceName signalName : String) (addMatchErr : Option String)
    (now : Nat) :
    WellFormed
      (SubscribeToSignal s busType serviceName interfaceName signalName addMatchErr now).2 := by
  cases hg : getConnection s busType with
  | error e =>
    rw [SubscribeToSignal_noconn_state s _ _ _ _ e addMatchErr now hg]
    exact hs
  | ok b =>
    obtain ⟨c, hc⟩ := conn_of_getConnection s busType b hg
    cases addMatchErr with
    | some e =>
      rw [SubscribeToSignal_error_state s _ _ _ _ e now b hg]
      exact wellFormed_alloc hs _
    | none =>
      rw [SubscribeToSignal_ok_state s _ _ _ _ now b c hg hc]
      have ha := wellFormed_alloc hs (s.log ++ [.makeChan s.chans.length,
        .addMatch b (matchRule serviceName interfaceName signalName)])
      refine ⟨?_, ?_, ?_, ?_⟩
      · simpa using ha.heaps
      · intro i hd h
        exact ha.owns i hd (by simpa using h)
      · intro kv hkv
        simp only [setConn_handlers, List.length_append, List.length_singleton]
        rcases mem_mapInsert _ _ _ kv hkv with h | h
        · rw [h]; exact Nat.lt_succ_self _
        · have := hs.allocated kv h
          omega
      · apply mapInsert_values_nodup _ _ _ hs.distinct
        intro hmem
        obtain ⟨kv, hkv, hkv2⟩ := List.mem_map.mp hmem
        have := hs.allocated kv hkv
        omega

theorem deliver_shape (s : DBusService) (b : Bus) (sig : Signal) :
    SameShape s (deliver s b sig) := by
  unfold deliver
  split
  · exact sameShape_refl s
  · split
    · exact sameShape_refl s
    · exact ⟨rfl, rfl, by simp, fun _ => rfl⟩

theorem wellFormed_of_reachable {lib : BusLibrary} {s : DBusService} (h : Reachable lib s) :
    WellFormed s := by
  induction h with
  | init a b => exact wellFormed_init a b
  | subscribe bt sn i_n sg e now _ ih => exact wellFormed_subscribe ih bt sn i_n sg e now
  | deliver b sig _ ih => exact wellFormed_of_shape ih (deliver_shape _ b sig)
  | close _ hc ih => exact wellFormed_of_shape ih (Close_shape _ _ _ hc)

theorem reachable_of_live (lib : BusLibrary) {s : DBusService} (h : Live s) : Reachable lib s := by
  induction h with
  | init a b => exact Reachable.init a b
  | subscribe bt sn i_n sg e now _ ih => exact Reachable.subscribe bt sn i_n sg e now ih
  | deliver b sig _ ih => exact Reachable.deliver b sig ih

theorem wellFormed_of_live {s : DBusService} (h : Live s) : WellFormed s :=
  wellFormed_of_reachable (reachable_of_live libKeepsChans h)

theorem chan_send_closed (c : Chan) (sig : Signal) : (c.send sig).closed = c.closed := by
  unfold Chan.send
  split <;> rfl

theorem allOpen_alloc {s : DBusService} (hs : AllOpen s) (i : Nat) (c : Chan)
    (h : (s.chans ++ [Chan.make])[i]? = some c) : c.closed = false := by
  rcases getElem?_append_singleton _ _ _ _ h with h | ⟨_, hx⟩
  · exact hs i c h
  · rw [hx]; rfl

theorem allOpen_of_live {s : DBusService} (h : Live s) : AllOpen s := by
  induction h with
  | init a b =>
    intro i c h
    simp [NewDBusService] at h
  | @subscribe s bt sn i_n sg e now _ ih =>
    cases hg : getConnection s bt with
    | error err =>
      rw [SubscribeToSignal_noconn_state s _ _ _ _ err e now hg]
      exact ih
    | ok b =>
      obtain ⟨c, hc⟩ := conn_of_getConnection s bt b hg
      cases e with
      | some err =>
        rw [SubscribeToSignal_error_state s _ _ _ _ err now b hg]
        exact fun i c h => allOpen_alloc ih i c h
      | none =>
        rw [SubscribeToSignal_ok_state s _ _ _ _ now b c hg hc]
        intro i c h
        exact allOpen_alloc ih i c (by simpa using h)
  | @deliver s b sig _ ih =>
    intro i c h
    unfold DBusController.deliver at h
    split at h
    · exact ih i c h
    · split at h
      · exact ih i c h
      · simp only [List.getElem?_mapIdx] at h
        cases hi : s.chans[i]? with
        | none => simp [hi] at h
        | some c0 =>
          simp only [hi, Option.map_some', Option.some.injEq] at h
          have h0 := ih i c0 hi
          rw [← h]
          split
          · rw [chan_send_closed]; exact h0
          · exact h0

/-! ## What `Close` does -/

theorem closeHandler_ok (s : DBusService) (h : Nat) (hd : SignalHandler) (c : Chan)
    (hh : s.handlers[h]? = some hd) (hc : s.chans[hd.channel]? = some c)
    (ho : c.closed = false) :
    closeHandler s h = .ok
      { s with
        handlers := s.handlers.set h { hd with active := false }
        chans := s.chans.set hd.channel { c with closed := true }
        log := s.log ++ [.handlerLock h] ++ [.closeChan hd.channel] ++ [.handlerUnlock h] } := by
  simp [closeHandler, closeChan, hh, hc, ho, Except.map]

theorem closeHandler_closed (s : DBusService) (h : Nat) (hd : SignalHandler) (c : Chan)
    (hh : s.handlers[h]? = some hd) (hc : s.chans[hd.channel]? = some c)
    (ho : c.closed = true) :
    closeHandler s h = .error "close of closed channel" := by
  simp [closeHandler, closeChan, hh, hc, ho, Except.map]

theorem getElem?_lt_of_some {α : Type} (l : List α) (i : Nat) (x : α) (h : l[i]? = some x) :
    i < l.length := by
  by_contra hl
  simp [List.getElem?_eq_none (Nat.le_of_not_lt hl)] at h

theorem closeAll_ok : ∀ (hs : List Nat) (s : DBusService), hs.Nodup →
    (∀ h ∈ hs, OpenAt s h) →
    ∃ t, hs.foldlM closeHandler s = .ok t ∧ ClosedFrom s hs t := by
  intro hs
  induction hs with
  | nil =>
    intro s _ _
    exact ⟨s, rfl, ⟨rfl, rfl, rfl, fun _ => by simp, fun _ => by simp⟩⟩
  | cons h hs ih =>
    intro s hnd hopen
    obtain ⟨hd, c, hh, hch, hc, ho⟩ := hopen h (List.mem_cons_self _ _)
    have hnd2 := List.nodup_cons.mp hnd
    have hstep := closeHandler_ok s h hd c hh (by rw [hch]; exact hc) ho
    have hlt := getElem?_lt_of_some _ _ _ hh
    have hclt := getElem?_lt_of_some _ _ _ hc
    rw [hch] at hstep
    have hopen2 : ∀ h2 ∈ hs, OpenAt
        { s with
          handlers := s.handlers.set h { channel := h, active := false }
          chans := s.chans.set h { c with closed := true }
          log := s.log ++ [.handlerLock h] ++ [.closeChan h] ++ [.handlerUnlock h] } h2 := by
      intro h2 hmem
      have hne : h ≠ h2 := fun e => hnd2.1 (e ▸ hmem)
      obtain ⟨hd2, c2, a1, a2, a3, a4⟩ := hopen h2 (List.mem_cons_of_mem _ hmem)
      exact ⟨hd2, c2, by simp [List.getElem?_set_ne hne, a1], a2,
        by simp [List.getElem?_set_ne hne, a3], a4⟩
    obtain ⟨t, ht, hcl⟩ := ih _ hnd2.2 hopen2
    refine ⟨t, ?_, ?_⟩
    · rw [List.foldlM_cons, hstep]
      exact ht
    · refine ⟨hcl.subs, hcl.sys, hcl.ses, ?_, ?_⟩
      · intro i
        rw [hcl.handlers i]
        by_cases hi : h = i
        · subst hi
          simp [hnd2.1, hh, hlt, hch]
        · have hi2 : ¬ i = h := fun e => hi e.symm
          simp [List.getElem?_set_ne hi, hi2]
      · intro i
        rw [hcl.chans i]
        by_cases hi : h = i
        · subst hi
          simp [hnd2.1, hc, hclt]
        · have hi2 : ¬ i = h := fun e => hi e.symm
          simp [List.getElem?_set_ne hi, hi2]

/-- The loop of `Close` leaves the same registry, handlers and channels whatever the
order in which it visits the registry (Go does not fix the order of a map range). -/
theorem closeAll_order_independent (hs hs' : List Nat) (s : DBusService)
    (hp : hs.Perm hs') (hnd : hs.Nodup) (hopen : ∀ h ∈ hs, OpenAt s h) :
    ∃ t t', hs.foldlM closeHandler s = .ok t ∧ hs'.foldlM closeHandler s = .ok t' ∧
      t.subscriptions = t'.subscriptions ∧ t.handlers = t'.handlers ∧ t.chans = t'.chans := by
  obtain ⟨t, ht, hcl⟩ := closeAll_ok hs s hnd hopen
  obtain ⟨t', ht', hcl'⟩ := closeAll_ok hs' s (hp.nodup_iff.mp hnd)
    (fun h hm => hopen h (hp.mem_iff.mpr hm))
  refine ⟨t, t', ht, ht', hcl.subs.trans hcl'.subs.symm, ?_, ?_⟩
  · apply List.ext_getElem?
    intro i
    rw [hcl.handlers i, hcl'.handlers i]
    simp only [hp.mem_iff]
  · apply List.ext_getElem?
    intro i
    rw [hcl.chans i, hcl'.chans i]
    simp only [hp.mem_iff]

/-- With a library that leaves the channels alone, `conn.Close()` only marks the
connection. -/
theorem connClose_keep (lib : BusLibrary) (s : DBusService) (b : Bus)
    (hlib : lib.closeClosesSignalChans = false) :
    ∃ t, connClose lib s b = .ok t ∧ t.subscriptions = s.subscriptions ∧
      t.handlers = s.handlers ∧ t.chans = s.chans := by
  unfold connClose
  split
  · exact ⟨s, rfl, rfl, rfl, rfl⟩
  · split
    · exact ⟨_, rfl, rfl, rfl, rfl⟩
    · rw [hlib]
      exact ⟨_, rfl, by simp, by simp, by simp⟩

/-- The loop of `Close` runs on the registry and heap the call started with. -/
theorem Close_keep_eq (lib : BusLibrary) (s : DBusService)
    (hlib : lib.closeClosesSignalChans = false) :
    ∃ s2, s2.subscriptions = s.subscriptions ∧ s2.handlers = s.handlers ∧
      s2.chans = s.chans ∧
      Close lib s = ((s.subscriptions.map Prod.snd).foldlM closeHandler s2).map
        (fun s3 => { s3 with log := s3.log ++ [.unlock] }) := by
  obtain ⟨s1, h1, a1, a2, a3⟩ :=
    connClose_keep lib { s with log := s.log ++ [.lock] } .system hlib
  obtain ⟨s2, h2, b1, b2, b3⟩ := connClose_keep lib s1 .session hlib
  refine ⟨s2, b1.trans a1, b2.trans a2, b3.trans a3, ?_⟩
  unfold Close
  simp only [bind, Except.bind, h1, h2, b1, a1]
  cases List.foldlM closeHandler s2 (List.map Prod.snd s.subscriptions) <;> rfl

theorem openAt_of_live {s : DBusService} (hs : Live s) (kv : String × Nat)
    (hkv : kv ∈ s.subscriptions) : OpenAt s kv.2 := by
  have hwf := wellFormed_of_live hs
  have hlt := hwf.allocated kv hkv
  have hlt2 : kv.2 < s.chans.length := hwf.heaps ▸ hlt
  refine ⟨s.handlers[kv.2], s.chans[kv.2], List.getElem?_eq_getElem hlt, ?_,
    List.getElem?_eq_getElem hlt2, ?_⟩
  · exact hwf.owns _ _ (List.getElem?_eq_getElem hlt)
  · exact allOpen_of_live hs _ _ (List.getElem?_eq_getElem hlt2)

/-- On a live service and with a library that leaves the channels alone, `Close`
returns, keeps the registry, and turns every registered handler into an inactive
one whose channel is the old channel, closed. -/
theorem Close_keep_spec (lib : BusLibrary) (s : DBusService)
    (hlib : lib.closeClosesSignalChans = false) (hs : Live s) :
    ∃ t, Close lib s = .ok t ∧ t.subscriptions = s.subscriptions ∧
      ∀ kv ∈ s.subscriptions, ∃ (hd : SignalHandler) (c : Chan),
        s.handlers[kv.2]? = some hd ∧ hd.channel = kv.2 ∧ s.chans[kv.2]? = some c ∧
        t.handlers[kv.2]? = some { channel := kv.2, active := false } ∧
        t.chans[kv.2]? = some { c with closed := true } := by
  obtain ⟨s2, e1, e2, e3, hclose⟩ := Close_keep_eq lib s hlib
  have hopen : ∀ h ∈ s.subscriptions.map Prod.snd, OpenAt s2 h := by
    intro h hmem
    obtain ⟨kv, hkv, rfl⟩ := List.mem_map.mp hmem
    obtain ⟨hd, c, a1, a2, a3, a4⟩ := openAt_of_live hs kv hkv
    exact ⟨hd, c, by rw [e2]; exact a1, a2, by rw [e3]; exact a3, a4⟩
  obtain ⟨t, ht, hcl⟩ := closeAll_ok _ s2 (wellFormed_of_live hs).distinct hopen
  refine ⟨{ t with log := t.log ++ [.unlock] }, ?_, hcl.subs.trans e1, ?_⟩
  · rw [hclose, ht]; rfl
  · intro kv hkv
    obtain ⟨hd, c, a1, a2, a3, _⟩ := openAt_of_live hs kv hkv
    have hmem : kv.2 ∈ s.subscriptions.map Prod.snd := List.mem_map_of_mem _ hkv
    refine ⟨hd, c, a1, a2, a3, ?_, ?_⟩
    · show t.handlers[kv.2]? = _
      rw [hcl.handlers kv.2, e2, a1]
      simp [hmem, a2]
    · show t.chans[kv.2]? = _
      rw [hcl.chans kv.2, e3, a3]
      simp [hmem]

/-- C3: a second successful `SubscribeToSignal` with the parameters of an existing
registry entry overwrites it: the call returns a subscription and no error, the
keys of the registry are unchanged, and the entry under the id is a handler that
did not exist before the call (so it differs from the one stored before), is
active, and has a channel that did not exist before the call and is open. -/
theorem SubscribeToSignal_overwrites (lib : BusLibrary) (s : DBusService)
    (busType serviceName interfaceName signalName : String) (now : Nat) (b : Bus) (h0 : Nat)
    (hs : Reachable lib s) (hconn : getConnection s busType = .ok b)
    (hold : mapLookup s.subscriptions
      (subscriptionID busType serviceName interfaceName signalName) = some h0) :
    (∃ sub, (SubscribeToSignal s busType serviceName interfaceName signalName none now).1
        = .ok sub) ∧
    mapKeys (SubscribeToSignal s busType serviceName interfaceName signalName none
        now).2.subscriptions = mapKeys s.subscriptions ∧
    ∃ (h1 : Nat) (hd : SignalHandler),
      mapLookup (SubscribeToSignal s busType serviceName interfaceName signalName none
        now).2.subscriptions (subscriptionID busType serviceName interfaceName signalName)
        = some h1 ∧
      h1 ≠ h0 ∧ s.handlers[h1]? = none ∧
      (SubscribeToSignal s busType serviceName interfaceName signalName none
        now).2.handlers[h1]? = some hd ∧
      s.chans[hd.channel]? = none ∧
      handlerOpen (SubscribeToSignal s busType serviceName interfaceName signalName none
        now).2 h1 = true := by
  obtain ⟨c, hc⟩ := conn_of_getConnection s busType b hconn
  have hlt := (wellFormed_of_reachable hs).allocated _ (mem_of_mapLookup _ _ _ hold)
  rw [SubscribeToSignal_ok_state s _ _ _ _ now b c hconn hc]
  refine ⟨⟨_, rfl⟩, mapKeys_mapInsert_of_mem _ _ _ _ hold, s.handlers.length,
    { channel := s.chans.length, active := true }, mapLookup_mapInsert_self _ _ _, ?_, ?_, ?_,
    ?_, ?_⟩
  · exact fun e => absurd hlt (by simp [← e])
  · exact List.getElem?_eq_none (Nat.le_refl _)
  · simp
  · exact List.getElem?_eq_none (Nat.le_refl _)
  · apply handlerOpen_of_get _ _ { channel := s.chans.length, active := true } Chan.make
    · simp
    · simp
    · rfl
    · rfl

theorem SubscribeToSignal_overwrites_witness :
    Reachable libKeepsChans svcOne ∧
    getConnection svcOne "system" = .ok .system ∧
    mapLookup svcOne.subscriptions
      (subscriptionID "system" "" "org.freedesktop.DBus" "NameOwnerChanged") = some 0 ∧
    mapKeys (SubscribeToSignal svcOne "system" "" "org.freedesktop.DBus" "NameOwnerChanged"
      none 2).2.subscriptions = mapKeys svcOne.subscriptions :=
  ⟨Reachable.subscribe _ _ _ _ _ _ (Reachable.init true false), rfl, rfl,
   (SubscribeToSignal_overwrites libKeepsChans svcOne "system" ""
      "org.freedesktop.DBus" "NameOwnerChanged" 2 .system 0
      (Reachable.subscribe _ _ _ _ _ _ (Reachable.init true false)) rfl rfl).2.1⟩

/-- C4: the claim fails on the code. After `SubscribeToSignal` succeeded twice with the
same parameters, handler 0 (stored by the first call, replaced by the second) is
not reached by `Close`: with a library that leaves the channels alone `Close`
returns and handler 0 is still active with an open channel; with a library that
closes registered channels `Close` panics. -/
theorem Close_leaves_overwritten_handler_open :
    mapLookup svcOne.subscriptions
      (subscriptionID "system" "" "org.freedesktop.DBus" "NameOwnerChanged") = some 0 ∧
    mapLookup svcTwice.subscriptions
      (subscriptionID "system" "" "org.freedesktop.DBus" "NameOwnerChanged") = some 1 ∧
    (Close libKeepsChans svcTwice).toOption.map (fun t => handlerOpen t 0) = some true ∧
    (Close libKeepsChans svcTwice).toOption.map (fun t => handlerClosed t 1) = some true ∧
    Close libClosesChans svcTwice = .error "close of closed channel" :=
  ⟨rfl, rfl, rfl, rfl, rfl⟩

/-- The loop of `Close` on its own: if the bus library left the channels passed to
`Signal` open in `Conn.Close`, then on every state reached from `NewDBusService` by
`SubscribeToSignal` calls and signal arrivals `Close` would return, the registry
unchanged and every handler in it inactive with a closed channel that still holds
the signals it held. -/
theorem Close_closes_every_subscription (lib : BusLibrary) (s : DBusService)
    (hlib : lib.closeClosesSignalChans = false) (hs : Live s) :
    ∃ t, Close lib s = .ok t ∧ t.subscriptions = s.subscriptions ∧
      ∀ kv ∈ t.subscriptions,
        handlerClosed t kv.2 = true ∧ handlerOpen t kv.2 = false ∧
        handlerBuf t kv.2 = handlerBuf s kv.2 := by
  obtain ⟨t, ht, hsub, hall⟩ := Close_keep_spec lib s hlib hs
  refine ⟨t, ht, hsub, ?_⟩
  intro kv hkv
  rw [hsub] at hkv
  obtain ⟨hd, c, a1, a2, a3, a4, a5⟩ := hall kv hkv
  refine ⟨?_, ?_, ?_⟩
  · simp [handlerClosed, a4, a5]
  · simp [handlerOpen, a4]
  · simp [handlerBuf, a4, a5, a1, a2, a3]

theorem Close_closes_every_subscription_witness :
    libKeepsChans.closeClosesSignalChans = false ∧ Live svcTwo ∧
    ∃ t, Close libKeepsChans svcTwo = .ok t ∧ t.subscriptions = svcTwo.subscriptions ∧
      ∀ kv ∈ t.subscriptions,
        handlerClosed t kv.2 = true ∧ handlerOpen t kv.2 = false ∧
        handlerBuf t kv.2 = handlerBuf svcTwo kv.2 :=
  ⟨rfl, Live.subscribe _ _ _ _ _ _ (Live.subscribe _ _ _ _ _ _ (Live.init true false)),
   Close_closes_every_subscription libKeepsChans svcTwo rfl
     (Live.subscribe _ _ _ _ _ _ (Live.subscribe _ _ _ _ _ _ (Live.init true false)))⟩

/-- With a library that leaves the channels alone, a second `Close` on a service
with a registered subscription panics: the first call closed the channel of every
registered handler and the second closes it again. -/
theorem Close_twice_panics (lib : BusLibrary) (s : DBusService)
    (hlib : lib.closeClosesSignalChans = false) (hs : Live s)
    (hne : s.subscriptions ≠ []) :
    ∃ t, Close lib s = .ok t ∧ Close lib t = .error "close of closed channel" := by
  obtain ⟨t, ht, hsub, hall⟩ := Close_keep_spec lib s hlib hs
  refine ⟨t, ht, ?_⟩
  obtain ⟨s2, e1, e2, e3, hclose⟩ := Close_keep_eq lib t hlib
  cases hl : s.subscriptions with
  | nil => exact absurd hl hne
  | cons kv rest =>
    obtain ⟨hd, c, _, _, _, a4, a5⟩ := hall kv (by simp [hl])
    have hstep : closeHandler s2 kv.2 = .error "close of closed channel" :=
      closeHandler_closed s2 kv.2 { channel := kv.2, active := false } { c with closed := true }
        (by rw [e2]; exact a4) (by rw [e3]; exact a5) rfl
    rw [hclose, hsub, hl, List.map_cons, List.foldlM_cons, hstep]
    rfl

/-- C6: the claim fails on the code. On a service with one registered subscription
the first `Close` returns and the second panics with "close of closed channel"
(library leaving the channels alone); when the library itself closes registered
channels, already the first `Close` panics. -/
theorem Close_not_idempotent :
    (Close libKeepsChans svcOne).toOption.map (fun t => handlerClosed t 0) = some true ∧
    (Close libKeepsChans svcOne >>= Close libKeepsChans)
      = .error "close of closed channel" ∧
    Close libClosesChans svcOne = .error "close of closed channel" :=
  ⟨rfl, rfl, rfl⟩

/-! ## Signal arrival: lemmas -/

theorem ne_append_of_take_ne (r a x : String)
    (h : r.data.take a.data.length ≠ a.data) : r ≠ a ++ x := by
  intro e
  apply h
  rw [e, String.data_append, List.take_left']
  rfl

/-- What signal arrival does to one open channel with room. -/
theorem deliver_chan (s : DBusService) (b : Bus) (conn : Conn) (sig : Signal) (ch : Nat)
    (c0 : Chan) (hconn : s.conn b = some conn) (hopen : conn.closed = false)
    (hch : s.chans[ch]? = some c0) (hc0 : c0.closed = false)
    (hroom : c0.buf.length < c0.cap) :
    (deliver s b sig).chans[ch]? =
      some (if ch ∈ conn.signalChans ∧ busForwards conn sig = true
            then { c0 with buf := c0.buf ++ [sig] } else c0) := by
  unfold deliver
  rw [hconn]
  by_cases hf : busForwards conn sig = true
  · have hsend : c0.send sig = { c0 with buf := c0.buf ++ [sig] } := by
      have : ¬ c0.cap ≤ c0.buf.length := by omega
      simp [Chan.send, hc0, this]
    by_cases hm : ch ∈ conn.signalChans
    · simp [hopen, hf, hch, hm, hsend]
    · simp [hopen, hf, hch, hm]
  · simp [hopen, hf, hch]

theorem busForwards_svcOne_lost (sender path : String) :
    busForwards
      { closed := false
        matchRules := ["type='signal',interface='org.freedesktop.DBus',member='NameOwnerChanged'"]
        signalChans := [0] }
      { sender := sender, path := path, iface := "org.freedesktop.DBus", member := "NameLost" }
      = false := by
  have h1 : "type='signal',interface='org.freedesktop.DBus',member='NameOwnerChanged'"
      ≠ matchRule "" "org.freedesktop.DBus" "NameLost" := by decide
  have h2 : "type='signal',interface='org.freedesktop.DBus',member='NameOwnerChanged'"
      ≠ matchRule sender "org.freedesktop.DBus" "NameLost" := by
    unfold matchRule
    split
    · exact ne_append_of_take_ne _ _ _ (by decide)
    · decide
  simp [busForwards, h1, h2]

/-- C7 (counterexample): with a second subscription for `NameLost` on the same
connection, a `NameLost` signal is placed on the channel of the `NameOwnerChanged`
subscription (handler 0). -/
theorem NameLost_reaches_NameOwnerChanged_channel :
    mapLookup svcTwo.subscriptions
      (subscriptionID "system" "" "org.freedesktop.DBus" "NameOwnerChanged") = some 0 ∧
    handlerBuf svcTwo 0 = [] ∧
    handlerBuf (deliver svcTwo .system sigNameLost) 0 = [sigNameLost] :=
  ⟨rfl, rfl, rfl⟩

/-- C7 (amended): a signal is placed on an open channel with room exactly when the
channel is registered with the connection and the bus forwards the signal to that
connection, that is, when the signal matches the rule of some subscription of the
connection. For the single subscription to `NameOwnerChanged` without sender, a
`NameOwnerChanged` signal from any sender is delivered and a `NameLost` signal from
any sender changes nothing. -/
theorem deliver_follows_connection_rules :
    (∀ (s : DBusService) (b : Bus) (conn : Conn) (sig : Signal) (ch : Nat) (c0 : Chan),
      s.conn b = some conn → conn.closed = false → s.chans[ch]? = some c0 →
      c0.closed = false → c0.buf.length < c0.cap →
      (deliver s b sig).chans[ch]? =
        some (if ch ∈ conn.signalChans ∧ busForwards conn sig = true
              then { c0 with buf := c0.buf ++ [sig] } else c0)) ∧
    (∀ sender path : String,
      handlerBuf (deliver svcOne .system
        { sender := sender, path := path, iface := "org.freedesktop.DBus"
          member := "NameOwnerChanged" }) 0 =
        [{ sender := sender, path := path, iface := "org.freedesktop.DBus"
           member := "NameOwnerChanged" }]) ∧
    (∀ sender path : String,
      deliver svcOne .system
        { sender := sender, path := path, iface := "org.freedesktop.DBus"
          member := "NameLost" } = svcOne) := by
  refine ⟨deliver_chan, ?_, ?_⟩
  · intro sender path
    have hc : svcOne.conn .system = some
        { closed := false
          matchRules :=
            ["type='signal',interface='org.freedesktop.DBus',member='NameOwnerChanged'"]
          signalChans := [0] } := rfl
    have hch : svcOne.chans[0]? = some Chan.make := rfl
    have hh : svcOne.handlers[0]? = some { channel := 0, active := true } := rfl
    have hf : busForwards
        { closed := false
          matchRules :=
            ["type='signal',interface='org.freedesktop.DBus',member='NameOwnerChanged'"]
          signalChans := [0] }
        { sender := sender, path := path, iface := "org.freedesktop.DBus"
          member := "NameOwnerChanged" } = true := by
      have h1 : "type='signal',interface='org.freedesktop.DBus',member='NameOwnerChanged'"
          = matchRule "" "org.freedesktop.DBus" "NameOwnerChanged" := by decide
      simp [busForwards, ← h1]
    have hd := deliver_chan svcOne .system _
      { sender := sender, path := path, iface := "org.freedesktop.DBus"
        member := "NameOwnerChanged" } 0 Chan.make hc rfl hch rfl (by decide)
    have hh2 : (deliver svcOne .system
        { sender := sender, path := path, iface := "org.freedesktop.DBus"
          member := "NameOwnerChanged" }).handlers[0]?
        = some { channel := 0, active := true } := by
      unfold deliver
      rw [hc]
      simp only [hf]
      exact hh
    simp only [hf, List.mem_singleton, and_self, if_true] at hd
    simp [handlerBuf, hh2, hd, Chan.make]
  · intro sender path
    have hc : svcOne.conn .system = some
        { closed := false
          matchRules :=
            ["type='signal',interface='org.freedesktop.DBus',member='NameOwnerChanged'"]
          signalChans := [0] } := rfl
    unfold deliver
    rw [hc]
    simp [busForwards_svcOne_lost]

theorem deliver_follows_connection_rules_witness :
    svcTwo.conn .system = some
      { closed := false
        matchRules :=
          ["type='signal',interface='org.freedesktop.DBus',member='NameOwnerChanged'",
           "type='signal',interface='org.freedesktop.DBus',member='NameLost'"]
        signalChans := [0, 1] } ∧
    svcTwo.chans[1]? = some Chan.make ∧
    (deliver svcTwo .system sigNameLost).chans[1]? =
      some { cap := 100, buf := [sigNameLost], closed := false } :=
  ⟨rfl, rfl,
   (deliver_follows_connection_rules.1 svcTwo .system _ sigNameLost 1 Chan.make
      rfl rfl rfl rfl (by decide)).trans rfl⟩

/-! ## The match rule and the subscription id -/

theorem matchRule_empty_sender (interfaceName signalName : String) :
    matchRule "" interfaceName signalName =
      "type='signal',interface='" ++ interfaceName ++ "',member='" ++ signalName ++ "'" := by
  simp [matchRule]

theorem matchRule_with_sender (serviceName interfaceName signalName : String)
    (h : serviceName ≠ "") :
    matchRule serviceName interfaceName signalName =
      "type='signal',interface='" ++ interfaceName ++ "',member='" ++ signalName ++
        "',sender='" ++ serviceName ++ "'" := by
  have hq : "',sender='" = "'" ++ ",sender='" := by decide
  simp only [matchRule, h, ne_eq, not_false_eq_true, if_true, hq, String.append_assoc]

theorem append_ne_self_of_pos (a x : String) (h : 0 < x.length) : a ++ x ≠ a := by
  intro e
  have := congrArg String.length e
  rw [String.length_append] at this
  omega

/-- The text of the rule `SubscribeToSignal` passes to `AddMatch` (the one `AddMatch`
call the operation adds to the effect log): "type='signal',interface='I',member='M'"
when the service name is empty and that text followed by ",sender='S'" when it is
not; the sender clause is in the text if and only if the service name is non-empty. -/
theorem addMatch_rule_text (s : DBusService)
    (busType serviceName interfaceName signalName : String) (addMatchErr : Option String)
    (now : Nat) (b : Bus) (hconn : getConnection s busType = .ok b) :
    addMatchCalls (SubscribeToSignal s busType serviceName interfaceName signalName
        addMatchErr now).2.log =
      addMatchCalls s.log ++
        [(b, if serviceName = "" then
               "type='signal',interface='" ++ interfaceName ++ "',member='" ++ signalName ++ "'"
             else
               "type='signal',interface='" ++ interfaceName ++ "',member='" ++ signalName ++
                 "',sender='" ++ serviceName ++ "'")] ∧
    (matchRule serviceName interfaceName signalName =
        "type='signal',interface='" ++ interfaceName ++ "',member='" ++ signalName ++ "'"
      ↔ serviceName = "") := by
  obtain ⟨c, hc⟩ := conn_of_getConnection s busType b hconn
  have hrule : matchRule serviceName interfaceName signalName =
      if serviceName = "" then
        "type='signal',interface='" ++ interfaceName ++ "',member='" ++ signalName ++ "'"
      else
        "type='signal',interface='" ++ interfaceName ++ "',member='" ++ signalName ++
          "',sender='" ++ serviceName ++ "'" := by
    by_cases h : serviceName = ""
    · rw [if_pos h, h]; exact matchRule_empty_sender _ _
    · rw [if_neg h]; exact matchRule_with_sender _ _ _ h
  constructor
  · rw [← hrule]
    cases addMatchErr with
    | some e =>
      rw [SubscribeToSignal_error_state s _ _ _ _ e now b hconn]
      simp [addMatchCalls, List.filterMap_append]
    | none =>
      rw [SubscribeToSignal_ok_state s _ _ _ _ now b c hconn hc]
      simp [addMatchCalls, List.filterMap_append]
  · constructor
    · intro h
      by_contra hne
      have h2 : matchRule serviceName interfaceName signalName =
          ("type='signal',interface='" ++ interfaceName ++ "',member='" ++ signalName ++ "'")
            ++ (",sender='" ++ serviceName ++ "'") := by
        simp [matchRule, hne]
      rw [h2] at h
      refine append_ne_self_of_pos _ _ ?_ h
      simp only [String.length_append]
      have : (",sender='" : String).length = 9 := by decide
      omega
    · intro h
      rw [h]
      exact matchRule_empty_sender _ _

theorem addMatch_rule_text_witness :
    getConnection svcSystem "system" = .ok .system ∧
    addMatchCalls (SubscribeToSignal svcSystem "system" ":1.42" "org.freedesktop.DBus"
        "NameOwnerChanged" none 1).2.log =
      [(.system,
        "type='signal',interface='org.freedesktop.DBus',member='NameOwnerChanged',sender=':1.42'")] :=
  ⟨rfl,
   (addMatch_rule_text svcSystem "system" ":1.42" "org.freedesktop.DBus" "NameOwnerChanged"
      none 1 .system rfl).1.trans (by decide)⟩

/-- C9: the id a successful `SubscribeToSignal` returns is
`busType + ":" + serviceName + ":" + interfaceName + ":" + signalName`,
whatever the state, the `AddMatch` answer and the time, so two successful calls
with the same parameters return equal ids. -/
theorem subscription_id_deterministic (s s' : DBusService)
    (busType serviceName interfaceName signalName : String)
    (addMatchErr addMatchErr' : Option String) (now now' : Nat)
    (sub sub' : SignalSubscription)
    (h : (SubscribeToSignal s busType serviceName interfaceName signalName addMatchErr now).1
      = .ok sub)
    (h' : (SubscribeToSignal s' busType serviceName interfaceName signalName addMatchErr'
      now').1 = .ok sub') :
    sub.ID = busType ++ ":" ++ serviceName ++ ":" ++ interfaceName ++ ":" ++ signalName ∧
    sub'.ID = sub.ID := by
  have h1 := SubscribeToSignal_ok_ID s _ _ _ _ addMatchErr now sub h
  have h2 := SubscribeToSignal_ok_ID s' _ _ _ _ addMatchErr' now' sub' h'
  exact ⟨h1, h2.trans h1.symm⟩

theorem subscription_id_deterministic_witness :
    (SubscribeToSignal svcSystem "system" "" "org.freedesktop.DBus" "NameOwnerChanged"
      none 1).1
      = .ok { ID := "system::org.freedesktop.DBus:NameOwnerChanged"
              BusType := "system", Service := "", Interface := "org.freedesktop.DBus"
              Signal := "NameOwnerChanged", Active := true, CreatedAt := 1 } ∧
    (SubscribeToSignal svcOne "system" "" "org.freedesktop.DBus" "NameOwnerChanged"
      none 2).1
      = .ok { ID := "system::org.freedesktop.DBus:NameOwnerChanged"
              BusType := "system", Service := "", Interface := "org.freedesktop.DBus"
              Signal := "NameOwnerChanged", Active := true, CreatedAt := 2 } ∧
    "system::org.freedesktop.DBus:NameOwnerChanged"
      = "system" ++ ":" ++ "" ++ ":" ++ "org.freedesktop.DBus" ++ ":" ++ "NameOwnerChanged" :=
  ⟨rfl, rfl,
   (subscription_id_deterministic svcSystem svcOne "system" "" "org.freedesktop.DBus"
      "NameOwnerChanged" none none 1 2
      { ID := "system::org.freedesktop.DBus:NameOwnerChanged"
        BusType := "system", Service := "", Interface := "org.freedesktop.DBus"
        Signal := "NameOwnerChanged", Active := true, CreatedAt := 1 }
      { ID := "system::org.freedesktop.DBus:NameOwnerChanged"
        BusType := "system", Service := "", Interface := "org.freedesktop.DBus"
        Signal := "NameOwnerChanged", Active := true, CreatedAt := 2 } rfl rfl).1⟩

/-- C10: the claim fails on the code. The filters (system, ":1.5", "org.example.Iface",
"Changed") and (system, "", "1.5:org.example.Iface", "Changed") differ and get the
same id; when both subscriptions succeed they share one registry entry, and the
second replaces the handler of the first. -/
theorem subscriptionID_collision :
    ("system", ":1.5", "org.example.Iface", "Changed")
      ≠ ("system", "", "1.5:org.example.Iface", "Changed") ∧
    subscriptionID "system" ":1.5" "org.example.Iface" "Changed"
      = subscriptionID "system" "" "1.5:org.example.Iface" "Changed" ∧
    (SubscribeToSignal svcSystem "system" ":1.5" "org.example.Iface" "Changed"
      none 1).2.subscriptions = [("system::1.5:org.example.Iface:Changed", 0)] ∧
    (SubscribeToSignal
      (SubscribeToSignal svcSystem "system" ":1.5" "org.example.Iface" "Changed" none 1).2
      "system" "" "1.5:org.example.Iface" "Changed" none 2).2.subscriptions
      = [("system::1.5:org.example.Iface:Changed", 1)] :=
  ⟨by decide, by decide, rfl, rfl⟩

theorem split_first_sep {α : Type} (x : α) :
    ∀ (a a' r r' : List α), x ∉ a → x ∉ a' → a ++ x :: r = a' ++ x :: r' →
      a = a' ∧ r = r' := by
  intro a
  induction a with
  | nil =>
    intro a' r r' _ ha' h
    cases a' with
    | nil => simpa using h
    | cons y t =>
      simp only [List.nil_append, List.cons_append, List.cons.injEq] at h
      exact absurd (by simp [h.1]) ha'
  | cons y t ih =>
    intro a' r r' ha ha' h
    cases a' with
    | nil =>
      simp only [List.nil_append, List.cons_append, List.cons.injEq] at h
      exact absurd (by simp [h.1]) ha
    | cons z u =>
      simp only [List.cons_append, List.cons.injEq] at h
      simp only [List.mem_cons, not_or] at ha ha'
      obtain ⟨e1, e2⟩ := ih u r r' ha.2 ha'.2 h.2
      exact ⟨by rw [h.1, e1], e2⟩

theorem split_last_sep {α : Type} (x : α) (r r' d d' : List α) (hd : x ∉ d) (hd' : x ∉ d')
    (h : r ++ x :: d = r' ++ x :: d') : r = r' ∧ d = d' := by
  have h2 := congrArg List.reverse h
  simp only [List.reverse_append, List.reverse_cons, List.append_assoc, List.singleton_append]
    at h2
  obtain ⟨e1, e2⟩ := split_first_sep x d.reverse d'.reverse r.reverse r'.reverse
    (by simpa using hd) (by simpa using hd') h2
  exact ⟨List.reverse_injective e2, List.reverse_injective e1⟩

/-- The subscription id determines the filter when the bus type, the interface
name and the signal name contain no colon (as valid D-Bus names do). -/
theorem subscriptionID_injective_of_no_colon
    (busType serviceName interfaceName signalName : String)
    (busType' serviceName' interfaceName' signalName' : String)
    (hb : ':' ∉ busType.data) (hb' : ':' ∉ busType'.data)
    (hi : ':' ∉ interfaceName.data) (hi' : ':' ∉ interfaceName'.data)
    (hm : ':' ∉ signalName.data) (hm' : ':' ∉ signalName'.data)
    (h : subscriptionID busType serviceName interfaceName signalName
      = subscriptionID busType' serviceName' interfaceName' signalName') :
    busType = busType' ∧ serviceName = serviceName' ∧ interfaceName = interfaceName' ∧
      signalName = signalName' := by
  have hd := congrArg String.data h
  have hc : (":" : String).data = [':'] := rfl
  simp only [subscriptionID, String.data_append, hc, List.append_assoc,
    List.singleton_append] at hd
  obtain ⟨e1, r1⟩ := split_first_sep ':' _ _ _ _ hb hb' hd
  have r2 : (serviceName.data ++ ':' :: interfaceName.data) ++ ':' :: signalName.data
      = (serviceName'.data ++ ':' :: interfaceName'.data) ++ ':' :: signalName'.data := by
    simpa using r1
  obtain ⟨r3, e4⟩ := split_last_sep ':' _ _ _ _ hm hm' r2
  obtain ⟨e2, e3⟩ := split_last_sep ':' _ _ _ _ hi hi' r3
  exact ⟨String.ext e1, String.ext e2, String.ext e3, String.ext e4⟩

/-! ## `Close` with a library that closes the registered channels -/

theorem connChans_setConn_self (s : DBusService) (b : Bus) (c : Conn) :
    connChans (s.setConn b c) b = c.signalChans := by
  simp [connChans]

theorem connChans_setConn_ne (s : DBusService) (b b' : Bus) (c : Conn) (h : b' ≠ b) :
    connChans (s.setConn b c) b' = connChans s b' := by
  simp [connChans, setConn_conn_ne s b b' c h]

theorem registered_init (sysOk sesOk : Bool) : Registered (NewDBusService sysOk sesOk) := by
  refine ⟨fun kv h => by simp [NewDBusService] at h, ?_, ?_, ?_⟩
  · cases sysOk <;> cases sesOk <;> simp [connChans, NewDBusService, DBusService.conn, Conn.fresh]
  · intro b ch h
    cases b <;> cases sysOk <;> cases sesOk <;>
      simp [connChans, NewDBusService, DBusService.conn, Conn.fresh] at h
  · intro b c h
    cases b <;> cases sysOk <;> cases sesOk <;>
      simp [NewDBusService, DBusService.conn, Conn.fresh] at h <;> simp [← h]

theorem registered_subscribe {s : DBusService} (hw : WellFormed s) (hr : Registered s)
    (busType serviceName interfaceName signalName : String) (addMatchErr : Option String)
    (now : Nat) :
    Registered
      (SubscribeToSignal s busType serviceName interfaceName signalName addMatchErr now).2 := by
  cases hg : getConnection s busType with
  | error e =>
    rw [SubscribeToSignal_noconn_state s _ _ _ _ e addMatchErr now hg]
    exact hr
  | ok b =>
    obtain ⟨c, hc⟩ := conn_of_getConnection s busType b hg
    cases addMatchErr with
    | some e =>
      rw [SubscribeToSignal_error_state s _ _ _ _ e now b hg]
      refine ⟨hr.covered, hr.once, ?_, hr.connOpen⟩
      intro b' ch hch
      have := hr.inRange b' ch hch
      simp only [List.length_append, List.length_singleton]
      omega
    | none =>
      rw [SubscribeToSignal_ok_state s _ _ _ _ now b c hg hc]
      have hcs : connChans s b = c.signalChans := by simp [connChans, hc]
      have hfresh : ∀ b', s.chans.length ∉ connChans s b' :=
        fun b' hm => absurd (hr.inRange b' _ hm) (Nat.lt_irrefl _)
      refine ⟨?_, ?_, ?_, ?_⟩
      · intro kv hkv
        rcases mem_mapInsert _ _ _ kv (by simpa using hkv) with h | h
        · have hv : kv.2 = s.chans.length := by rw [h]; exact hw.heaps
          cases b with
          | system => left; simp [connChans, DBusService.conn, DBusService.setConn, hv]
          | session => right; simp [connChans, DBusService.conn, DBusService.setConn, hv]
        · rcases hr.covered kv h with h1 | h1
          · left
            cases b with
            | system =>
              have : kv.2 ∈ c.signalChans := by rw [← hcs]; exact h1
              simp [connChans, DBusService.conn, DBusService.setConn, this]
            | session =>
              simpa [connChans, DBusService.conn, DBusService.setConn] using h1
          · right
            cases b with
            | system =>
              simpa [connChans, DBusService.conn, DBusService.setConn] using h1
            | session =>
              have : kv.2 ∈ c.signalChans := by rw [← hcs]; exact h1
              simp [connChans, DBusService.conn, DBusService.setConn, this]
      · have h0 := hr.once
        have f1 := hfresh .system
        have f2 := hfresh .session
        cases b with
        | system =>
          have e1 : connChans s .system = c.signalChans := hcs
          rw [e1] at h0 f1
          simp only [connChans, DBusService.conn, DBusService.setConn] at h0 f2 ⊢
          rw [List.nodup_append] at h0 ⊢
          refine ⟨?_, h0.2.1, ?_⟩
          · rw [List.nodup_append]
            exact ⟨h0.1, by simp, by simpa using f1⟩
          · intro x hx hy
            rcases List.mem_append.mp hx with hx | hx
            · exact h0.2.2 hx hy
            · simp only [List.mem_singleton] at hx
              exact f2 (hx ▸ hy)
        | session =>
          have e1 : connChans s .session = c.signalChans := hcs
          rw [e1] at h0 f2
          simp only [connChans, DBusService.conn, DBusService.setConn] at h0 f1 ⊢
          rw [List.nodup_append] at h0 ⊢
          refine ⟨h0.1, ?_, ?_⟩
          · rw [List.nodup_append]
            exact ⟨h0.2.1, by simp, by simpa using f2⟩
          · intro x hx hy
            rcases List.mem_append.mp hy with hy | hy
            · exact h0.2.2 hx hy
            · simp only [List.mem_singleton] at hy
              exact f1 (hy ▸ hx)
      · intro b' ch hch
        simp only [setConn_chans, List.length_append, List.length_singleton]
        by_cases hb : b' = b
        · subst hb
          have : ch ∈ c.signalChans ++ [s.chans.length] := by
            cases b' <;> simpa [connChans, DBusService.conn, DBusService.setConn] using hch
          rcases List.mem_append.mp this with h | h
          · have := hr.inRange b' ch (by rw [hcs]; exact h)
            omega
          · simp only [List.mem_singleton] at h
            omega
        · have : ch ∈ connChans s b' := by
            cases b <;> cases b' <;>
              first
              | exact absurd rfl hb
              | simpa [connChans, DBusService.conn, DBusService.setConn] using hch
          have := hr.inRange b' ch this
          omega
      · intro b' c' hc'
        by_cases hb : b' = b
        · subst hb
          have : c' = { c with
              matchRules := c.matchRules ++ [matchRule serviceName interfaceName signalName]
              signalChans := c.signalChans ++ [s.chans.length] } := by
            cases b' <;> simpa [DBusService.conn, DBusService.setConn] using hc'.symm
          rw [this]
          exact hr.connOpen b' c hc
        · apply hr.connOpen b' c'
          cases b <;> cases b' <;>
            first
            | exact absurd rfl hb
            | simpa [DBusService.conn, DBusService.setConn] using hc'

theorem registered_deliver {s : DBusService} (hr : Registered s) (b : Bus) (sig : Signal) :
    Registered (deliver s b sig) := by
  unfold deliver
  split
  · exact hr
  · split
    · exact hr
    · exact ⟨hr.covered, hr.once, fun b' ch h => by simpa using hr.inRange b' ch h,
        hr.connOpen⟩

theorem registered_of_live {s : DBusService} (h : Live s) : Registered s := by
  induction h with
  | init a b => exact registered_init a b
  | subscribe bt sn i_n sg e now hl ih =>
    exact registered_subscribe (wellFormed_of_live hl) ih bt sn i_n sg e now
  | deliver b sig _ ih => exact registered_deliver ih b sig

/-- Closing a duplicate-free list of open channels succeeds, closes exactly these
channels and changes nothing else but the effect log. -/
theorem closeChans_ok : ∀ (chs : List Nat) (s : DBusService), chs.Nodup →
    (∀ ch ∈ chs, ∃ c, s.chans[ch]? = some c ∧ c.closed = false) →
    ∃ t, chs.foldlM closeChan s = .ok t ∧ t.subscriptions = s.subscriptions ∧
      t.handlers = s.handlers ∧ t.systemConn = s.systemConn ∧
      t.sessionConn = s.sessionConn ∧
      ∀ i : Nat, t.chans[i]? =
        if i ∈ chs then (s.chans[i]?).map (fun c => { c with closed := true })
        else s.chans[i]? := by
  intro chs
  induction chs with
  | nil =>
    intro s _ _
    exact ⟨s, rfl, rfl, rfl, rfl, rfl, fun _ => by simp⟩
  | cons ch chs ih =>
    intro s hnd hopen
    obtain ⟨c, hc, ho⟩ := hopen ch (List.mem_cons_self _ _)
    have hnd2 := List.nodup_cons.mp hnd
    have hlt := getElem?_lt_of_some _ _ _ hc
    have hstep : closeChan s ch = .ok
        { s with
          chans := s.chans.set ch { c with closed := true }
          log := s.log ++ [.closeChan ch] } := by
      simp [closeChan, hc, ho]
    have hopen2 : ∀ ch2 ∈ chs, ∃ c2,
        ({ s with
           chans := s.chans.set ch { c with closed := true }
           log := s.log ++ [.closeChan ch] } : DBusService).chans[ch2]? = some c2 ∧
          c2.closed = false := by
      intro ch2 hmem
      have hne : ch ≠ ch2 := fun e => hnd2.1 (e ▸ hmem)
      obtain ⟨c2, a1, a2⟩ := hopen ch2 (List.mem_cons_of_mem _ hmem)
      exact ⟨c2, by simp [List.getElem?_set_ne hne, a1], a2⟩
    obtain ⟨t, ht, e1, e2, e3, e4, hcl⟩ := ih _ hnd2.2 hopen2
    refine ⟨t, ?_, e1, e2, e3, e4, ?_⟩
    · rw [List.foldlM_cons, hstep]
      exact ht
    · intro i
      rw [hcl i]
      by_cases hi : ch = i
      · subst hi
        simp [hnd2.1, hc, hlt]
      · have hi2 : ¬ i = ch := fun e => hi e.symm
        simp [List.getElem?_set_ne hi, hi2]

/-- With a library that closes the registered channels, `conn.Close()` on an open
connection whose channels are open closes exactly these channels. -/
theorem connClose_closing (lib : BusLibrary) (s : DBusService) (b : Bus)
    (hlib : lib.closeClosesSignalChans = true)
    (hco : ∀ c, s.conn b = some c → c.closed = false)
    (hnd : (connChans s b).Nodup)
    (hopen : ∀ ch ∈ connChans s b, ∃ c, s.chans[ch]? = some c ∧ c.closed = false) :
    ∃ t, connClose lib s b = .ok t ∧ t.subscriptions = s.subscriptions ∧
      t.handlers = s.handlers ∧
      (∀ b', b' ≠ b → t.conn b' = s.conn b') ∧
      ∀ i : Nat, t.chans[i]? =
        if i ∈ connChans s b then (s.chans[i]?).map (fun c => { c with closed := true })
        else s.chans[i]? := by
  unfold connClose
  cases hc : s.conn b with
  | none =>
    refine ⟨s, rfl, rfl, rfl, fun _ _ => rfl, fun i => ?_⟩
    simp [connChans, hc]
  | some conn =>
    have hcc := hco conn hc
    have hch : connChans s b = conn.signalChans := by simp [connChans, hc]
    rw [hch] at hnd hopen
    obtain ⟨t, ht, e1, e2, _, _, hcl⟩ :=
      closeChans_ok conn.signalChans { s with log := s.log ++ [.connClose b] } hnd hopen
    refine ⟨t.setConn b { conn with closed := true, signalChans := [] }, ?_, ?_, ?_, ?_, ?_⟩
    · simp only [hcc, hlib, if_true, ht, Except.map]
      rfl
    · simp [e1]
    · simp [e2]
    · intro b' hb'
      rw [setConn_conn_ne _ _ _ _ hb']
      obtain ⟨t2, ht2, _, _, f3, f4, _⟩ :=
        closeChans_ok conn.signalChans { s with log := s.log ++ [.connClose b] } hnd hopen
      rw [ht] at ht2
      simp only [Except.ok.injEq] at ht2
      subst ht2
      cases b' with
      | system => exact f3
      | session => exact f4
    · intro i
      rw [setConn_chans, hcl i, hch]

/-- With a library that closes the channels passed to `Signal`, `Close` panics on
every live service that has a registered subscription: the connection has closed
the channel already when the loop closes it. -/
theorem Close_panics_when_library_closes (lib : BusLibrary) (s : DBusService)
    (hlib : lib.closeClosesSignalChans = true) (hs : Live s)
    (hne : s.subscriptions ≠ []) :
    Close lib s = .error "close of closed channel" := by
  have hr := registered_of_live hs
  have hw := wellFormed_of_live hs
  have ho := allOpen_of_live hs
  have hnd := List.nodup_append.mp hr.once
  have hget : ∀ (b : Bus), ∀ ch ∈ connChans s b,
      ∃ c, s.chans[ch]? = some c ∧ c.closed = false := by
    intro b ch hch
    have hlt := hr.inRange b ch hch
    cases hc : s.chans[ch]? with
    | none =>
      have := List.getElem?_eq_getElem hlt
      rw [hc] at this
      simp at this
    | some c => exact ⟨c, rfl, ho ch c hc⟩
  obtain ⟨s1, h1, a1, a2, a3, a4⟩ :=
    connClose_closing lib { s with log := s.log ++ [.lock] } .system hlib
      (fun c hc => hr.connOpen .system c hc) hnd.1 (hget .system)
  have hses : connChans s1 .session = connChans s .session := by
    have := a3 .session (by decide)
    simp only [connChans, this]
    rfl
  have hopen2 : ∀ ch ∈ connChans s1 .session, ∃ c, s1.chans[ch]? = some c ∧ c.closed = false := by
    intro ch hch
    rw [hses] at hch
    obtain ⟨c, c1, c2⟩ := hget .session ch hch
    have hnot : ch ∉ connChans s .system := fun hm => hnd.2.2 hm hch
    refine ⟨c, ?_, c2⟩
    rw [a4 ch]
    have : ch ∉ connChans ({ s with log := s.log ++ [.lock] } : DBusService) .system := hnot
    simp only [this, if_false]
    exact c1
  obtain ⟨s2, h2, b1, b2, _, b4⟩ :=
    connClose_closing lib s1 .session hlib
      (fun c hc => hr.connOpen .session c (by
        have e := a3 .session (by decide)
        rw [e] at hc
        exact hc))
      (hses ▸ hnd.2.1) hopen2
  cases hl : s.subscriptions with
  | nil => exact absurd hl hne
  | cons kv rest =>
    have hkv : kv ∈ s.subscriptions := by simp [hl]
    obtain ⟨hd, c, d1, d2, d3, _⟩ := openAt_of_live hs kv hkv
    have hclosed : ∃ c2, s2.chans[kv.2]? = some c2 ∧ c2.closed = true := by
      rcases hr.covered kv hkv with hm | hm
      · have e1 : s1.chans[kv.2]? = some { c with closed := true } := by
          rw [a4 kv.2]
          have : kv.2 ∈ connChans ({ s with log := s.log ++ [.lock] } : DBusService) .system :=
            hm
          simp only [this, if_true]
          show Option.map _ s.chans[kv.2]? = _
          rw [d3]; rfl
        have hnot : kv.2 ∉ connChans s1 .session := by
          rw [hses]; exact fun h => hnd.2.2 hm h
        exact ⟨_, by rw [b4 kv.2]; simp only [hnot, if_false]; exact e1, rfl⟩
      · have hnot : kv.2 ∉ connChans ({ s with log := s.log ++ [.lock] } : DBusService)
            .system := fun h => hnd.2.2 h hm
        have e1 : s1.chans[kv.2]? = some c := by
          rw [a4 kv.2]
          simp only [hnot, if_false]
          exact d3
        refine ⟨{ c with closed := true }, ?_, rfl⟩
        rw [b4 kv.2]
        have : kv.2 ∈ connChans s1 .session := by rw [hses]; exact hm
        simp only [this, if_true, e1]
        rfl
    obtain ⟨c2, g1, g2⟩ := hclosed
    have hstep : closeHandler s2 kv.2 = .error "close of closed channel" :=
      closeHandler_closed s2 kv.2 hd c2 (by rw [b2, a2]; exact d1) (by rw [d2]; exact g1) g2
    have hsub : s2.subscriptions = kv :: rest := by rw [b1, a1]; exact hl
    unfold Close
    simp only [bind, Except.bind, h1, h2, hsub, List.map_cons, List.foldlM_cons, hstep]

/-! ## parseIntrospectionXML: the loops as maps -/

theorem convertArgs_eq (name : String) (ann : List (String × String)) :
    ∀ (args : List Introspect.Arg) (ins outs : List ArgumentInfo),
      convertArgs { Name := name, InArgs := some ins, OutArgs := some outs, Annotations := ann }
          args =
        { Name := name
          InArgs := some (ins ++ (args.filter (fun a => a.Direction = "in")).map
            (fun a => { Name := a.Name, Typ := a.Typ, Direction := a.Direction }))
          OutArgs := some (outs ++ (args.filter (fun a => ¬ a.Direction = "in")).map
            (fun a => { Name := a.Name, Typ := a.Typ, Direction := a.Direction }))
          Annotations := ann } := by
  intro args
  induction args with
  | nil => intro ins outs; simp [convertArgs]
  | cons a t ih =>
    intro ins outs
    have hstep : convertArgs
        { Name := name, InArgs := some ins, OutArgs := some outs, Annotations := ann } (a :: t) =
        convertArgs
          (if a.Direction = "in" then
            { Name := name
              InArgs := some (ins ++ [{ Name := a.Name, Typ := a.Typ, Direction := a.Direction }])
              OutArgs := some outs, Annotations := ann }
           else
            { Name := name, InArgs := some ins
              OutArgs := some (outs ++ [{ Name := a.Name, Typ := a.Typ, Direction := a.Direction }])
              Annotations := ann }) t := by
      simp only [convertArgs, List.foldl_cons, Slice.append, Slice.elems, Option.getD_some]
    rw [hstep]
    by_cases hd : a.Direction = "in"
    · rw [if_pos hd, ih]
      simp [hd]
    · rw [if_neg hd, ih]
      simp [hd]

theorem convertMethod_eq (method : Introspect.Method) :
    convertMethod method =
      { Name := method.Name
        InArgs := some ((method.Args.filter (fun a => a.Direction = "in")).map
          (fun a => { Name := a.Name, Typ := a.Typ, Direction := a.Direction }))
        OutArgs := some ((method.Args.filter (fun a => ¬ a.Direction = "in")).map
          (fun a => { Name := a.Name, Typ := a.Typ, Direction := a.Direction }))
        Annotations := [] } := by
  unfold convertMethod Slice.make
  rw [convertArgs_eq]
  simp

theorem convertSignal_fold (name : String) :
    ∀ (args : List Introspect.Arg) (acc : List ArgumentInfo),
      args.foldl
        (fun (signalInfo : SignalInfo) arg =>
          { signalInfo with
            Args := signalInfo.Args.append
              { Name := arg.Name, Typ := arg.Typ, Direction := "out" } })
        { Name := name, Args := some acc, Annotations := [] } =
      { Name := name
        Args := some (acc ++ args.map
          (fun a => { Name := a.Name, Typ := a.Typ, Direction := "out" }))
        Annotations := [] } := by
  intro args
  induction args with
  | nil => intro acc; simp
  | cons a t ih =>
    intro acc
    rw [List.foldl_cons]
    refine (ih (acc ++ [{ Name := a.Name, Typ := a.Typ, Direction := "out" }])).trans ?_
    simp

theorem convertSignal_eq (signal : Introspect.Signal) :
    convertSignal signal =
      { Name := signal.Name
        Args := some (signal.Args.map
          (fun a => { Name := a.Name, Typ := a.Typ, Direction := "out" }))
        Annotations := [] } := by
  unfold convertSignal Slice.make
  rw [convertSignal_fold]
  simp

theorem methods_fold (f : Introspect.Method → MethodInfo) :
    ∀ (ms : List Introspect.Method) (info : InterfaceInfo) (acc : List MethodInfo),
      info.Methods = some acc →
      ms.foldl (fun (info : InterfaceInfo) m => { info with Methods := info.Methods.append (f m) })
        info = { info with Methods := some (acc ++ ms.map f) } := by
  intro ms
  induction ms with
  | nil => intro info acc h; simp [← h]
  | cons m t ih =>
    intro info acc h
    simp only [List.foldl_cons]
    rw [ih _ (acc ++ [f m]) (by simp [Slice.append, Slice.elems, h])]
    simp

theorem properties_fold (f : Introspect.Property → PropertyInfo) :
    ∀ (ps : List Introspect.Property) (info : InterfaceInfo) (acc : List PropertyInfo),
      info.Properties = some acc →
      ps.foldl
        (fun (info : InterfaceInfo) p => { info with Properties := info.Properties.append (f p) })
        info = { info with Properties := some (acc ++ ps.map f) } := by
  intro ps
  induction ps with
  | nil => intro info acc h; simp [← h]
  | cons p t ih =>
    intro info acc h
    simp only [List.foldl_cons]
    rw [ih _ (acc ++ [f p]) (by simp [Slice.append, Slice.elems, h])]
    simp

theorem signals_fold (f : Introspect.Signal → SignalInfo) :
    ∀ (ss : List Introspect.Signal) (info : InterfaceInfo) (acc : List SignalInfo),
      info.Signals = some acc →
      ss.foldl
        (fun (info : InterfaceInfo) x => { info with Signals := info.Signals.append (f x) })
        info = { info with Signals := some (acc ++ ss.map f) } := by
  intro ss
  induction ss with
  | nil => intro info acc h; simp [← h]
  | cons x t ih =>
    intro info acc h
    simp only [List.foldl_cons]
    rw [ih _ (acc ++ [f x]) (by simp [Slice.append, Slice.elems, h])]
    simp

theorem convertInterface_eq (iface : Introspect.Interface) :
    convertInterface iface =
      { Name := iface.Name
        Methods := some (iface.Methods.map convertMethod)
        Properties := some (iface.Properties.map convertProperty)
        Signals := some (iface.Signals.map convertSignal) } := by
  unfold convertInterface Slice.make
  simp only
  rw [methods_fold convertMethod iface.Methods _ [] rfl]
  rw [properties_fold convertProperty iface.Properties _ [] rfl]
  rw [signals_fold convertSignal iface.Signals _ [] rfl]
  simp

theorem interfaces_fold (f : Introspect.Interface → InterfaceInfo) :
    ∀ (xs : List Introspect.Interface) (parsed : ParsedIntrospection)
      (acc : List InterfaceInfo), parsed.Interfaces = some acc →
      xs.foldl
        (fun (parsed : ParsedIntrospection) x =>
          { parsed with Interfaces := parsed.Interfaces.append (f x) })
        parsed = { parsed with Interfaces := some (acc ++ xs.map f) } := by
  intro xs
  induction xs with
  | nil => intro parsed acc h; simp [← h]
  | cons x t ih =>
    intro parsed acc h
    simp only [List.foldl_cons]
    rw [ih _ (acc ++ [f x]) (by simp [Slice.append, Slice.elems, h])]
    simp

theorem nodes_fold (f : Introspect.Child → NodeInfo) :
    ∀ (xs : List Introspect.Child) (parsed : ParsedIntrospection) (acc : List NodeInfo),
      parsed.Nodes = some acc →
      xs.foldl
        (fun (parsed : ParsedIntrospection) x =>
          { parsed with Nodes := parsed.Nodes.append (f x) })
        parsed = { parsed with Nodes := some (acc ++ xs.map f) } := by
  intro xs
  induction xs with
  | nil => intro parsed acc h; simp [← h]
  | cons x t ih =>
    intro parsed acc h
    simp only [List.foldl_cons]
    rw [ih _ (acc ++ [f x]) (by simp [Slice.append, Slice.elems, h])]
    simp

/-- The result of `parseIntrospectionXML` on a document that decodes to `node`. -/
theorem parseIntrospectionXML_ok (unmarshal : String → Except String Introspect.Node)
    (xmlData : String) (node : Introspect.Node) (h : unmarshal xmlData = .ok node) :
    parseIntrospectionXML unmarshal xmlData =
      .ok { Interfaces := some (node.Interfaces.map convertInterface)
            Nodes := some (node.Children.map
              (fun child => { Name := child.Name, Path := "/" ++ child.Name })) } := by
  unfold parseIntrospectionXML Slice.make
  simp only [h]
  rw [interfaces_fold convertInterface node.Interfaces _ [] rfl]
  rw [nodes_fold _ node.Children _ [] rfl]
  simp

/-- The result of `parseIntrospectionXML` on a document that does not decode. -/
theorem parseIntrospectionXML_error (unmarshal : String → Except String Introspect.Node)
    (xmlData e : String) (h : unmarshal xmlData = .error e) :
    parseIntrospectionXML unmarshal xmlData =
      .error ("failed to parse introspection XML: " ++ e) := by
  simp [parseIntrospectionXML, h]

/-! ## parseIntrospectionXML: claims -/

/-- C16: for every document that decodes to a node `N`, `parseIntrospectionXML`
returns a result with exactly as many interfaces as `N`, in document order; the
i-th has the name of the i-th interface of `N` and the names of its methods, the
names, types and accesses of its properties and the names of its signals, each in
the same number and order as in `N`. -/
theorem parse_preserves_structure (unmarshal : String → Except String Introspect.Node)
    (xmlData : String) (node : Introspect.Node) (h : unmarshal xmlData = .ok node) :
    ∃ (parsed : ParsedIntrospection) (ifaces : List InterfaceInfo),
      parseIntrospectionXML unmarshal xmlData = .ok parsed ∧
      parsed.Interfaces = some ifaces ∧
      ifaces.length = node.Interfaces.length ∧
      ∀ (i : Nat) (iface : Introspect.Interface), node.Interfaces[i]? = some iface →
        ∃ info : InterfaceInfo, ifaces[i]? = some info ∧ info.Name = iface.Name ∧
          info.Methods.elems.map (fun m => m.Name) = iface.Methods.map (fun m => m.Name) ∧
          info.Properties.elems.map (fun p => (p.Name, p.Typ, p.Access))
            = iface.Properties.map (fun p => (p.Name, p.Typ, p.Access)) ∧
          info.Signals.elems.map (fun x => x.Name) = iface.Signals.map (fun x => x.Name) := by
  refine ⟨_, node.Interfaces.map convertInterface, parseIntrospectionXML_ok _ _ _ h, rfl,
    by simp, ?_⟩
  intro i iface hi
  refine ⟨convertInterface iface, by simp [hi], ?_⟩
  rw [convertInterface_eq]
  refine ⟨rfl, ?_, ?_, ?_⟩
  · simp only [Slice.elems, Option.getD_some, List.map_map]
    apply List.map_congr_left
    intro m _
    simp [convertMethod_eq]
  · simp only [Slice.elems, Option.getD_some, List.map_map]
    apply List.map_congr_left
    intro p _
    simp [convertProperty]
  · simp only [Slice.elems, Option.getD_some, List.map_map]
    apply List.map_congr_left
    intro x _
    simp [convertSignal_eq]

theorem parse_preserves_structure_witness :
    testUnmarshal "<node/>" = .ok testNode ∧
    ∃ (parsed : ParsedIntrospection) (ifaces : List InterfaceInfo),
      parseIntrospectionXML testUnmarshal "<node/>" = .ok parsed ∧
      parsed.Interfaces = some ifaces ∧ ifaces.length = 1 :=
  ⟨rfl,
   (parse_preserves_structure testUnmarshal "<node/>" testNode rfl).imp fun _ hp =>
     hp.imp fun _ hi => ⟨hi.1, hi.2.1, hi.2.2.1⟩⟩

theorem filter_split_length {α : Type} (p : α → Prop) [DecidablePred p] :
    ∀ l : List α,
      (l.filter (fun a => decide (p a))).length + (l.filter (fun a => decide (¬ p a))).length
        = l.length := by
  intro l
  induction l with
  | nil => rfl
  | cons a t ih =>
    simp only [decide_not] at ih ⊢
    by_cases hp : p a
    · simp only [List.filter_cons, hp, decide_True, if_true, Bool.not_true, List.length_cons]
      simp only [Bool.false_eq_true, if_false]
      omega
    · simp only [List.filter_cons, hp, decide_False, Bool.not_false, if_true, List.length_cons]
      simp only [Bool.false_eq_true, if_false]
      omega

/-- What `parseIntrospectionXML` does with the arguments of a method: `InArgs` holds
the arguments whose direction is "in", `OutArgs` all the others, each list in
document order with name, type and direction copied. -/
theorem convertMethod_args (method : Introspect.Method) :
    (convertMethod method).InArgs.elems =
      (method.Args.filter (fun a => a.Direction = "in")).map
        (fun a => { Name := a.Name, Typ := a.Typ, Direction := a.Direction }) ∧
    (convertMethod method).OutArgs.elems =
      (method.Args.filter (fun a => ¬ a.Direction = "in")).map
        (fun a => { Name := a.Name, Typ := a.Typ, Direction := a.Direction }) ∧
    (convertMethod method).InArgs.elems.length + (convertMethod method).OutArgs.elems.length
      = method.Args.length ∧
    ∀ a ∈ (convertMethod method).InArgs.elems, a.Direction = "in" := by
  rw [convertMethod_eq]
  refine ⟨rfl, rfl, ?_, ?_⟩
  · simp only [Slice.elems, Option.getD_some, List.length_map]
    exact filter_split_length (fun a : Introspect.Arg => a.Direction = "in") method.Args
  · intro a ha
    simp only [Slice.elems, Option.getD_some] at ha
    obtain ⟨x, hx, rfl⟩ := List.mem_map.mp ha
    simpa using (List.mem_filter.mp hx).2

/-- C17: the claim fails on the code. A method argument without a `direction`
attribute (direction "", which D-Bus reads as "in") is put in `OutArgs` with its
empty direction: for the method `Echo(text, reply out)` the result has no `InArgs`
and `OutArgs` holds `text` with direction "". -/
theorem parse_puts_undirected_arg_in_OutArgs :
    parseIntrospectionXML echoUnmarshal "<node/>" =
      .ok { Interfaces := some
              [{ Name := "com.example.Echo"
                 Methods := some
                   [{ Name := "Echo"
                      InArgs := some []
                      OutArgs := some [{ Name := "text", Typ := "s", Direction := "" },
                                       { Name := "reply", Typ := "s", Direction := "out" }]
                      Annotations := [] }]
                 Properties := some []
                 Signals := some [] }]
            Nodes := some [] } ∧
    ¬ (∀ a ∈ (convertMethod { Name := "Echo"
                              Args := [{ Name := "text", Typ := "s", Direction := "" },
                                       { Name := "reply", Typ := "s", Direction := "out" }] }
              ).OutArgs.elems, a.Direction = "out") := by
  refine ⟨rfl, ?_⟩
  intro h
  have := h { Name := "text", Typ := "s", Direction := "" } (by decide)
  exact absurd this (by decide)

/-- C18: for every document that decodes to a node `N`, the `Nodes` of the result
has exactly one entry for each child of `N`, in document order; the i-th has the
name of the i-th child and the path "/" followed by that name. -/
theorem parse_maps_children (unmarshal : String → Except String Introspect.Node)
    (xmlData : String) (node : Introspect.Node) (h : unmarshal xmlData = .ok node) :
    ∃ (parsed : ParsedIntrospection) (nodes : List NodeInfo),
      parseIntrospectionXML unmarshal xmlData = .ok parsed ∧
      parsed.Nodes = some nodes ∧
      nodes.length = node.Children.length ∧
      ∀ (i : Nat) (child : Introspect.Child), node.Children[i]? = some child →
        nodes[i]? = some { Name := child.Name, Path := "/" ++ child.Name } := by
  refine ⟨_, _, parseIntrospectionXML_ok _ _ _ h, rfl, by simp, ?_⟩
  intro i child hi
  simp [hi]

theorem parse_maps_children_witness :
    testUnmarshal "<node/>" = .ok testNode ∧
    testNode.Children[0]? = some { Name := "org" } ∧
    ∃ (parsed : ParsedIntrospection) (nodes : List NodeInfo),
      parseIntrospectionXML testUnmarshal "<node/>" = .ok parsed ∧
      parsed.Nodes = some nodes ∧
      nodes[0]? = some { Name := "org", Path := "/org" } :=
  ⟨rfl, rfl,
   (parse_maps_children testUnmarshal "<node/>" testNode rfl).imp fun _ hp =>
     hp.imp fun _ hn => ⟨hn.1, hn.2.1, hn.2.2.2 0 { Name := "org" } rfl⟩⟩

/-- C19: for every input, `parseIntrospectionXML` returns no result and the error
"failed to parse introspection XML: ..." exactly when decoding the input fails;
otherwise it returns a result and no error, and the `Interfaces` and `Nodes` of the
result are not nil. -/
theorem parse_rejects_bad_input (unmarshal : String → Except String Introspect.Node)
    (xmlData : String) :
    ((∃ e, unmarshal xmlData = .error e) ↔
      ∃ e, parseIntrospectionXML unmarshal xmlData
        = .error ("failed to parse introspection XML: " ++ e)) ∧
    (∀ e, unmarshal xmlData = .error e →
      parseIntrospectionXML unmarshal xmlData
        = .error ("failed to parse introspection XML: " ++ e)) ∧
    (∀ node, unmarshal xmlData = .ok node →
      ∃ parsed : ParsedIntrospection, parseIntrospectionXML unmarshal xmlData = .ok parsed ∧
        parsed.Interfaces ≠ none ∧ parsed.Nodes ≠ none) := by
  refine ⟨⟨?_, ?_⟩, ?_, ?_⟩
  · rintro ⟨e, he⟩
    exact ⟨e, parseIntrospectionXML_error _ _ _ he⟩
  · rintro ⟨e, he⟩
    cases hu : unmarshal xmlData with
    | error e2 => exact ⟨e2, rfl⟩
    | ok node =>
      rw [parseIntrospectionXML_ok _ _ _ hu] at he
      simp at he
  · intro e he
    exact parseIntrospectionXML_error _ _ _ he
  · intro node hn
    exact ⟨_, parseIntrospectionXML_ok _ _ _ hn, by simp, by simp⟩

theorem parse_rejects_bad_input_witness :
    failUnmarshal "not valid xml" = .error "EOF" ∧
    parseIntrospectionXML failUnmarshal "not valid xml"
      = .error ("failed to parse introspection XML: " ++ "EOF") :=
  ⟨rfl, (parse_rejects_bad_input failUnmarshal "not valid xml").2.1 "EOF" rfl⟩

/-! ## Operations on a bus without connection, and `CallMethod` -/

theorem getConnection_nil (s : DBusService) (b : Bus) (h : s.conn b = none) :
    getConnection s b.busType = .error (b.busType ++ " bus not available") := by
  cases b with
  | system =>
    have h2 : s.systemConn = none := h
    simp [getConnection, Bus.busType, h2]
  | session =>
    have h2 : s.sessionConn = none := h
    simp [getConnection, Bus.busType, h2]

/-- C12: when the connection of a bus is nil, `getConnection` for its bus type
returns no connection and the error "system bus not available" (or "session bus not
available"), and `ListServices`, `IntrospectService`, `CallMethod`, `GetProperty`,
`SetProperty` and `SubscribeToSignal` return no result and that error and leave
the whole state as it was: no bus call is made and the registry is unchanged. -/
theorem no_connection_fails_fast (env : Env) (s : DBusService) (b : Bus)
    (serviceName interfaceName memberName : String) (args : List BusValue) (value : BusValue)
    (addMatchErr : Option String) (now : Nat) (hnil : s.conn b = none) :
    getConnection s b.busType = .error (b.busType ++ " bus not available") ∧
    ListServices env s b.busType = (.error (b.busType ++ " bus not available"), s) ∧
    IntrospectService env s b.busType serviceName
      = (.error (b.busType ++ " bus not available"), s) ∧
    CallMethod env s b.busType serviceName interfaceName memberName args
      = (.error (b.busType ++ " bus not available"), s) ∧
    GetProperty env s b.busType serviceName interfaceName memberName
      = (.error (b.busType ++ " bus not available"), s) ∧
    SetProperty env s b.busType serviceName interfaceName memberName value
      = (.error (b.busType ++ " bus not available"), s) ∧
    SubscribeToSignal s b.busType serviceName interfaceName memberName addMatchErr now
      = (.error (b.busType ++ " bus not available"), s) := by
  have h := getConnection_nil s b hnil
  refine ⟨h, ?_, ?_, ?_, ?_, ?_, ?_⟩
  · simp [ListServices, h]
  · simp [IntrospectService, h]
  · simp [CallMethod, h]
  · simp [GetProperty, h]
  · simp [SetProperty, h]
  · simp [SubscribeToSignal, h]

theorem no_connection_fails_fast_witness :
    svcSystem.conn .session = none ∧
    getConnection svcSystem "session" = .error "session bus not available" ∧
    ListServices envDown svcSystem "session"
      = (.error "session bus not available", svcSystem) :=
  ⟨rfl,
   (no_connection_fails_fast envDown svcSystem .session "org.freedesktop.DBus"
      "org.freedesktop.DBus" "ListNames" [] (.str "") none 0 rfl).1,
   (no_connection_fails_fast envDown svcSystem .session "org.freedesktop.DBus"
      "org.freedesktop.DBus" "ListNames" [] (.str "") none 0 rfl).2.1⟩

/-- C13: for every bus type other than "system" and "session", `getConnection`
returns no connection and the error "invalid bus type: " followed by the bus type,
whatever the connections of the service are. -/
theorem getConnection_invalid_bus_type (s : DBusService) (busType : String)
    (h1 : busType ≠ "system") (h2 : busType ≠ "session") :
    getConnection s busType = .error ("invalid bus type: " ++ busType) := by
  simp [getConnection, h1, h2]

theorem getConnection_invalid_bus_type_witness :
    "System" ≠ "system" ∧ "System" ≠ "session" ∧
    getConnection svcSystem "System" = .error "invalid bus type: System" ∧
    getConnection svcSystem "" = .error "invalid bus type: " :=
  ⟨by decide, by decide,
   getConnection_invalid_bus_type svcSystem "System" (by decide) (by decide),
   getConnection_invalid_bus_type svcSystem "" (by decide) (by decide)⟩

/-- C20: when the connection of the bus type is available, `CallMethod` makes one
bus call, to member `interfaceName + "." + methodName` of the service, and returns
no error and a result whose `Success` is true exactly when the call produced no
error; on success `Error` is empty and `ReturnValues` is the reply body, on failure
`Error` is the message of the call's error and `ReturnValues` is empty. -/
theorem CallMethod_reports_in_result (env : Env) (s : DBusService)
    (busType serviceName interfaceName methodName : String) (args : List BusValue) (b : Bus)
    (hconn : getConnection s busType = .ok b) :
    ∃ result : MethodCallResult,
      CallMethod env s busType serviceName interfaceName methodName args
        = (.ok result,
           { s with log := s.log ++ [.call b serviceName (interfaceName ++ "." ++ methodName)] }) ∧
      result.Timestamp = env.now ∧
      (result.Success = true ↔
        ∃ body, env.call b serviceName (interfaceName ++ "." ++ methodName) args = .ok body) ∧
      (∀ body, env.call b serviceName (interfaceName ++ "." ++ methodName) args = .ok body →
        result.Success = true ∧ result.Error = "" ∧ result.ReturnValues = body) ∧
      (∀ e, env.call b serviceName (interfaceName ++ "." ++ methodName) args = .error e →
        result.Success = false ∧ result.Error = e ∧ result.ReturnValues = []) := by
  cases hc : env.call b serviceName (interfaceName ++ "." ++ methodName) args with
  | error e =>
    refine ⟨{ Success := false, ReturnValues := [], Error := e, Timestamp := env.now }, ?_,
      rfl, ?_, ?_, ?_⟩
    · simp [CallMethod, hconn, hc]
    · simp
    · intro body hb; simp at hb
    · intro e2 he
      simp only [Except.error.injEq] at he
      exact ⟨rfl, he, rfl⟩
  | ok body =>
    refine ⟨{ Success := true, ReturnValues := body, Error := "", Timestamp := env.now }, ?_,
      rfl, ?_, ?_, ?_⟩
    · simp [CallMethod, hconn, hc]
    · simp
    · intro body2 hb
      simp only [Except.ok.injEq] at hb
      exact ⟨rfl, rfl, hb⟩
    · intro e he; simp at he

theorem CallMethod_reports_in_result_witness :
    getConnection svcSystem "system" = .ok .system ∧
    ∃ result : MethodCallResult,
      CallMethod envDown svcSystem "system" "com.example.HelloWorld" "com.example.HelloWorld"
          "Hello" [.str "World"]
        = (.ok result,
           { svcSystem with
             log := svcSystem.log ++
               [.call .system "com.example.HelloWorld" ("com.example.HelloWorld" ++ "." ++ "Hello")] }) ∧
      result.Success = false ∧ result.Error = "down" ∧ result.ReturnValues = [] :=
  ⟨rfl,
   (CallMethod_reports_in_result envDown svcSystem "system" "com.example.HelloWorld"
      "com.example.HelloWorld" "Hello" [.str "World"] .system rfl).imp fun _ hr =>
     ⟨hr.1, hr.2.2.2.2 "down" rfl⟩⟩

/-! ## The reading operations change the effect log only -/

theorem onlyLogged_refl (s : DBusService) : OnlyLogged s s :=
  ⟨[], by simp⟩

theorem onlyLogged_trans {s t u : DBusService} (h1 : OnlyLogged s t) (h2 : OnlyLogged t u) :
    OnlyLogged s u := by
  obtain ⟨l1, rfl⟩ := h1
  obtain ⟨l2, rfl⟩ := h2
  exact ⟨l1 ++ l2, by simp⟩

theorem onlyLogged_append (s : DBusService) (l : List Effect) :
    OnlyLogged s { s with log := s.log ++ l } :=
  ⟨l, rfl⟩

theorem ListServices_onlyLogged (env : Env) (s : DBusService) (busType : String) :
    OnlyLogged s (ListServices env s busType).2 := by
  unfold ListServices
  split
  · exact onlyLogged_refl s
  · split
    · exact onlyLogged_append s _
    · exact onlyLogged_append s _

theorem IntrospectService_onlyLogged (env : Env) (s : DBusService)
    (busType serviceName : String) :
    OnlyLogged s (IntrospectService env s busType serviceName).2 := by
  unfold IntrospectService
  split
  · exact onlyLogged_refl s
  · split
    · exact onlyLogged_append s _
    · split
      · exact onlyLogged_append s _
      · exact onlyLogged_append s _

theorem GetServiceInfo_snd (env : Env) (s : DBusService) (busType serviceName : String)
    (b : Bus) (hb : getConnection s busType = .ok b) :
    (GetServiceInfo env s busType serviceName).2 =
      (IntrospectService env
        { s with
          log := s.log ++ [.call b "org.freedesktop.DBus" "org.freedesktop.DBus.GetNameOwner"] }
        busType serviceName).2 := by
  unfold GetServiceInfo
  simp only [hb]
  generalize IntrospectService env _ busType serviceName = r
  obtain ⟨r1, r2⟩ := r
  cases r1 <;> rfl

theorem GetServiceInfo_onlyLogged (env : Env) (s : DBusService)
    (busType serviceName : String) :
    OnlyLogged s (GetServiceInfo env s busType serviceName).2 := by
  cases hb : getConnection s busType with
  | error e =>
    have : GetServiceInfo env s busType serviceName = (.error e, s) := by
      simp [GetServiceInfo, hb]
    rw [this]
    exact onlyLogged_refl s
  | ok b =>
    rw [GetServiceInfo_snd env s busType serviceName b hb]
    exact onlyLogged_trans (onlyLogged_append s _) (IntrospectService_onlyLogged _ _ _ _)

theorem ListInterfaces_onlyLogged (env : Env) (s : DBusService)
    (busType serviceName : String) :
    OnlyLogged s (ListInterfaces env s busType serviceName).2 := by
  have h := GetServiceInfo_onlyLogged env s busType serviceName
  unfold ListInterfaces
  split
  · rename_i e s1 hr
    rw [hr] at h
    exact h
  · rename_i r s1 hr
    rw [hr] at h
    exact h

theorem GetInterfaceInfo_snd (env : Env) (s : DBusService)
    (busType serviceName interfaceName : String) :
    (GetInterfaceInfo env s busType serviceName interfaceName).2
      = (GetServiceInfo env s busType serviceName).2 := by
  unfold GetInterfaceInfo
  generalize GetServiceInfo env s busType serviceName = r
  obtain ⟨r1, r2⟩ := r
  cases r1 with
  | error e => rfl
  | ok info =>
    simp only
    cases findInterface info interfaceName <;> rfl

theorem GetInterfaceInfo_onlyLogged (env : Env) (s : DBusService)
    (busType serviceName interfaceName : String) :
    OnlyLogged s (GetInterfaceInfo env s busType serviceName interfaceName).2 := by
  rw [GetInterfaceInfo_snd]
  exact GetServiceInfo_onlyLogged env s busType serviceName

theorem ListMethods_onlyLogged (env : Env) (s : DBusService)
    (busType serviceName interfaceName : String) :
    OnlyLogged s (ListMethods env s busType serviceName interfaceName).2 := by
  have h := GetInterfaceInfo_onlyLogged env s busType serviceName interfaceName
  unfold ListMethods
  split
  · rename_i e s1 hr
    rw [hr] at h
    exact h
  · rename_i r s1 hr
    rw [hr] at h
    exact h

theorem ListSignals_onlyLogged (env : Env) (s : DBusService)
    (busType serviceName interfaceName : String) :
    OnlyLogged s (ListSignals env s busType serviceName interfaceName).2 := by
  have h := GetInterfaceInfo_onlyLogged env s busType serviceName interfaceName
  unfold ListSignals
  split
  · rename_i e s1 hr
    rw [hr] at h
    exact h
  · rename_i r s1 hr
    rw [hr] at h
    exact h

theorem CallMethod_onlyLogged (env : Env) (s : DBusService)
    (busType serviceName interfaceName methodName : String) (args : List BusValue) :
    OnlyLogged s (CallMethod env s busType serviceName interfaceName methodName args).2 := by
  unfold CallMethod
  split
  · exact onlyLogged_refl s
  · split
    · exact onlyLogged_append s _
    · exact onlyLogged_append s _

theorem GetProperty_onlyLogged (env : Env) (s : DBusService)
    (busType serviceName interfaceName propertyName : String) :
    OnlyLogged s (GetProperty env s busType serviceName interfaceName propertyName).2 := by
  unfold GetProperty
  split
  · exact onlyLogged_refl s
  · split
    · exact onlyLogged_append s _
    · exact onlyLogged_append s _

theorem SetProperty_onlyLogged (env : Env) (s : DBusService)
    (busType serviceName interfaceName propertyName : String) (value : BusValue) :
    OnlyLogged s
      (SetProperty env s busType serviceName interfaceName propertyName value).2 := by
  unfold SetProperty
  split
  · exact onlyLogged_refl s
  · split
    · exact onlyLogged_append s _
    · exact onlyLogged_trans (onlyLogged_append s _) (GetProperty_onlyLogged _ _ _ _ _ _)

theorem fillValues_onlyLogged (env : Env) (busType serviceName interfaceName : String) :
    ∀ (ps : List PropertyInfo) (s : DBusService),
      OnlyLogged s (fillValues env busType serviceName interfaceName ps s).2 := by
  intro ps
  induction ps with
  | nil => intro s; exact onlyLogged_refl s
  | cons p t ih =>
    intro s
    simp only [fillValues]
    exact onlyLogged_trans (GetProperty_onlyLogged env s busType serviceName interfaceName p.Name)
      (ih _)

theorem ListProperties_onlyLogged (env : Env) (s : DBusService)
    (busType serviceName interfaceName : String) :
    OnlyLogged s (ListProperties env s busType serviceName interfaceName).2 := by
  have h := GetInterfaceInfo_onlyLogged env s busType serviceName interfaceName
  unfold ListProperties
  split
  · rename_i e s1 hr
    rw [hr] at h
    exact h
  · rename_i r s1 hr
    rw [hr] at h
    split
    · exact h
    · exact onlyLogged_trans h (fillValues_onlyLogged _ _ _ _ _ _)

/-- Every operation other than `SubscribeToSignal` and `Close` changes the effect
log only. -/
theorem exec_read_onlyLogged (lib : BusLibrary) (s u : DBusService) (o : Op)
    (h1 : o.method ≠ "SubscribeToSignal") (h2 : o.method ≠ "Close")
    (h : exec lib s o = .ok u) : OnlyLogged s u := by
  cases o with
  | SubscribeToSignal => exact absurd rfl h1
  | Close => exact absurd rfl h2
  | ListServices env bt =>
    simp only [exec, Except.ok.injEq] at h
    exact h ▸ ListServices_onlyLogged env s bt
  | GetServiceInfo env bt sn =>
    simp only [exec, Except.ok.injEq] at h
    exact h ▸ GetServiceInfo_onlyLogged env s bt sn
  | ListInterfaces env bt sn =>
    simp only [exec, Except.ok.injEq] at h
    exact h ▸ ListInterfaces_onlyLogged env s bt sn
  | GetInterfaceInfo env bt sn i_n =>
    simp only [exec, Except.ok.injEq] at h
    exact h ▸ GetInterfaceInfo_onlyLogged env s bt sn i_n
  | ListMethods env bt sn i_n =>
    simp only [exec, Except.ok.injEq] at h
    exact h ▸ ListMethods_onlyLogged env s bt sn i_n
  | CallMethod env bt sn i_n mn args =>
    simp only [exec, Except.ok.injEq] at h
    exact h ▸ CallMethod_onlyLogged env s bt sn i_n mn args
  | ListProperties env bt sn i_n =>
    simp only [exec, Except.ok.injEq] at h
    exact h ▸ ListProperties_onlyLogged env s bt sn i_n
  | GetProperty env bt sn i_n pn =>
    simp only [exec, Except.ok.injEq] at h
    exact h ▸ GetProperty_onlyLogged env s bt sn i_n pn
  | SetProperty env bt sn i_n pn v =>
    simp only [exec, Except.ok.injEq] at h
    exact h ▸ SetProperty_onlyLogged env s bt sn i_n pn v
  | ListSignals env bt sn i_n =>
    simp only [exec, Except.ok.injEq] at h
    exact h ▸ ListSignals_onlyLogged env s bt sn i_n
  | IntrospectService env bt sn =>
    simp only [exec, Except.ok.injEq] at h
    exact h ▸ IntrospectService_onlyLogged env s bt sn

/-! ## What every operation keeps -/

theorem connsKept_refl (s : DBusService) : ConnsKept s s :=
  fun _ => ⟨fun h => h, fun c h => ⟨c, h, fun hc => hc⟩⟩

theorem connsKept_trans {s t u : DBusService} (h1 : ConnsKept s t) (h2 : ConnsKept t u) :
    ConnsKept s u := by
  intro b
  refine ⟨fun h => (h2 b).1 ((h1 b).1 h), ?_⟩
  intro c hc
  obtain ⟨c2, hc2, k2⟩ := (h1 b).2 c hc
  obtain ⟨c3, hc3, k3⟩ := (h2 b).2 c2 hc2
  exact ⟨c3, hc3, fun h => k3 (k2 h)⟩

theorem connsKept_of_eq {s t : DBusService} (h1 : t.systemConn = s.systemConn)
    (h2 : t.sessionConn = s.sessionConn) : ConnsKept s t := by
  have hconn : ∀ b, t.conn b = s.conn b := by
    intro b
    cases b with
    | system => exact h1
    | session => exact h2
  intro b
  rw [hconn b]
  exact connsKept_refl s b

theorem decays_refl (s : DBusService) : Decays s s :=
  fun _ hd h => ⟨hd, h, fun k => k⟩

theorem decays_trans {s t u : DBusService} (h1 : Decays s t) (h2 : Decays t u) :
    Decays s u := by
  intro i hd h
  obtain ⟨hd2, a2, k2⟩ := h1 i hd h
  obtain ⟨hd3, a3, k3⟩ := h2 i hd2 a2
  exact ⟨hd3, a3, fun k => k3 (k2 k)⟩

theorem decays_of_eq {s t : DBusService} (h : t.handlers = s.handlers) : Decays s t := by
  intro i hd hi
  exact ⟨hd, by rw [h]; exact hi, fun k => k⟩

theorem decays_of_append (s t : DBusService) (l : List SignalHandler)
    (h : t.handlers = s.handlers ++ l) : Decays s t := by
  intro i hd hi
  refine ⟨hd, ?_, fun k => k⟩
  rw [h, List.getElem?_append_left (getElem?_lt_of_some _ _ _ hi)]
  exact hi

theorem onlyLogged_keeps {s t : DBusService} (h : OnlyLogged s t) :
    t.subscriptions = s.subscriptions ∧ t.handlers = s.handlers ∧ t.chans = s.chans ∧
      t.systemConn = s.systemConn ∧ t.sessionConn = s.sessionConn := by
  obtain ⟨l, rfl⟩ := h
  exact ⟨rfl, rfl, rfl, rfl, rfl⟩

theorem SubscribeToSignal_keeps (s : DBusService)
    (busType serviceName interfaceName signalName : String) (addMatchErr : Option String)
    (now : Nat) :
    ConnsKept s
        (SubscribeToSignal s busType serviceName interfaceName signalName addMatchErr now).2 ∧
      Decays s
        (SubscribeToSignal s busType serviceName interfaceName signalName addMatchErr now).2 := by
  cases hg : getConnection s busType with
  | error e =>
    rw [SubscribeToSignal_noconn_state s _ _ _ _ e addMatchErr now hg]
    exact ⟨connsKept_refl s, decays_refl s⟩
  | ok b =>
    obtain ⟨c, hc⟩ := conn_of_getConnection s busType b hg
    cases addMatchErr with
    | some e =>
      rw [SubscribeToSignal_error_state s _ _ _ _ e now b hg]
      exact ⟨connsKept_of_eq rfl rfl, decays_of_append _ _ _ rfl⟩
    | none =>
      rw [SubscribeToSignal_ok_state s _ _ _ _ now b c hg hc]
      refine ⟨?_, decays_of_append _ _ [{ channel := s.chans.length, active := true }]
        (by simp)⟩
      intro b2
      by_cases hb : b2 = b
      · subst hb
        refine ⟨fun h => by rw [hc] at h; simp at h, ?_⟩
        intro c0 hc0
        have e : c0 = c := by
          rw [hc] at hc0
          exact (Option.some.inj hc0).symm
        refine ⟨{ c with
          matchRules := c.matchRules ++ [matchRule serviceName interfaceName signalName]
          signalChans := c.signalChans ++ [s.chans.length] }, ?_, fun k => by rw [e] at k; exact k⟩
        cases b2 <;> rfl
      · have hsame : ∀ (t : DBusService) (cn : Conn), t.conn b2 = (t.setConn b cn).conn b2 :=
          fun t cn => (setConn_conn_ne t b b2 cn hb).symm
        have e1 : ({ ({ s with
            chans := s.chans ++ [Chan.make]
            handlers := s.handlers ++ [{ channel := s.chans.length, active := true }]
            log := s.log ++ [.makeChan s.chans.length,
                             .addMatch b (matchRule serviceName interfaceName signalName)] }
            : DBusService).setConn b
              { c with
                matchRules := c.matchRules ++ [matchRule serviceName interfaceName signalName]
                signalChans := c.signalChans ++ [s.chans.length] } with
          subscriptions := mapInsert s.subscriptions
            (subscriptionID busType serviceName interfaceName signalName) s.handlers.length
          log := s.log ++ [.makeChan s.chans.length,
                           .addMatch b (matchRule serviceName interfaceName signalName)] ++
                   [.connSignal b s.chans.length, .lock, .unlock] } : DBusService).conn b2
            = s.conn b2 := by
          cases b <;> cases b2 <;> first | rfl | exact absurd rfl hb
        simp only [e1]
        exact connsKept_refl s b2

theorem deliver_keeps (s : DBusService) (b : Bus) (sig : Signal) :
    ConnsKept s (deliver s b sig) ∧ Decays s (deliver s b sig) ∧
      (deliver s b sig).subscriptions = s.subscriptions := by
  unfold deliver
  split
  · exact ⟨connsKept_refl s, decays_refl s, rfl⟩
  · split
    · exact ⟨connsKept_refl s, decays_refl s, rfl⟩
    · exact ⟨connsKept_of_eq rfl rfl, decays_of_eq rfl, rfl⟩

theorem closeChan_keeps (s t : DBusService) (ch : Nat) (h : closeChan s ch = .ok t) :
    t.systemConn = s.systemConn ∧ t.sessionConn = s.sessionConn ∧ t.handlers = s.handlers := by
  unfold closeChan at h
  split at h
  · simp at h
  · split at h
    · simp at h
    · simp only [Except.ok.injEq] at h
      subst h
      exact ⟨rfl, rfl, rfl⟩

theorem closeHandler_keeps (s t : DBusService) (h : Nat) (hc : closeHandler s h = .ok t) :
    t.systemConn = s.systemConn ∧ t.sessionConn = s.sessionConn ∧ Decays s t := by
  unfold closeHandler at hc
  split at hc
  · simp at hc
  · rename_i hd hget
    cases hcc : closeChan { s with
        handlers := s.handlers.set h { hd with active := false }
        log := s.log ++ [.handlerLock h] } hd.channel with
    | error e => simp [hcc, Except.map] at hc
    | ok u =>
      simp only [hcc, Except.map, Except.ok.injEq] at hc
      subst hc
      obtain ⟨a1, a2, a3⟩ := closeChan_keeps _ _ _ hcc
      refine ⟨a1, a2, ?_⟩
      intro i hd0 hi
      show ∃ hd2, u.handlers[i]? = some hd2 ∧ _
      rw [a3]
      by_cases hih : h = i
      · subst hih
        have hlt := getElem?_lt_of_some _ _ _ hi
        exact ⟨{ hd with active := false }, by simp [hlt], fun _ => rfl⟩
      · exact ⟨hd0, by simp [List.getElem?_set_ne hih, hi], fun k => k⟩

theorem closeChans_keeps (s : DBusService) :
    ∀ (chs : List Nat) (s1 t : DBusService),
      (s1.systemConn = s.systemConn ∧ s1.sessionConn = s.sessionConn ∧
        s1.handlers = s.handlers) →
      chs.foldlM closeChan s1 = .ok t →
      t.systemConn = s.systemConn ∧ t.sessionConn = s.sessionConn ∧ t.handlers = s.handlers :=
  except_foldlM_induct
    (fun t => t.systemConn = s.systemConn ∧ t.sessionConn = s.sessionConn ∧
      t.handlers = s.handlers)
    closeChan
    (fun a x c ha hx => by
      obtain ⟨b1, b2, b3⟩ := closeChan_keeps a c x hx
      exact ⟨b1.trans ha.1, b2.trans ha.2.1, b3.trans ha.2.2⟩)

theorem closeHandlers_keeps (s : DBusService) :
    ∀ (hs : List Nat) (s1 t : DBusService),
      (s1.systemConn = s.systemConn ∧ s1.sessionConn = s.sessionConn ∧ Decays s s1) →
      hs.foldlM closeHandler s1 = .ok t →
      t.systemConn = s.systemConn ∧ t.sessionConn = s.sessionConn ∧ Decays s t :=
  except_foldlM_induct
    (fun t => t.systemConn = s.systemConn ∧ t.sessionConn = s.sessionConn ∧ Decays s t)
    closeHandler
    (fun a x c ha hx => by
      obtain ⟨b1, b2, b3⟩ := closeHandler_keeps a c x hx
      exact ⟨b1.trans ha.1, b2.trans ha.2.1, decays_trans ha.2.2 b3⟩)

/-- The library call `conn.Close()`: the connection is closed afterwards, the other
one is untouched, and no handler changes. -/
theorem connClose_keeps (lib : BusLibrary) (s t : DBusService) (b : Bus)
    (h : connClose lib s b = .ok t) :
    ConnsKept s t ∧ t.handlers = s.handlers ∧
      (∀ c, t.conn b = some c → c.closed = true) := by
  unfold connClose at h
  cases hc : s.conn b with
  | none =>
    simp only [hc, Except.ok.injEq] at h
    subst h
    exact ⟨connsKept_refl _, rfl, fun c h2 => by rw [hc] at h2; simp at h2⟩
  | some conn =>
    simp only [hc] at h
    have hset : ∀ (u : DBusService) (cn : Conn), u.systemConn = s.systemConn →
        u.sessionConn = s.sessionConn → cn.closed = true → ConnsKept s (u.setConn b cn) := by
      intro u cn h1 h2 hcl b2
      by_cases hb : b2 = b
      · subst hb
        rw [setConn_conn_self]
        exact ⟨fun hn => by rw [hc] at hn; simp at hn, fun c0 _ => ⟨cn, rfl, fun _ => hcl⟩⟩
      · rw [setConn_conn_ne _ _ _ _ hb]
        exact connsKept_of_eq h1 h2 b2
    by_cases hcl : conn.closed = true
    · simp only [hcl, if_true, Except.ok.injEq] at h
      subst h
      refine ⟨connsKept_of_eq rfl rfl, rfl, ?_⟩
      intro c h2
      have : ({ s with log := s.log ++ [.connClose b] } : DBusService).conn b = s.conn b := by
        cases b <;> rfl
      rw [this, hc] at h2
      simp only [Option.some.injEq] at h2
      exact h2 ▸ hcl
    · simp only [hcl, Bool.false_eq_true, if_false] at h
      by_cases hl : lib.closeClosesSignalChans = true
      · simp only [hl, if_true] at h
        cases hf : List.foldlM closeChan
            ({ s with log := s.log ++ [.connClose b] } : DBusService) conn.signalChans with
        | error e => simp [hf, Except.map] at h
        | ok u =>
          simp only [hf, Except.map, Except.ok.injEq] at h
          subst h
          obtain ⟨a1, a2, a3⟩ := closeChans_keeps s conn.signalChans
            ({ s with log := s.log ++ [.connClose b] } : DBusService) u ⟨rfl, rfl, rfl⟩ hf
          refine ⟨hset u _ a1 a2 rfl, by simp [a3], ?_⟩
          intro c h2
          rw [setConn_conn_self] at h2
          simp only [Option.some.injEq] at h2
          exact h2 ▸ rfl
      · simp only [hl, Bool.false_eq_true, if_false, Except.ok.injEq] at h
        subst h
        refine ⟨hset _ _ rfl rfl rfl, by simp, ?_⟩
        intro c h2
        rw [setConn_conn_self] at h2
        simp only [Option.some.injEq] at h2
        exact h2 ▸ rfl

/-- A completed `Close` keeps the connection fields, never makes a handler active,
and leaves every connection closed. -/
theorem Close_keeps (lib : BusLibrary) (s t : DBusService) (h : Close lib s = .ok t) :
    ConnsKept s t ∧ Decays s t ∧ Frozen t := by
  unfold Close at h
  simp only [bind, Except.bind, pure, Except.pure] at h
  split at h
  · simp at h
  · rename_i s1 h1
    split at h
    · simp at h
    · rename_i s2 h2
      split at h
      · simp at h
      · rename_i s3 h3
        simp only [Except.ok.injEq] at h
        subst h
        obtain ⟨k1, e1, c1⟩ := connClose_keeps lib _ _ _ h1
        obtain ⟨k2, e2, c2⟩ := connClose_keeps lib _ _ _ h2
        have k01 : ConnsKept s s1 := connsKept_trans (connsKept_of_eq rfl rfl) k1
        have k02 : ConnsKept s s2 := connsKept_trans k01 k2
        obtain ⟨a1, a2, a3⟩ := closeHandlers_keeps s2 _ s2 s3 ⟨rfl, rfl, decays_refl s2⟩ h3
        have k23 : ConnsKept s2 s3 := connsKept_of_eq a1 a2
        have d02 : Decays s s2 := decays_of_eq (e2.trans e1)
        have hfrozen2 : Frozen s2 := by
          intro b c hc
          cases b with
          | session => exact c2 c hc
          | system =>
            cases hs1 : s1.conn .system with
            | none =>
              have := (k2 .system).1 hs1
              rw [this] at hc
              simp at hc
            | some c0 =>
              obtain ⟨c3, hc3, k⟩ := (k2 .system).2 c0 hs1
              rw [hc3] at hc
              simp only [Option.some.injEq] at hc
              exact hc ▸ k (c1 c0 hs1)
        refine ⟨connsKept_trans (connsKept_trans k02 k23) (connsKept_of_eq rfl rfl),
          decays_trans (decays_trans d02 a3) (decays_of_eq rfl), ?_⟩
        intro b c hc
        have hc3 : s3.conn b = some c := by
          cases b <;> exact hc
        have hc2 : s2.conn b = some c := by
          cases b with
          | system =>
            have e : s3.conn .system = s2.conn .system := a1
            rw [e] at hc3
            exact hc3
          | session =>
            have e : s3.conn .session = s2.conn .session := a2
            rw [e] at hc3
            exact hc3
        exact hfrozen2 b c hc2

/-- Every completed operation keeps the connection fields and never makes a handler
active. -/
theorem exec_keeps (lib : BusLibrary) (s u : DBusService) (o : Op)
    (h : exec lib s o = .ok u) : ConnsKept s u ∧ Decays s u := by
  cases o
  case SubscribeToSignal bt sn i_n sg e now =>
    simp only [exec, Except.ok.injEq] at h
    exact h ▸ SubscribeToSignal_keeps s bt sn i_n sg e now
  case Close =>
    have hk := Close_keeps lib s u h
    exact ⟨hk.1, hk.2.1⟩
  all_goals
    obtain ⟨_, e2, _, e4, e5⟩ := onlyLogged_keeps
      (exec_read_onlyLogged lib s u _ (by simp [Op.method]) (by simp [Op.method]) h)
    exact ⟨connsKept_of_eq e4 e5, decays_of_eq e2⟩

theorem steps_keep (lib : BusLibrary) (ok : DBusService → Op → Bool) (s t : DBusService)
    (h : Steps lib ok s t) : ConnsKept s t ∧ Decays s t := by
  induction h with
  | refl => exact ⟨connsKept_refl s, decays_refl s⟩
  | op o _ _ he ih =>
    obtain ⟨k, d⟩ := exec_keeps lib _ _ o he
    exact ⟨connsKept_trans ih.1 k, decays_trans ih.2 d⟩
  | arrive b sig _ ih =>
    obtain ⟨k, d, _⟩ := deliver_keeps _ b sig
    exact ⟨connsKept_trans ih.1 k, decays_trans ih.2 d⟩

/-! ## Claims on the operations as a whole -/

/-- C14 (counterexample): the interface of the service has thirteen methods and
`Unsubscribe` is not one of them. -/
theorem no_Unsubscribe_operation :
    "Unsubscribe" ∉ DBusServiceInterface ∧ DBusServiceInterface.length = 13 :=
  ⟨by decide, rfl⟩

/-- C14 (amended): the service offers no `Unsubscribe` operation: each of its
operations is one of the thirteen methods of `DBusServiceInterface`, and each of
them other than `SubscribeToSignal` and `Close` leaves the registry, every handler
and every channel unchanged. -/
theorem operations_without_Unsubscribe :
    (∀ o : Op, o.method ∈ DBusServiceInterface ∧ o.method ≠ "Unsubscribe") ∧
    (∀ (lib : BusLibrary) (s u : DBusService) (o : Op),
      o.method ≠ "SubscribeToSignal" → o.method ≠ "Close" → exec lib s o = .ok u →
      u.subscriptions = s.subscriptions ∧ u.handlers = s.handlers ∧ u.chans = s.chans) := by
  constructor
  · intro o
    cases o <;> exact ⟨by simp [Op.method, DBusServiceInterface], by simp [Op.method]⟩
  · intro lib s u o h1 h2 h
    obtain ⟨e1, e2, e3, _, _⟩ := onlyLogged_keeps (exec_read_onlyLogged lib s u o h1 h2 h)
    exact ⟨e1, e2, e3⟩

theorem operations_without_Unsubscribe_witness :
    (Op.GetProperty envDown "system" "org.freedesktop.DBus" "org.freedesktop.DBus"
      "Features").method ≠ "SubscribeToSignal" ∧
    exec libKeepsChans svcOne
      (Op.GetProperty envDown "system" "org.freedesktop.DBus" "org.freedesktop.DBus"
        "Features")
      = .ok (GetProperty envDown svcOne "system" "org.freedesktop.DBus"
          "org.freedesktop.DBus" "Features").2 ∧
    (GetProperty envDown svcOne "system" "org.freedesktop.DBus" "org.freedesktop.DBus"
      "Features").2.subscriptions = svcOne.subscriptions :=
  ⟨by decide, rfl,
   (operations_without_Unsubscribe.2 libKeepsChans svcOne _
      (Op.GetProperty envDown "system" "org.freedesktop.DBus" "org.freedesktop.DBus"
        "Features") (by decide) (by decide) rfl).1⟩

theorem getConnection_of_connsKept {s t : DBusService} (h : ConnsKept s t)
    (busType : String) : getConnection t busType = getConnection s busType := by
  have hsys : t.systemConn.isSome = s.systemConn.isSome := by
    cases hs : s.systemConn with
    | none =>
      have : t.systemConn = none := (h .system).1 hs
      simp [this]
    | some c =>
      obtain ⟨c2, hc2, _⟩ := (h .system).2 c hs
      have : t.systemConn = some c2 := hc2
      simp [this]
  have hses : t.sessionConn.isSome = s.sessionConn.isSome := by
    cases hs : s.sessionConn with
    | none =>
      have : t.sessionConn = none := (h .session).1 hs
      simp [this]
    | some c =>
      obtain ⟨c2, hc2, _⟩ := (h .session).2 c hs
      have : t.sessionConn = some c2 := hc2
      simp [this]
  unfold getConnection
  cases h1 : t.systemConn <;> cases h2 : s.systemConn <;>
    cases h3 : t.sessionConn <;> cases h4 : s.sessionConn <;>
    simp_all

/-- C15: along every execution (completed operations of the service with any
answers of the bus, and signal arrivals) a nil connection field stays nil and a
set one stays set, so `getConnection` gives for every bus type the outcome it gave
at the start: a bus that was unavailable after construction stays unavailable. -/
theorem connections_acquired_once (lib : BusLibrary) (s t : DBusService)
    (h : Steps lib anyAnswer s t) :
    t.systemConn.isSome = s.systemConn.isSome ∧
    t.sessionConn.isSome = s.sessionConn.isSome ∧
    (∀ busType : String, getConnection t busType = getConnection s busType) ∧
    (∀ b : Bus, s.conn b = none →
      getConnection t b.busType = .error (b.busType ++ " bus not available")) := by
  have hk := (steps_keep lib anyAnswer s t h).1
  have hopt : ∀ b, (t.conn b).isSome = (s.conn b).isSome := by
    intro b
    cases hs : s.conn b with
    | none => simp [(hk b).1 hs]
    | some c =>
      obtain ⟨c2, hc2, _⟩ := (hk b).2 c hs
      simp [hc2]
  refine ⟨hopt .system, hopt .session, getConnection_of_connsKept hk, ?_⟩
  intro b hb
  exact getConnection_nil t b ((hk b).1 hb)

theorem connections_acquired_once_witness :
    Steps libKeepsChans anyAnswer svcSystem svcOne ∧
    svcSystem.conn .session = none ∧
    getConnection svcOne "session" = .error "session bus not available" :=
  ⟨Steps.op (Op.SubscribeToSignal "system" "" "org.freedesktop.DBus" "NameOwnerChanged" none 1)
      (Steps.refl svcSystem) rfl rfl,
   rfl,
   (connections_acquired_once libKeepsChans svcSystem svcOne
      (Steps.op
        (Op.SubscribeToSignal "system" "" "org.freedesktop.DBus" "NameOwnerChanged" none 1)
        (Steps.refl svcSystem) rfl rfl)).2.2.2 .session rfl⟩

/-! ## A closed subscription stays closed -/

theorem frozen_of_connsKept {s t : DBusService} (hf : Frozen s) (hk : ConnsKept s t) :
    Frozen t := by
  intro b c hc
  cases hs : s.conn b with
  | none =>
    rw [(hk b).1 hs] at hc
    simp at hc
  | some c0 =>
    obtain ⟨c2, hc2, k⟩ := (hk b).2 c0 hs
    rw [hc2] at hc
    simp only [Option.some.injEq] at hc
    exact hc ▸ k (hf b c0 hs)

/-- Once every connection is closed and the bus refuses `AddMatch` on a closed
connection, no completed operation changes the registry. -/
theorem frozen_exec_registry (lib : BusLibrary) (s u : DBusService) (o : Op)
    (hf : Frozen s) (hok : closedConnRefuses s o = true) (h : exec lib s o = .ok u) :
    u.subscriptions = s.subscriptions := by
  cases o
  case SubscribeToSignal bt sn i_n sg e now =>
    simp only [exec, Except.ok.injEq] at h
    subst h
    cases hg : getConnection s bt with
    | error err => rw [SubscribeToSignal_noconn_state s _ _ _ _ err e now hg]
    | ok b =>
      obtain ⟨c, hc⟩ := conn_of_getConnection s bt b hg
      have hcl := hf b c hc
      cases e with
      | some err => rw [SubscribeToSignal_error_state s _ _ _ _ err now b hg]
      | none =>
        simp [closedConnRefuses, hg, hc, hcl] at hok
  case Close => exact (Close_shape lib s u h).subs
  all_goals
    exact (onlyLogged_keeps
      (exec_read_onlyLogged lib s u _ (by simp [Op.method]) (by simp [Op.method]) h)).1

theorem allActive_subscribe (s : DBusService)
    (busType serviceName interfaceName signalName : String) (addMatchErr : Option String)
    (now : Nat)
    (hs : ∀ (i : Nat) (hd : SignalHandler), s.handlers[i]? = some hd → hd.active = true) :
    ∀ (i : Nat) (hd : SignalHandler),
      (SubscribeToSignal s busType serviceName interfaceName signalName addMatchErr
        now).2.handlers[i]? = some hd → hd.active = true := by
  cases hg : getConnection s busType with
  | error e =>
    rw [SubscribeToSignal_noconn_state s _ _ _ _ e addMatchErr now hg]
    exact hs
  | ok b =>
    obtain ⟨c, hc⟩ := conn_of_getConnection s busType b hg
    have key : ∀ (i : Nat) (hd : SignalHandler),
        (s.handlers ++ [{ channel := s.chans.length, active := true }])[i]? = some hd →
        hd.active = true := by
      intro i hd hi
      rcases getElem?_append_singleton _ _ _ _ hi with h | ⟨_, hx⟩
      · exact hs i hd h
      · rw [hx]
    cases addMatchErr with
    | some e =>
      rw [SubscribeToSignal_error_state s _ _ _ _ e now b hg]
      exact key
    | none =>
      rw [SubscribeToSignal_ok_state s _ _ _ _ now b c hg hc]
      intro i hd hi
      exact key i hd (by simpa using hi)

/-- Along every execution from `NewDBusService`, either every handler is active or
every connection is closed: handlers become inactive in `Close` only. -/
theorem active_or_frozen (lib : BusLibrary) (ok : DBusService → Op → Bool) (a b : Bool)
    (s : DBusService) (h : Steps lib ok (NewDBusService a b) s) :
    (∀ (i : Nat) (hd : SignalHandler), s.handlers[i]? = some hd → hd.active = true) ∨
      Frozen s := by
  generalize hs0 : NewDBusService a b = s0 at h
  induction h with
  | refl =>
    left
    intro i hd hi
    rw [← hs0] at hi
    simp [NewDBusService] at hi
  | @op t u o hst hok he ih =>
    rcases ih with hact | hfr
    · cases o
      case SubscribeToSignal bt sn i_n sg e now =>
        simp only [exec, Except.ok.injEq] at he
        subst he
        exact Or.inl (allActive_subscribe t bt sn i_n sg e now hact)
      case Close => exact Or.inr (Close_keeps lib t u he).2.2
      all_goals
        left
        have hk := onlyLogged_keeps
          (exec_read_onlyLogged lib t u _ (by simp [Op.method]) (by simp [Op.method]) he)
        rw [hk.2.1]
        exact hact
    · exact Or.inr (frozen_of_connsKept hfr (exec_keeps lib t u o he).1)
  | @arrive t b2 sig _ ih =>
    rcases ih with hact | hfr
    · left
      have e : (deliver t b2 sig).handlers = t.handlers := by
        unfold deliver
        split
        · rfl
        · split <;> rfl
      rw [e]
      exact hact
    · exact Or.inr (frozen_of_connsKept hfr (deliver_keeps t b2 sig).1)

theorem frozen_steps (lib : BusLibrary) (s t : DBusService) (hf : Frozen s)
    (h : Steps lib closedConnRefuses s t) :
    Frozen t ∧ t.subscriptions = s.subscriptions := by
  induction h with
  | refl => exact ⟨hf, rfl⟩
  | @op t u o _ hok he ih =>
    exact ⟨frozen_of_connsKept ih.1 (exec_keeps lib t u o he).1,
      (frozen_exec_registry lib t u o ih.1 hok he).trans ih.2⟩
  | @arrive t b sig _ ih =>
    exact ⟨frozen_of_connsKept ih.1 (deliver_keeps t b sig).1,
      (deliver_keeps t b sig).2.2.trans ih.2⟩

/-- The service itself does not keep a closed entry closed: after a `Close` that
returned, if the bus accepted `AddMatch` on the closed connection, `SubscribeToSignal`
with the parameters of a closed entry would store a fresh active handler under the
id. -/
theorem closed_entry_reopened_when_bus_accepts :
    entryInactive svcShut "system::org.freedesktop.DBus:NameOwnerChanged" = true ∧
    closedConnRefuses svcShut
      (Op.SubscribeToSignal "system" "" "org.freedesktop.DBus" "NameOwnerChanged" none 3)
      = false ∧
    entryActive svcShutAccepted "system::org.freedesktop.DBus:NameOwnerChanged" = true :=
  ⟨rfl, rfl, rfl⟩

/-! ## The handlers that answer without the service -/

/-- The three invalid bus types of the handler tests are refused, and the two valid
ones are described with the bus type as written. -/
theorem GetBusInfo_examples :
    (Handler.GetBusInfo svcOne (requestFor "invalid")).1 =
        .error { Title := "Invalid bus type"
                 Detail := "Bus type must be 'system' or 'session'" } ∧
    (Handler.GetBusInfo svcOne (requestFor "unknown")).1 =
        .error { Title := "Invalid bus type"
                 Detail := "Bus type must be 'system' or 'session'" } ∧
    (Handler.GetBusInfo svcOne (requestFor "")).1 =
        .error { Title := "Invalid bus type"
                 Detail := "Bus type must be 'system' or 'session'" } ∧
    (Handler.GetBusInfo svcOne (requestFor "system")).1 =
        .ok { Typ := "system", Description := "system D-Bus" } ∧
    (Handler.GetBusInfo svcOne (requestFor "session")).1 =
        .ok { Typ := "session", Description := "session D-Bus" } :=
  ⟨rfl, rfl, rfl, rfl, rfl⟩

/-- C21: `GetBusInfo` answers with the bad-request error "Bus type must be 'system'
or 'session'" exactly when the path parameter `busType` is neither "system" nor
"session"; for the two valid bus types it answers without error with
`BusInfo{Type: busType, Description: busType + " D-Bus"}`; in both cases the service
behind the handler is left as it was, its effect log included. -/
theorem GetBusInfo_validates_bus_type (s : DBusService) (c : Context) :
    ((c.PathParam "busType" ≠ "system" ∧ c.PathParam "busType" ≠ "session") ↔
      (Handler.GetBusInfo s c).1 =
        .error { Title := "Invalid bus type"
                 Detail := "Bus type must be 'system' or 'session'" }) ∧
    ((c.PathParam "busType" = "system" ∨ c.PathParam "busType" = "session") ↔
      (Handler.GetBusInfo s c).1 =
        .ok { Typ := c.PathParam "busType"
              Description := c.PathParam "busType" ++ " D-Bus" }) ∧
    (Handler.GetBusInfo s c).2 = s := by
  by_cases h1 : c.PathParam "busType" = "system"
  · simp [Handler.GetBusInfo, h1]
  · by_cases h2 : c.PathParam "busType" = "session"
    · simp [Handler.GetBusInfo, h2]
    · simp [Handler.GetBusInfo, h1, h2]

/-- C22: `ListBuses` answers, for every request context (a nil one too) and every
state of the service, without error and with the list of the two buses, system
first, and leaves the service as it was, its effect log included. -/
theorem ListBuses_fixed_list (s : DBusService) (c : Option Context) :
    Handler.ListBuses s c =
      (.ok (some [{ Typ := "system", Description := "System D-Bus" },
                  { Typ := "session", Description := "Session D-Bus" }]), s) := rfl

/-! ## What the reading operations return -/

theorem getConnection_log (s : DBusService) (l : List Effect) (busType : String) :
    getConnection { s with log := l } busType = getConnection s busType := rfl

theorem getConnection_of_onlyLogged (s t : DBusService) (h : OnlyLogged s t)
    (busType : String) : getConnection t busType = getConnection s busType := by
  obtain ⟨l, rfl⟩ := h
  rfl

/-- The answer of `IntrospectService` does not depend on the effect log. -/
theorem IntrospectService_fst_log (env : Env) (s : DBusService) (l : List Effect)
    (busType serviceName : String) :
    (IntrospectService env { s with log := l } busType serviceName).1 =
      (IntrospectService env s busType serviceName).1 := by
  unfold IntrospectService
  rw [getConnection_log]
  cases getConnection s busType with
  | error e => rfl
  | ok b =>
    simp only
    cases env.introspect b serviceName with
    | error e => rfl
    | ok xmlData =>
      simp only
      cases parseIntrospectionXML env.unmarshal xmlData <;> rfl

/-- The answer of `GetProperty` does not depend on the effect log. -/
theorem GetProperty_fst_of_onlyLogged (env : Env) (s t : DBusService) (h : OnlyLogged s t)
    (busType serviceName interfaceName propertyName : String) :
    (GetProperty env t busType serviceName interfaceName propertyName).1 =
      (GetProperty env s busType serviceName interfaceName propertyName).1 := by
  obtain ⟨l, rfl⟩ := h
  unfold GetProperty
  rw [getConnection_log]
  cases getConnection s busType with
  | error e => rfl
  | ok b =>
    simp only
    cases env.getProperty b serviceName (interfaceName ++ "." ++ propertyName) <;> rfl

/-- The loop of `GetServiceInfo` over the parsed interfaces collects their names. -/
theorem names_fold (xs : List InterfaceInfo) :
    ∀ acc : List String,
      xs.foldl (fun (interfaces : Slice String) iface => interfaces.append iface.Name)
        (some acc) = some (acc ++ xs.map (fun iface => iface.Name)) := by
  induction xs with
  | nil => intro acc; simp
  | cons x t ih =>
    intro acc
    rw [List.foldl_cons]
    have e : Slice.append (some acc : Slice String) x.Name = some (acc ++ [x.Name]) := rfl
    rw [e, ih]
    simp

/-- The answer of `GetServiceInfo` when the introspection failed. -/
theorem GetServiceInfo_of_introspect_error (env : Env) (s : DBusService)
    (busType serviceName : String) (b : Bus) (e : String)
    (hb : getConnection s busType = .ok b)
    (hi : (IntrospectService env s busType serviceName).1 = .error e) :
    (GetServiceInfo env s busType serviceName).1 =
      .ok { Name := serviceName
            Owner := (match env.getNameOwner b serviceName with
                      | .error _ => "unknown"
                      | .ok owner => owner)
            Interfaces := none, ObjectPaths := none, Introspection := none } := by
  unfold GetServiceInfo
  simp only [hb]
  have h1 := IntrospectService_fst_log env s
    (s.log ++ [.call b "org.freedesktop.DBus" "org.freedesktop.DBus.GetNameOwner"])
    busType serviceName
  rw [hi] at h1
  generalize IntrospectService env _ busType serviceName = r at h1
  obtain ⟨r1, r2⟩ := r
  simp only at h1
  subst h1
  rfl

/-- The answer of `GetServiceInfo` when the introspection succeeded. -/
theorem GetServiceInfo_of_introspect_ok (env : Env) (s : DBusService)
    (busType serviceName : String) (b : Bus) (res : IntrospectionResult)
    (hb : getConnection s busType = .ok b)
    (hi : (IntrospectService env s busType serviceName).1 = .ok res) :
    (GetServiceInfo env s busType serviceName).1 =
      .ok { Name := serviceName
            Owner := (match env.getNameOwner b serviceName with
                      | .error _ => "unknown"
                      | .ok owner => owner)
            Interfaces :=
              some (match res.ParsedData with
                    | none => []
                    | some parsed => parsed.Interfaces.elems.map (fun iface => iface.Name))
            ObjectPaths := some ["/"]
            Introspection := some res } := by
  unfold GetServiceInfo
  simp only [hb]
  have h1 := IntrospectService_fst_log env s
    (s.log ++ [.call b "org.freedesktop.DBus" "org.freedesktop.DBus.GetNameOwner"])
    busType serviceName
  rw [hi] at h1
  generalize IntrospectService env _ busType serviceName = r at h1
  obtain ⟨r1, r2⟩ := r
  simp only at h1
  subst h1
  simp only
  cases hp : res.ParsedData with
  | none => rfl
  | some parsed =>
    simp only [Slice.make]
    rw [names_fold]
    simp

/-- The answer of `IntrospectService` when the bus returns a document: the document
with its parsed form, if it has one. -/
theorem IntrospectService_of_document (env : Env) (s : DBusService)
    (busType serviceName : String) (b : Bus) (xmlData : String)
    (hb : getConnection s busType = .ok b)
    (hx : env.introspect b serviceName = .ok xmlData) :
    (IntrospectService env s busType serviceName).1 =
      .ok { Service := serviceName, ObjectPath := "/", XML := xmlData
            ParsedData := (parseIntrospectionXML env.unmarshal xmlData).toOption
            Timestamp := env.now } := by
  unfold IntrospectService
  simp only [hb, hx]
  cases parseIntrospectionXML env.unmarshal xmlData <;> rfl

/-- The answer of `IntrospectService` when the bus refuses the call. -/
theorem IntrospectService_of_refusal (env : Env) (s : DBusService)
    (busType serviceName : String) (b : Bus) (e : String)
    (hb : getConnection s busType = .ok b)
    (hx : env.introspect b serviceName = .error e) :
    (IntrospectService env s busType serviceName).1 =
      .error ("failed to introspect service " ++ serviceName ++ ": " ++ e) := by
  unfold IntrospectService
  simp only [hb, hx]

/-- C25: with the connection of the bus type available, `GetServiceInfo` returns no
error and a `ServiceInfo` whose `Name` is the service name; `Owner` is "unknown" when
`GetNameOwner` fails and the reported owner otherwise; when `IntrospectService` fails,
`Interfaces`, `ObjectPaths` and `Introspection` are nil; when it succeeds,
`Introspection` is its result, `ObjectPaths` is `["/"]` and `Interfaces` is the list
of the names of the parsed interfaces in their order, and the empty list, not nil,
when the result has no parsed data. -/
theorem GetServiceInfo_never_fails (env : Env) (s : DBusService)
    (busType serviceName : String) (b : Bus)
    (hb : getConnection s busType = .ok b) :
    ∃ info : ServiceInfo,
      (GetServiceInfo env s busType serviceName).1 = .ok info ∧
      info.Name = serviceName ∧
      (∀ e : String, env.getNameOwner b serviceName = .error e → info.Owner = "unknown") ∧
      (∀ owner : String, env.getNameOwner b serviceName = .ok owner → info.Owner = owner) ∧
      (∀ e : String, (IntrospectService env s busType serviceName).1 = .error e →
        info.Interfaces = none ∧ info.ObjectPaths = none ∧ info.Introspection = none) ∧
      (∀ res : IntrospectionResult,
        (IntrospectService env s busType serviceName).1 = .ok res →
          info.Introspection = some res ∧ info.ObjectPaths = some ["/"] ∧
          (∀ parsed : ParsedIntrospection, res.ParsedData = some parsed →
            info.Interfaces =
              some (parsed.Interfaces.elems.map (fun iface => iface.Name))) ∧
          (res.ParsedData = none → info.Interfaces = some [])) := by
  cases hi : (IntrospectService env s busType serviceName).1 with
  | error e =>
    refine ⟨_, GetServiceInfo_of_introspect_error env s busType serviceName b e hb hi,
      rfl, ?_, ?_, ?_, ?_⟩
    · intro e1 h1
      simp only [h1]
    · intro owner h1
      simp only [h1]
    · intro _ _
      exact ⟨rfl, rfl, rfl⟩
    · intro res h1
      cases h1
  | ok res =>
    refine ⟨_, GetServiceInfo_of_introspect_ok env s busType serviceName b res hb hi,
      rfl, ?_, ?_, ?_, ?_⟩
    · intro e1 h1
      simp only [h1]
    · intro owner h1
      simp only [h1]
    · intro e1 h1
      cases h1
    · intro res1 h1
      cases h1
      refine ⟨rfl, rfl, ?_, ?_⟩
      · intro parsed hp
        simp only [hp]
      · intro hp
        simp only [hp]

/-- C25 on the service `svcSystem` with a bus that answers: the owner is reported and
the one interface of the document is listed. -/
theorem GetServiceInfo_never_fails_witness :
    getConnection svcSystem "system" = .ok .system ∧
    (GetServiceInfo envUp svcSystem "system" "org.freedesktop.DBus").1.toOption.map
        (fun info => (info.Name, info.Owner, info.Interfaces, info.ObjectPaths)) =
      some ("org.freedesktop.DBus", ":1.0", some ["org.freedesktop.DBus"], some ["/"]) ∧
    ∃ info : ServiceInfo,
      (GetServiceInfo envUp svcSystem "system" "org.freedesktop.DBus").1 = .ok info ∧
      info.Name = "org.freedesktop.DBus" ∧
      (∀ e : String, envUp.getNameOwner .system "org.freedesktop.DBus" = .error e →
        info.Owner = "unknown") ∧
      (∀ owner : String, envUp.getNameOwner .system "org.freedesktop.DBus" = .ok owner →
        info.Owner = owner) ∧
      (∀ e : String,
        (IntrospectService envUp svcSystem "system" "org.freedesktop.DBus").1 = .error e →
        info.Interfaces = none ∧ info.ObjectPaths = none ∧ info.Introspection = none) ∧
      (∀ res : IntrospectionResult,
        (IntrospectService envUp svcSystem "system" "org.freedesktop.DBus").1 = .ok res →
          info.Introspection = some res ∧ info.ObjectPaths = some ["/"] ∧
          (∀ parsed : ParsedIntrospection, res.ParsedData = some parsed →
            info.Interfaces =
              some (parsed.Interfaces.elems.map (fun iface => iface.Name))) ∧
          (res.ParsedData = none → info.Interfaces = some [])) :=
  ⟨rfl, rfl,
   GetServiceInfo_never_fails envUp svcSystem "system" "org.freedesktop.DBus" .system rfl⟩

/-- On a bus that refuses every call, `GetServiceInfo` still answers: the owner is
"unknown" and the three lists are nil. -/
theorem GetServiceInfo_bus_down :
    (GetServiceInfo envDown svcSystem "system" "org.freedesktop.DBus").1 =
      .ok { Name := "org.freedesktop.DBus", Owner := "unknown", Interfaces := none
            ObjectPaths := none, Introspection := none } := rfl

/-- With a document that does not decode, `Interfaces` is empty and not nil. -/
theorem GetServiceInfo_unparsed :
    (GetServiceInfo { envUp with unmarshal := failUnmarshal } svcSystem "system"
        "org.freedesktop.DBus").1.toOption.map
        (fun info => (info.Interfaces, info.ObjectPaths,
          info.Introspection.map (fun res => res.ParsedData))) =
      some (some [], some ["/"], some none) := rfl

/-- The answer of `ListInterfaces` is the field `Interfaces` of the service
information. -/
theorem ListInterfaces_fst (env : Env) (s : DBusService) (busType serviceName : String)
    (info : ServiceInfo) (h : (GetServiceInfo env s busType serviceName).1 = .ok info) :
    (ListInterfaces env s busType serviceName).1 = .ok info.Interfaces := by
  unfold ListInterfaces
  generalize GetServiceInfo env s busType serviceName = r at h
  obtain ⟨r1, r2⟩ := r
  simp only at h
  subst h
  rfl

/-- The answer of `GetInterfaceInfo` is the outcome of the search through the
service information. -/
theorem GetInterfaceInfo_fst (env : Env) (s : DBusService)
    (busType serviceName interfaceName : String)
    (info : ServiceInfo) (h : (GetServiceInfo env s busType serviceName).1 = .ok info) :
    (GetInterfaceInfo env s busType serviceName interfaceName).1 =
      match findInterface info interfaceName with
      | some iface => .ok iface
      | none => .error ("interface " ++ interfaceName ++ " not found") := by
  unfold GetInterfaceInfo
  generalize GetServiceInfo env s busType serviceName = r at h
  obtain ⟨r1, r2⟩ := r
  simp only at h
  subst h
  simp only
  cases findInterface info interfaceName <;> rfl

/-- C24: with the connection of the bus type available, `ListInterfaces` returns a
list, and `GetInterfaceInfo` succeeds exactly when the interface name occurs in that
list; when it succeeds it returns the first interface, in the order of the parsed
introspection, whose `Name` is the interface name; when the name does not occur, and
so also when `IntrospectService` failed, it returns the error
"interface <interfaceName> not found". -/
theorem GetInterfaceInfo_agrees_with_ListInterfaces (env : Env) (s : DBusService)
    (busType serviceName interfaceName : String) (b : Bus)
    (hb : getConnection s busType = .ok b) :
    ∃ names : Slice String,
      (ListInterfaces env s busType serviceName).1 = .ok names ∧
      ((∃ iface : InterfaceInfo,
          (GetInterfaceInfo env s busType serviceName interfaceName).1 = .ok iface) ↔
        interfaceName ∈ names.elems) ∧
      (∀ iface : InterfaceInfo,
        (GetInterfaceInfo env s busType serviceName interfaceName).1 = .ok iface →
          ∃ (res : IntrospectionResult) (parsed : ParsedIntrospection)
            (before after : List InterfaceInfo),
            (IntrospectService env s busType serviceName).1 = .ok res ∧
            res.ParsedData = some parsed ∧
            parsed.Interfaces.elems = before ++ iface :: after ∧
            iface.Name = interfaceName ∧
            ∀ x ∈ before, x.Name ≠ interfaceName) ∧
      (interfaceName ∉ names.elems →
        (GetInterfaceInfo env s busType serviceName interfaceName).1 =
          .error ("interface " ++ interfaceName ++ " not found")) ∧
      (∀ e : String, (IntrospectService env s busType serviceName).1 = .error e →
        (GetInterfaceInfo env s busType serviceName interfaceName).1 =
          .error ("interface " ++ interfaceName ++ " not found")) := by
  cases hi : (IntrospectService env s busType serviceName).1 with
  | error e =>
    have hg := GetServiceInfo_of_introspect_error env s busType serviceName b e hb hi
    have hG := GetInterfaceInfo_fst env s busType serviceName interfaceName _ hg
    have hG2 : (GetInterfaceInfo env s busType serviceName interfaceName).1 =
        .error ("interface " ++ interfaceName ++ " not found") := hG
    refine ⟨none, ListInterfaces_fst env s busType serviceName _ hg, ?_, ?_, ?_, ?_⟩
    · constructor
      · rintro ⟨iface, h⟩
        rw [hG2] at h
        cases h
      · intro h
        simp [Slice.elems] at h
    · intro iface h
      rw [hG2] at h
      cases h
    · intro _
      exact hG2
    · intro _ _
      exact hG2
  | ok res =>
    have hg := GetServiceInfo_of_introspect_ok env s busType serviceName b res hb hi
    have hG := GetInterfaceInfo_fst env s busType serviceName interfaceName _ hg
    refine ⟨_, ListInterfaces_fst env s busType serviceName _ hg, ?_⟩
    cases hp : res.ParsedData with
    | none =>
      have hG2 : (GetInterfaceInfo env s busType serviceName interfaceName).1 =
          .error ("interface " ++ interfaceName ++ " not found") := by
        rw [hG]
        simp [findInterface, hp]
      refine ⟨?_, ?_, ?_, ?_⟩
      · constructor
        · rintro ⟨iface, h⟩
          rw [hG2] at h
          cases h
        · intro h
          simp [Slice.elems] at h
      · intro iface h
        rw [hG2] at h
        cases h
      · intro _
        exact hG2
      · intro e h
        cases h
    | some parsed =>
      have hf : findInterface
          { Name := serviceName
            Owner := (match env.getNameOwner b serviceName with
                      | .error _ => "unknown"
                      | .ok owner => owner)
            Interfaces :=
              some (match res.ParsedData with
                    | none => []
                    | some parsed => parsed.Interfaces.elems.map (fun iface => iface.Name))
            ObjectPaths := some ["/"]
            Introspection := some res } interfaceName =
          parsed.Interfaces.elems.find? (fun iface => iface.Name = interfaceName) := by
        simp [findInterface, hp]
      rw [hf] at hG
      have hmem : interfaceName ∈
          Slice.elems (some (parsed.Interfaces.elems.map (fun iface => iface.Name))) ↔
          ∃ x ∈ parsed.Interfaces.elems, x.Name = interfaceName := by
        simp [Slice.elems]
      cases hfind : parsed.Interfaces.elems.find? (fun iface => iface.Name = interfaceName) with
      | none =>
        rw [hfind] at hG
        have hG2 : (GetInterfaceInfo env s busType serviceName interfaceName).1 =
            .error ("interface " ++ interfaceName ++ " not found") := hG
        have hno : ∀ x ∈ parsed.Interfaces.elems, x.Name ≠ interfaceName := by
          intro x hx
          have := List.find?_eq_none.mp hfind x hx
          simpa using this
        refine ⟨?_, ?_, ?_, ?_⟩
        · constructor
          · rintro ⟨iface, h⟩
            rw [hG2] at h
            cases h
          · intro h
            obtain ⟨x, hx, hn⟩ := hmem.mp h
            exact absurd hn (hno x hx)
        · intro iface h
          rw [hG2] at h
          cases h
        · intro _
          exact hG2
        · intro e h
          cases h
      | some found =>
        rw [hfind] at hG
        have hG2 : (GetInterfaceInfo env s busType serviceName interfaceName).1 =
            .ok found := hG
        obtain ⟨hname, before, after, hsplit, hbefore⟩ := List.find?_eq_some.mp hfind
        have hname2 : found.Name = interfaceName := by simpa using hname
        have hin : interfaceName ∈
            Slice.elems (some (parsed.Interfaces.elems.map (fun iface => iface.Name))) := by
          apply hmem.mpr
          refine ⟨found, ?_, hname2⟩
          rw [hsplit]
          simp
        refine ⟨?_, ?_, ?_, ?_⟩
        · exact ⟨fun _ => hin, fun _ => ⟨found, hG2⟩⟩
        · intro iface h
          rw [hG2] at h
          cases h
          refine ⟨res, parsed, before, after, rfl, hp, hsplit, hname2, ?_⟩
          intro x hx
          have := hbefore x hx
          simpa using this
        · intro hn
          exact absurd hin hn
        · intro e h
          cases h

/-- C24 on the service `svcSystem` with a bus that answers, for the one interface of
the document. -/
theorem GetInterfaceInfo_agrees_with_ListInterfaces_witness :
    getConnection svcSystem "system" = .ok .system ∧
    ∃ names : Slice String,
      (ListInterfaces envUp svcSystem "system" "org.freedesktop.DBus").1 = .ok names ∧
      ((∃ iface : InterfaceInfo,
          (GetInterfaceInfo envUp svcSystem "system" "org.freedesktop.DBus"
            "org.freedesktop.DBus").1 = .ok iface) ↔
        "org.freedesktop.DBus" ∈ names.elems) ∧
      (∀ iface : InterfaceInfo,
        (GetInterfaceInfo envUp svcSystem "system" "org.freedesktop.DBus"
          "org.freedesktop.DBus").1 = .ok iface →
          ∃ (res : IntrospectionResult) (parsed : ParsedIntrospection)
            (before after : List InterfaceInfo),
            (IntrospectService envUp svcSystem "system" "org.freedesktop.DBus").1 = .ok res ∧
            res.ParsedData = some parsed ∧
            parsed.Interfaces.elems = before ++ iface :: after ∧
            iface.Name = "org.freedesktop.DBus" ∧
            ∀ x ∈ before, x.Name ≠ "org.freedesktop.DBus") ∧
      ("org.freedesktop.DBus" ∉ names.elems →
        (GetInterfaceInfo envUp svcSystem "system" "org.freedesktop.DBus"
          "org.freedesktop.DBus").1 =
          .error ("interface " ++ "org.freedesktop.DBus" ++ " not found")) ∧
      (∀ e : String,
        (IntrospectService envUp svcSystem "system" "org.freedesktop.DBus").1 = .error e →
        (GetInterfaceInfo envUp svcSystem "system" "org.freedesktop.DBus"
          "org.freedesktop.DBus").1 =
          .error ("interface " ++ "org.freedesktop.DBus" ++ " not found")) :=
  ⟨rfl,
   GetInterfaceInfo_agrees_with_ListInterfaces envUp svcSystem "system" "org.freedesktop.DBus"
     "org.freedesktop.DBus" .system rfl⟩

/-- The two operations on the document of the tests: the interface that is listed is
found, another name is not, and on a bus that refuses the introspection nothing is
listed and nothing is found. -/
theorem GetInterfaceInfo_examples :
    (ListInterfaces envUp svcSystem "system" "org.freedesktop.DBus").1 =
      .ok (some ["org.freedesktop.DBus"]) ∧
    (GetInterfaceInfo envUp svcSystem "system" "org.freedesktop.DBus"
      "org.freedesktop.DBus").1.toOption.map (fun iface => iface.Name) =
      some "org.freedesktop.DBus" ∧
    (GetInterfaceInfo envUp svcSystem "system" "org.freedesktop.DBus"
      "org.freedesktop.Missing").1 = .error "interface org.freedesktop.Missing not found" ∧
    (ListInterfaces envDown svcSystem "system" "org.freedesktop.DBus").1 = .ok none ∧
    (GetInterfaceInfo envDown svcSystem "system" "org.freedesktop.DBus"
      "org.freedesktop.DBus").1 = .error "interface org.freedesktop.DBus not found" :=
  ⟨rfl, rfl, rfl, rfl, rfl⟩

/-! ## ListProperties -/

/-- A successful `GetInterfaceInfo` returns an interface that the search found in the
parsed data of the introspection. -/
theorem GetInterfaceInfo_found (env : Env) (s : DBusService)
    (busType serviceName interfaceName : String) (iface : InterfaceInfo)
    (h : (GetInterfaceInfo env s busType serviceName interfaceName).1 = .ok iface) :
    ∃ (b : Bus) (res : IntrospectionResult) (parsed : ParsedIntrospection),
      getConnection s busType = .ok b ∧
      (IntrospectService env s busType serviceName).1 = .ok res ∧
      res.ParsedData = some parsed ∧
      parsed.Interfaces.elems.find? (fun x => x.Name = interfaceName) = some iface := by
  cases hb : getConnection s busType with
  | error e =>
    have : GetInterfaceInfo env s busType serviceName interfaceName = (.error e, s) := by
      simp [GetInterfaceInfo, GetServiceInfo, hb]
    rw [this] at h
    cases h
  | ok b =>
    cases hi : (IntrospectService env s busType serviceName).1 with
    | error e =>
      have hg := GetServiceInfo_of_introspect_error env s busType serviceName b e hb hi
      have hG := GetInterfaceInfo_fst env s busType serviceName interfaceName _ hg
      have hG2 : (GetInterfaceInfo env s busType serviceName interfaceName).1 =
          .error ("interface " ++ interfaceName ++ " not found") := hG
      rw [hG2] at h
      cases h
    | ok res =>
      have hg := GetServiceInfo_of_introspect_ok env s busType serviceName b res hb hi
      have hG := GetInterfaceInfo_fst env s busType serviceName interfaceName _ hg
      cases hp : res.ParsedData with
      | none =>
        have hG2 : (GetInterfaceInfo env s busType serviceName interfaceName).1 =
            .error ("interface " ++ interfaceName ++ " not found") := by
          rw [hG]
          simp [findInterface, hp]
        rw [hG2] at h
        cases h
      | some parsed =>
        refine ⟨b, res, parsed, rfl, rfl, hp, ?_⟩
        cases hfind : parsed.Interfaces.elems.find? (fun x => x.Name = interfaceName) with
        | none =>
          have hG2 : (GetInterfaceInfo env s busType serviceName interfaceName).1 =
              .error ("interface " ++ interfaceName ++ " not found") := by
            rw [hG]
            simp [findInterface, hp, hfind]
          rw [hG2] at h
          cases h
        | some found =>
          have hG2 : (GetInterfaceInfo env s busType serviceName interfaceName).1 =
              .ok found := by
            rw [hG]
            simp [findInterface, hp, hfind]
          rw [hG2] at h
          cases h
          rfl

/-- The parsed data of an introspection result is what `parseIntrospectionXML` made
of a document. -/
theorem IntrospectService_parsed (env : Env) (s : DBusService)
    (busType serviceName : String) (res : IntrospectionResult)
    (parsed : ParsedIntrospection)
    (h : (IntrospectService env s busType serviceName).1 = .ok res)
    (hp : res.ParsedData = some parsed) :
    ∃ xmlData : String, parseIntrospectionXML env.unmarshal xmlData = .ok parsed := by
  unfold IntrospectService at h
  cases hb : getConnection s busType with
  | error e =>
    simp only [hb] at h
    cases h
  | ok b =>
    simp only [hb] at h
    cases hx : env.introspect b serviceName with
    | error e =>
      simp only [hx] at h
      cases h
    | ok xmlData =>
      simp only [hx] at h
      cases hq : parseIntrospectionXML env.unmarshal xmlData with
      | error e =>
        simp only [hq] at h
        cases h
        cases hp
      | ok parsed1 =>
        simp only [hq] at h
        cases h
        cases hp
        exact ⟨xmlData, hq⟩

/-- Every property that `parseIntrospectionXML` returns has no value and no
annotations. -/
theorem parsed_properties_unset (unmarshal : String → Except String Introspect.Node)
    (xmlData : String) (parsed : ParsedIntrospection)
    (h : parseIntrospectionXML unmarshal xmlData = .ok parsed) :
    ∀ iface ∈ parsed.Interfaces.elems, ∀ p ∈ iface.Properties.elems,
      p.Value = none ∧ p.Annotations = [] := by
  cases hu : unmarshal xmlData with
  | error e =>
    rw [parseIntrospectionXML_error unmarshal xmlData e hu] at h
    cases h
  | ok node =>
    rw [parseIntrospectionXML_ok unmarshal xmlData node hu] at h
    cases h
    intro iface hi p hpm
    simp only [Slice.elems, Option.getD_some, List.mem_map] at hi
    obtain ⟨x, _, rfl⟩ := hi
    rw [convertInterface_eq] at hpm
    simp only [Slice.elems, Option.getD_some, List.mem_map] at hpm
    obtain ⟨y, _, rfl⟩ := hpm
    exact ⟨rfl, rfl⟩

/-- The loop of `ListProperties`: each property gets the value that `GetProperty`
returns for its name, and stays as it is when `GetProperty` fails. -/
theorem fillValues_eq_map (env : Env) (busType serviceName interfaceName : String)
    (s0 : DBusService) :
    ∀ (ps : List PropertyInfo) (s : DBusService), OnlyLogged s0 s →
      (fillValues env busType serviceName interfaceName ps s).1 =
        ps.map (fun p =>
          match (GetProperty env s0 busType serviceName interfaceName p.Name).1 with
          | .ok value => { p with Value := some value.Value }
          | .error _ => p) := by
  intro ps
  induction ps with
  | nil => intro s _; rfl
  | cons p t ih =>
    intro s hs
    simp only [fillValues, List.map_cons]
    rw [ih _ (onlyLogged_trans hs
      (GetProperty_onlyLogged env s busType serviceName interfaceName p.Name))]
    rw [GetProperty_fst_of_onlyLogged env s0 s hs]

/-- The answer of `ListProperties` after a successful `GetInterfaceInfo`. -/
theorem ListProperties_fst (env : Env) (s : DBusService)
    (busType serviceName interfaceName : String) (iface : InterfaceInfo)
    (h : (GetInterfaceInfo env s busType serviceName interfaceName).1 = .ok iface) :
    (ListProperties env s busType serviceName interfaceName).1 =
      .ok (match iface.Properties with
           | none => none
           | some props =>
             some (fillValues env busType serviceName interfaceName props
               (GetInterfaceInfo env s busType serviceName interfaceName).2).1) := by
  unfold ListProperties
  generalize GetInterfaceInfo env s busType serviceName interfaceName = r at h
  obtain ⟨r1, r2⟩ := r
  simp only at h
  subst h
  simp only
  cases iface.Properties <;> rfl

/-- C26: when `GetInterfaceInfo` succeeds, `ListProperties` returns no error and the
properties of the interface in the same number and order, each with `Name`, `Type`,
`Access` and `Annotations` unchanged; the `Value` of a property is the value that
`GetProperty` returns for its name when that call succeeds, and is unset when that
call fails, which never makes `ListProperties` fail. -/
theorem ListProperties_changes_only_values (env : Env) (s : DBusService)
    (busType serviceName interfaceName : String) (iface : InterfaceInfo)
    (h : (GetInterfaceInfo env s busType serviceName interfaceName).1 = .ok iface) :
    ∃ props : Slice PropertyInfo,
      (ListProperties env s busType serviceName interfaceName).1 = .ok props ∧
      props.elems.length = iface.Properties.elems.length ∧
      ∀ (i : Nat) (p : PropertyInfo), iface.Properties.elems[i]? = some p →
        ∃ q : PropertyInfo, props.elems[i]? = some q ∧
          q.Name = p.Name ∧ q.Typ = p.Typ ∧ q.Access = p.Access ∧
          q.Annotations = p.Annotations ∧
          (∀ value : PropertyValue,
            (GetProperty env s busType serviceName interfaceName p.Name).1 = .ok value →
              q.Value = some value.Value) ∧
          (∀ e : String,
            (GetProperty env s busType serviceName interfaceName p.Name).1 = .error e →
              q.Value = none) := by
  refine ⟨_, ListProperties_fst env s busType serviceName interfaceName iface h, ?_⟩
  obtain ⟨b, res, parsed, _, hres, hparsed, hfind⟩ :=
    GetInterfaceInfo_found env s busType serviceName interfaceName iface h
  obtain ⟨xmlData, hxml⟩ :=
    IntrospectService_parsed env s busType serviceName res parsed hres hparsed
  have hunset := parsed_properties_unset env.unmarshal xmlData parsed hxml iface
    (List.mem_of_find?_eq_some hfind)
  cases hP : iface.Properties with
  | none =>
    refine ⟨rfl, ?_⟩
    intro i p hp
    simp [Slice.elems] at hp
  | some props =>
    simp only
    rw [fillValues_eq_map env busType serviceName interfaceName s props _
      (GetInterfaceInfo_onlyLogged env s busType serviceName interfaceName)]
    simp only [Slice.elems, Option.getD_some, List.length_map, List.getElem?_map, true_and]
    intro i p hp
    have hpm : p ∈ iface.Properties.elems := by
      rw [hP]
      exact List.getElem?_mem hp
    have hv := (hunset p hpm).1
    rw [hp]
    refine ⟨_, rfl, ?_⟩
    beta_reduce
    cases hg : (GetProperty env s busType serviceName interfaceName p.Name).1 with
    | error e =>
      refine ⟨rfl, rfl, rfl, rfl, ?_, ?_⟩
      · intro value hval
        cases hval
      · intro _ _
        exact hv
    | ok value =>
      refine ⟨rfl, rfl, rfl, rfl, ?_, ?_⟩
      · intro value1 hval
        cases hval
        rfl
      · intro e he
        cases he

/-- C26 on the service `svcSystem` with a bus that answers, for the interface of the
document and its one property. -/
theorem ListProperties_changes_only_values_witness :
    (GetInterfaceInfo envUp svcSystem "system" "org.freedesktop.DBus"
      "org.freedesktop.DBus").1 = .ok (convertInterface
        { Name := "org.freedesktop.DBus"
          Methods :=
            [{ Name := "Hello", Args := [{ Name := "", Typ := "s", Direction := "out" }] },
             { Name := "RequestName"
               Args := [{ Name := "name", Typ := "s", Direction := "in" },
                        { Name := "flags", Typ := "u", Direction := "in" },
                        { Name := "", Typ := "u", Direction := "out" }] }]
          Signals :=
            [{ Name := "NameOwnerChanged"
               Args := [{ Name := "name", Typ := "s", Direction := "" },
                        { Name := "old_owner", Typ := "s", Direction := "" },
                        { Name := "new_owner", Typ := "s", Direction := "" }] }]
          Properties := [{ Name := "Features", Typ := "as", Access := "read" }] }) ∧
    (ListProperties envUp svcSystem "system" "org.freedesktop.DBus"
      "org.freedesktop.DBus").1 =
      .ok (some [{ Name := "Features", Typ := "as", Access := "read"
                   Value := some (.str "ok"), Annotations := [] }]) ∧
    (ListProperties envNoProps svcSystem "system" "org.freedesktop.DBus"
      "org.freedesktop.DBus").1 =
      .ok (some [{ Name := "Features", Typ := "as", Access := "read"
                   Value := none, Annotations := [] }]) ∧
    ∃ props : Slice PropertyInfo,
      (ListProperties envUp svcSystem "system" "org.freedesktop.DBus"
        "org.freedesktop.DBus").1 = .ok props ∧
      props.elems.length = 1 :=
  ⟨rfl, rfl, rfl,
   (ListProperties_changes_only_values envUp svcSystem "system" "org.freedesktop.DBus"
      "org.freedesktop.DBus" _ rfl).imp (fun _ hprops => ⟨hprops.1, hprops.2.1⟩)⟩

/-! ## The registry never shrinks -/

theorem mapKeys_mapInsert_mono (m : List (String × Nat)) (k : String) (v : Nat)
    (id : String) (h : id ∈ mapKeys m) : id ∈ mapKeys (mapInsert m k v) := by
  induction m with
  | nil => simp [mapKeys] at h
  | cons e t ih =>
    obtain ⟨k1, v1⟩ := e
    by_cases hk : k1 = k
    · subst hk
      simp only [mapKeys, List.map_cons, List.mem_cons] at h
      simp only [mapInsert, if_true, mapKeys, List.map_cons, List.mem_cons]
      exact h
    · simp only [mapKeys, List.map_cons, List.mem_cons] at h
      simp only [mapInsert, hk, if_false, mapKeys, List.map_cons, List.mem_cons]
      rcases h with h | h
      · exact Or.inl h
      · exact Or.inr (ih h)

theorem mapInsert_length_le (m : List (String × Nat)) (k : String) (v : Nat) :
    m.length ≤ (mapInsert m k v).length := by
  induction m with
  | nil => simp [mapInsert]
  | cons e t ih =>
    obtain ⟨k1, v1⟩ := e
    by_cases hk : k1 = k
    · simp [mapInsert, hk]
    · simp only [mapInsert, hk, if_false, List.length_cons]
      omega

theorem registryKept_refl (s : DBusService) : RegistryKept s s :=
  ⟨fun _ h => h, Nat.le_refl _⟩

theorem registryKept_trans {s t u : DBusService} (h1 : RegistryKept s t)
    (h2 : RegistryKept t u) : RegistryKept s u :=
  ⟨fun id h => h2.1 id (h1.1 id h), Nat.le_trans h1.2 h2.2⟩

theorem registryKept_of_eq {s t : DBusService} (h : t.subscriptions = s.subscriptions) :
    RegistryKept s t := by
  unfold RegistryKept
  rw [h]
  exact ⟨fun _ h => h, Nat.le_refl _⟩

theorem SubscribeToSignal_registryKept (s : DBusService)
    (busType serviceName interfaceName signalName : String) (addMatchErr : Option String)
    (now : Nat) :
    RegistryKept s
      (SubscribeToSignal s busType serviceName interfaceName signalName addMatchErr now).2 := by
  cases hg : getConnection s busType with
  | error e =>
    rw [SubscribeToSignal_noconn_state s _ _ _ _ e addMatchErr now hg]
    exact registryKept_refl s
  | ok b =>
    obtain ⟨c, hc⟩ := conn_of_getConnection s busType b hg
    cases addMatchErr with
    | some e =>
      rw [SubscribeToSignal_error_state s _ _ _ _ e now b hg]
      exact registryKept_of_eq rfl
    | none =>
      rw [SubscribeToSignal_ok_state s _ _ _ _ now b c hg hc]
      exact ⟨fun id h => mapKeys_mapInsert_mono _ _ _ id h, mapInsert_length_le _ _ _⟩

/-- Every completed operation keeps the registered ids. -/
theorem exec_registryKept (lib : BusLibrary) (s u : DBusService) (o : Op)
    (h : exec lib s o = .ok u) : RegistryKept s u := by
  cases o
  case SubscribeToSignal bt sn i_n sg e now =>
    simp only [exec, Except.ok.injEq] at h
    exact h ▸ SubscribeToSignal_registryKept s bt sn i_n sg e now
  case Close =>
    exact registryKept_of_eq (Close_shape lib s u h).subs
  all_goals
    obtain ⟨e1, _⟩ := onlyLogged_keeps
      (exec_read_onlyLogged lib s u _ (by simp [Op.method]) (by simp [Op.method]) h)
    exact registryKept_of_eq e1

theorem steps_registryKept (lib : BusLibrary) (ok : DBusService → Op → Bool)
    (s t : DBusService) (h : Steps lib ok s t) : RegistryKept s t := by
  induction h with
  | refl => exact registryKept_refl s
  | op o _ _ he ih => exact registryKept_trans ih (exec_registryKept lib _ _ o he)
  | arrive b sig _ ih =>
    exact registryKept_trans ih (registryKept_of_eq (deliver_shape _ b sig).subs)

/-! ## The effects under the service mutex -/

theorem effectsSince_of_append (s t : DBusService) (l : List Effect)
    (h : t.log = s.log ++ l) : effectsSince s t = l := by
  unfold effectsSince
  rw [h]
  simp

theorem underLock_append (l rest : List Effect)
    (h : ∀ e ∈ l, e ≠ Effect.lock ∧ e ≠ Effect.unlock) :
    underLock true (l ++ rest) = l ++ underLock true rest := by
  induction l with
  | nil => rfl
  | cons e t ih =>
    have he := h e (List.mem_cons_self _ _)
    have ht := ih (fun x hx => h x (List.mem_cons_of_mem _ hx))
    cases e
    case lock => exact absurd rfl he.1
    case unlock => exact absurd rfl he.2
    all_goals simp [underLock, ht]

theorem logGrows_refl (s : DBusService) : LogGrows s s [] :=
  ⟨by simp, fun _ h => by simp at h⟩

theorem logGrows_trans {s t u : DBusService} {l1 l2 : List Effect}
    (h1 : LogGrows s t l1) (h2 : LogGrows t u l2) : LogGrows s u (l1 ++ l2) := by
  refine ⟨?_, ?_⟩
  · rw [h2.1, h1.1, List.append_assoc]
  · intro e he
    rcases List.mem_append.mp he with h | h
    · exact h1.2 e h
    · exact h2.2 e h

theorem closeChan_logGrows (s t : DBusService) (ch : Nat) (h : closeChan s ch = .ok t) :
    LogGrows s t [.closeChan ch] := by
  unfold closeChan at h
  cases hc : s.chans[ch]? with
  | none => simp [hc] at h
  | some c =>
    simp only [hc] at h
    by_cases hcl : c.closed = true
    · simp [hcl] at h
    · simp only [hcl, Bool.false_eq_true, if_false, Except.ok.injEq] at h
      subst h
      exact ⟨rfl, by simp⟩

theorem closeHandler_logGrows (s t : DBusService) (h : Nat) (hh : closeHandler s h = .ok t) :
    ∃ ch : Nat, LogGrows s t [.handlerLock h, .closeChan ch, .handlerUnlock h] := by
  unfold closeHandler at hh
  cases hd : s.handlers[h]? with
  | none => simp [hd] at hh
  | some hdl =>
    simp only [hd] at hh
    cases hc : closeChan
        ({ s with
           handlers := s.handlers.set h { hdl with active := false }
           log := s.log ++ [.handlerLock h] } : DBusService) hdl.channel with
    | error e => simp [hc, Except.map] at hh
    | ok u =>
      simp only [hc, Except.map, Except.ok.injEq] at hh
      subst hh
      have hu := (closeChan_logGrows _ u hdl.channel hc).1
      refine ⟨hdl.channel, ?_, by simp⟩
      simp only [hu]
      simp

theorem closeChans_logGrows :
    ∀ (chs : List Nat) (s t : DBusService), chs.foldlM closeChan s = .ok t →
      ∃ l : List Effect, LogGrows s t l := by
  intro chs
  induction chs with
  | nil =>
    intro s t h
    simp only [List.foldlM_nil, pure, Except.pure, Except.ok.injEq] at h
    exact ⟨[], h ▸ logGrows_refl s⟩
  | cons x rest ih =>
    intro s t h
    rw [List.foldlM_cons] at h
    cases hx : closeChan s x with
    | error e => simp [hx, bind, Except.bind] at h
    | ok u =>
      simp only [hx, bind, Except.bind] at h
      obtain ⟨l, hl⟩ := ih u t h
      exact ⟨_, logGrows_trans (closeChan_logGrows s u x hx) hl⟩

theorem closeHandlers_logGrows :
    ∀ (hs : List Nat) (s t : DBusService), hs.foldlM closeHandler s = .ok t →
      ∃ l : List Effect, LogGrows s t l ∧
        ∀ h ∈ hs, ∃ ch : Nat, Effect.closeChan ch ∈ l := by
  intro hs
  induction hs with
  | nil =>
    intro s t h
    simp only [List.foldlM_nil, pure, Except.pure, Except.ok.injEq] at h
    exact ⟨[], h ▸ logGrows_refl s, fun _ hh => by simp at hh⟩
  | cons x rest ih =>
    intro s t h
    rw [List.foldlM_cons] at h
    cases hx : closeHandler s x with
    | error e => simp [hx, bind, Except.bind] at h
    | ok u =>
      simp only [hx, bind, Except.bind] at h
      obtain ⟨l, hl, hmem⟩ := ih u t h
      obtain ⟨ch, hch⟩ := closeHandler_logGrows s u x hx
      refine ⟨_, logGrows_trans hch hl, ?_⟩
      intro h1 hh1
      rcases List.mem_cons.mp hh1 with e | e
      · exact ⟨ch, by simp⟩
      · obtain ⟨ch1, hc1⟩ := hmem h1 e
        exact ⟨ch1, List.mem_append_right _ hc1⟩

theorem connClose_logGrows (lib : BusLibrary) (s t : DBusService) (b : Bus)
    (h : connClose lib s b = .ok t) :
    ∃ l : List Effect, LogGrows s t l ∧
      ∀ c : Conn, s.conn b = some c → Effect.connClose b ∈ l := by
  unfold connClose at h
  cases hc : s.conn b with
  | none =>
    simp only [hc, Except.ok.injEq] at h
    subst h
    exact ⟨[], logGrows_refl _, fun c hn => by simp at hn⟩
  | some conn =>
    simp only [hc] at h
    have h0 : LogGrows s ({ s with log := s.log ++ [.connClose b] } : DBusService)
        [.connClose b] := ⟨rfl, by simp⟩
    by_cases hcl : conn.closed = true
    · simp only [hcl, if_true, Except.ok.injEq] at h
      subst h
      exact ⟨_, h0, fun _ _ => by simp⟩
    · simp only [hcl, Bool.false_eq_true, if_false] at h
      by_cases hl : lib.closeClosesSignalChans = true
      · simp only [hl, if_true] at h
        cases hf : List.foldlM closeChan
            ({ s with log := s.log ++ [.connClose b] } : DBusService) conn.signalChans with
        | error e => simp [hf, Except.map] at h
        | ok u =>
          simp only [hf, Except.map, Except.ok.injEq] at h
          subst h
          obtain ⟨l, hl2⟩ := closeChans_logGrows conn.signalChans _ u hf
          have h2 := logGrows_trans h0 hl2
          refine ⟨_, ⟨?_, h2.2⟩, fun _ _ => by simp⟩
          rw [setConn_log]
          exact h2.1
      · simp only [hl, Bool.false_eq_true, if_false, Except.ok.injEq] at h
        subst h
        refine ⟨_, ⟨?_, h0.2⟩, fun _ _ => by simp⟩
        rw [setConn_log]

/-- The effects of a completed `Close`: the mutex is acquired first and released
last, and in between each non-nil connection is closed and a channel is closed for
each entry of the registry. -/
theorem Close_log (lib : BusLibrary) (s t : DBusService) (h : Close lib s = .ok t) :
    ∃ body : List Effect,
      t.log = s.log ++ (Effect.lock :: body ++ [Effect.unlock]) ∧
      (∀ e ∈ body, e ≠ Effect.lock ∧ e ≠ Effect.unlock) ∧
      (∀ (b : Bus) (c : Conn), s.conn b = some c → Effect.connClose b ∈ body) ∧
      (∀ kv ∈ s.subscriptions, ∃ ch : Nat, Effect.closeChan ch ∈ body) := by
  unfold Close at h
  simp only [bind, Except.bind, pure, Except.pure] at h
  split at h
  · simp at h
  · rename_i s1 h1
    split at h
    · simp at h
    · rename_i s2 h2
      split at h
      · simp at h
      · rename_i s3 h3
        simp only [Except.ok.injEq] at h
        subst h
        obtain ⟨l1, g1, m1⟩ := connClose_logGrows lib _ s1 .system h1
        obtain ⟨l2, g2, m2⟩ := connClose_logGrows lib s1 s2 .session h2
        obtain ⟨l3, g3, m3⟩ := closeHandlers_logGrows _ s2 s3 h3
        have k1 := (connClose_keeps lib _ s1 .system h1).1
        have e1 := (connClose_shape lib _ _ _ h1).subs
        have e2 := (connClose_shape lib _ _ _ h2).subs
        have g := logGrows_trans (logGrows_trans g1 g2) g3
        refine ⟨l1 ++ l2 ++ l3, ?_, g.2, ?_, ?_⟩
        · simp only [g.1]
          simp
        · intro b c hc
          cases b with
          | system =>
            exact List.mem_append_left _ (List.mem_append_left _ (m1 c hc))
          | session =>
            obtain ⟨c2, hc2, _⟩ := (k1 .session).2 c hc
            exact List.mem_append_left _ (List.mem_append_right _ (m2 c2 hc2))
        · intro kv hkv
          have hin : kv.2 ∈ s2.subscriptions.map Prod.snd := by
            rw [e2, e1]
            exact List.mem_map_of_mem _ hkv
          obtain ⟨ch, hch⟩ := m3 kv.2 hin
          exact ⟨ch, List.mem_append_right _ hch⟩

/-- C23 (counterexample): `Close` on the service with one subscription acquires the
mutex first and releases it last; the effects in between are the closing of the system
connection, a bus call, and the closing of the channel of the handler, a channel
operation. -/
theorem Close_holds_mutex_across_bus_call :
    Close libKeepsChans svcOne = .ok svcShut ∧
    effectsSince svcOne svcShut =
      [.lock, .connClose .system, .handlerLock 0, .closeChan 0, .handlerUnlock 0, .unlock] ∧
    underLock false (effectsSince svcOne svcShut) =
      [.connClose .system, .handlerLock 0, .closeChan 0, .handlerUnlock 0] ∧
    (underLock false (effectsSince svcOne svcShut)).any Effect.isBusCall = true ∧
    (underLock false (effectsSince svcOne svcShut)).any Effect.isChanOp = true :=
  ⟨rfl, rfl, rfl, rfl, rfl⟩

/-- C23 (amended): `SubscribeToSignal` holds the service mutex for the map insert
only: whatever the call returns, no effect at all lies between acquiring and
releasing the mutex. `Close` holds the mutex for its whole body: a completed `Close`
acquires it first and releases it last, and everything else it does lies in between,
the closing of each connection that is not nil and the closing of a channel for each
entry of the registry included. -/
theorem mutex_spans_insert_and_whole_Close (lib : BusLibrary) (s t : DBusService)
    (busType serviceName interfaceName signalName : String) (addMatchErr : Option String)
    (now : Nat) :
    ((SubscribeToSignal s busType serviceName interfaceName signalName addMatchErr now).2.log =
        s.log ++ effectsSince s
          (SubscribeToSignal s busType serviceName interfaceName signalName addMatchErr now).2 ∧
      underLock false (effectsSince s
        (SubscribeToSignal s busType serviceName interfaceName signalName addMatchErr now).2)
        = []) ∧
    (Close lib s = .ok t →
      ∃ body : List Effect,
        t.log = s.log ++ effectsSince s t ∧
        effectsSince s t = Effect.lock :: body ++ [Effect.unlock] ∧
        underLock false (effectsSince s t) = body ∧
        (∀ (b : Bus) (c : Conn), s.conn b = some c → Effect.connClose b ∈ body) ∧
        (∀ kv ∈ s.subscriptions, ∃ ch : Nat, Effect.closeChan ch ∈ body)) := by
  constructor
  · have key : ∀ (u : DBusService) (l : List Effect), u.log = s.log ++ l →
        underLock false l = [] →
        u.log = s.log ++ effectsSince s u ∧ underLock false (effectsSince s u) = [] := by
      intro u l hu hl
      rw [effectsSince_of_append s u l hu]
      exact ⟨hu, hl⟩
    cases hg : getConnection s busType with
    | error e =>
      rw [SubscribeToSignal_noconn_state s _ _ _ _ e addMatchErr now hg]
      exact key s [] (by simp) rfl
    | ok b =>
      obtain ⟨c, hc⟩ := conn_of_getConnection s busType b hg
      cases addMatchErr with
      | some e =>
        rw [SubscribeToSignal_error_state s _ _ _ _ e now b hg]
        exact key _ _ rfl rfl
      | none =>
        rw [SubscribeToSignal_ok_state s _ _ _ _ now b c hg hc]
        exact key _ _ (List.append_assoc _ _ _) rfl
  · intro h
    obtain ⟨body, hlog, hinner, hconn, hsubs⟩ := Close_log lib s t h
    have e0 := effectsSince_of_append s t _ hlog
    refine ⟨body, ?_, e0, ?_, hconn, hsubs⟩
    · rw [e0]
      exact hlog
    · rw [e0]
      have hu := underLock_append body [Effect.unlock] hinner
      have h1 : underLock false (Effect.lock :: body ++ [Effect.unlock]) =
          underLock true (body ++ [Effect.unlock]) := rfl
      rw [h1, hu]
      simp [underLock]

/-- C23 (amended) on the service with one subscription: the effects of the
subscription that led to it, and those of the `Close` that follows. -/
theorem mutex_spans_insert_and_whole_Close_witness :
    effectsSince svcSystem svcOne =
      [.makeChan 0,
       .addMatch .system "type='signal',interface='org.freedesktop.DBus',member='NameOwnerChanged'",
       .connSignal .system 0, .lock, .unlock] ∧
    Close libKeepsChans svcOne = .ok svcShut ∧
    ∃ body : List Effect,
      svcShut.log = svcOne.log ++ effectsSince svcOne svcShut ∧
      effectsSince svcOne svcShut = Effect.lock :: body ++ [Effect.unlock] ∧
      underLock false (effectsSince svcOne svcShut) = body ∧
      (∀ (b : Bus) (c : Conn), svcOne.conn b = some c → Effect.connClose b ∈ body) ∧
      (∀ kv ∈ svcOne.subscriptions, ∃ ch : Nat, Effect.closeChan ch ∈ body) :=
  ⟨rfl, rfl,
   (mutex_spans_insert_and_whole_Close libKeepsChans svcOne svcShut "system" ""
      "org.freedesktop.DBus" "NameOwnerChanged" none 1).2 rfl⟩

/-- C27: every completed operation of the service, on every state, keeps each
registered id registered and does not lower the number of entries; a completed
`Close` leaves the registry exactly as it was, closed handlers included; along every
execution, signal arrivals included, the registered ids are kept and the number of
entries does not decrease. -/
theorem registry_never_shrinks (lib : BusLibrary) (ok : DBusService → Op → Bool)
    (s t : DBusService) :
    (∀ o : Op, exec lib s o = .ok t →
      (∀ id : String, id ∈ mapKeys s.subscriptions → id ∈ mapKeys t.subscriptions) ∧
      s.subscriptions.length ≤ t.subscriptions.length) ∧
    (Close lib s = .ok t → t.subscriptions = s.subscriptions) ∧
    (Steps lib ok s t →
      (∀ id : String, id ∈ mapKeys s.subscriptions → id ∈ mapKeys t.subscriptions) ∧
      s.subscriptions.length ≤ t.subscriptions.length) :=
  ⟨fun o h => exec_registryKept lib s t o h,
   fun h => (Close_shape lib s t h).subs,
   fun h => steps_registryKept lib ok s t h⟩

/-- C27 on the service with one subscription: after `Close` the id is still
registered, and after the same subscription again there is still one entry. -/
theorem registry_never_shrinks_witness :
    mapKeys svcOne.subscriptions = ["system::org.freedesktop.DBus:NameOwnerChanged"] ∧
    mapKeys svcShut.subscriptions = ["system::org.freedesktop.DBus:NameOwnerChanged"] ∧
    mapKeys svcTwice.subscriptions = ["system::org.freedesktop.DBus:NameOwnerChanged"] ∧
    mapKeys svcTwo.subscriptions =
      ["system::org.freedesktop.DBus:NameOwnerChanged",
       "system::org.freedesktop.DBus:NameLost"] ∧
    (∀ id : String, id ∈ mapKeys svcOne.subscriptions → id ∈ mapKeys svcShut.subscriptions) ∧
    svcOne.subscriptions.length ≤ svcShut.subscriptions.length ∧
    svcShut.subscriptions = svcOne.subscriptions :=
  ⟨rfl, rfl, rfl, rfl,
   ((registry_never_shrinks libKeepsChans anyAnswer svcOne svcShut).1 Op.Close rfl).1,
   ((registry_never_shrinks libKeepsChans anyAnswer svcOne svcShut).1 Op.Close rfl).2,
   (registry_never_shrinks libKeepsChans anyAnswer svcOne svcShut).2.1 rfl⟩

/-! ## The match rule as a filter: lemmas -/

/-- The characters of the match rule: the names stand between apostrophes, as they
are. -/
theorem matchRule_data (serviceName interfaceName signalName : String) :
    (matchRule serviceName interfaceName signalName).data =
      "type='signal',interface='".data ++
        (interfaceName.data ++ apostrophe ::
          (",member='".data ++
            (signalName.data ++ apostrophe ::
              (if serviceName = "" then []
               else ",sender='".data ++ (serviceName.data ++ [apostrophe]))))) := by
  have h1 : ("',member='" : String).data = apostrophe :: ",member='".data := by decide
  have h2 : ("'" : String).data = [apostrophe] := by decide
  by_cases hs : serviceName = ""
  · simp [matchRule, hs, String.data_append, h1, h2]
    rfl
  · simp [matchRule, hs, String.data_append, h1, h2]
    rfl

/-- The match rule determines the filter when the interface and the member contain
no apostrophe. -/
theorem matchRule_injective_of_no_apostrophe
    (serviceName interfaceName signalName : String)
    (serviceName2 interfaceName2 signalName2 : String)
    (hi : apostrophe ∉ interfaceName.data) (hi2 : apostrophe ∉ interfaceName2.data)
    (hm : apostrophe ∉ signalName.data) (hm2 : apostrophe ∉ signalName2.data)
    (h : matchRule serviceName interfaceName signalName =
      matchRule serviceName2 interfaceName2 signalName2) :
    serviceName = serviceName2 ∧ interfaceName = interfaceName2 ∧
      signalName = signalName2 := by
  have hd := congrArg String.data h
  rw [matchRule_data, matchRule_data] at hd
  have hd1 := List.append_cancel_left hd
  obtain ⟨e1, r1⟩ := split_first_sep apostrophe _ _ _ _ hi hi2 hd1
  have hd2 := List.append_cancel_left r1
  obtain ⟨e2, r2⟩ := split_first_sep apostrophe _ _ _ _ hm hm2 hd2
  refine ⟨?_, String.ext e1, String.ext e2⟩
  by_cases hs : serviceName = ""
  · by_cases hs2 : serviceName2 = ""
    · rw [hs, hs2]
    · rw [if_pos hs, if_neg hs2] at r2
      have := congrArg List.length r2
      simp at this
  · by_cases hs2 : serviceName2 = ""
    · rw [if_neg hs, if_pos hs2] at r2
      have := congrArg List.length r2
      simp at this
    · rw [if_neg hs, if_neg hs2] at r2
      have r3 := List.append_cancel_left r2
      exact String.ext (List.append_cancel_right r3)

/-- A connection with the one rule of a filter forwards exactly the signals the
filter matches, when neither the interface and member of the filter nor those of the
signal contain an apostrophe. -/
theorem busForwards_eq_specMatches (serviceName interfaceName signalName : String)
    (sig : Signal)
    (hi : apostrophe ∉ interfaceName.data) (hm : apostrophe ∉ signalName.data)
    (hsi : apostrophe ∉ sig.iface.data) (hsm : apostrophe ∉ sig.member.data) :
    busForwards (connWithRule (matchRule serviceName interfaceName signalName)) sig =
      specMatches serviceName interfaceName signalName sig := by
  rw [Bool.eq_iff_iff]
  simp only [busForwards, connWithRule, List.any_cons, List.any_nil, Bool.or_false,
    Bool.or_eq_true, decide_eq_true_eq, specMatches, Bool.and_eq_true]
  constructor
  · rintro (h | h)
    · obtain ⟨e1, e2, e3⟩ := matchRule_injective_of_no_apostrophe _ _ _ _ _ _ hi hsi hm hsm h
      exact ⟨⟨e2.symm, e3.symm⟩, Or.inl e1⟩
    · obtain ⟨e1, e2, e3⟩ := matchRule_injective_of_no_apostrophe _ _ _ _ _ _ hi hsi hm hsm h
      exact ⟨⟨e2.symm, e3.symm⟩, Or.inr e1.symm⟩
  · rintro ⟨⟨e2, e3⟩, e1 | e1⟩
    · left
      rw [e1, e2, e3]
    · right
      rw [e1, e2, e3]

/-- C8 (counterexample): the names go into the rule unescaped. `SubscribeToSignal`
with an empty service name and the signal name "Changed',sender=':1.5" passes to
`AddMatch` the rule of the filter with sender ":1.5" and member "Changed": the service
name is empty and the rule constrains the sender. A connection with this rule is
forwarded the signal "Changed" of sender ":1.5", which the spec's predicate for the
filter rejects, and is not forwarded the same signal of sender ":1.7". -/
theorem matchRule_apostrophe_adds_sender :
    addMatchCalls (SubscribeToSignal svcSystem "system" "" "org.example.Iface"
        "Changed',sender=':1.5" none 1).2.log =
      [(.system, "type='signal',interface='org.example.Iface',member='Changed',sender=':1.5'")] ∧
    matchRule "" "org.example.Iface" "Changed',sender=':1.5" =
      matchRule ":1.5" "org.example.Iface" "Changed" ∧
    busForwards (connWithRule (matchRule "" "org.example.Iface" "Changed',sender=':1.5"))
      { sender := ":1.5", path := "/", iface := "org.example.Iface", member := "Changed" }
      = true ∧
    specMatches "" "org.example.Iface" "Changed',sender=':1.5"
      { sender := ":1.5", path := "/", iface := "org.example.Iface", member := "Changed" }
      = false ∧
    busForwards (connWithRule (matchRule "" "org.example.Iface" "Changed',sender=':1.5"))
      { sender := ":1.7", path := "/", iface := "org.example.Iface", member := "Changed" }
      = false :=
  ⟨by decide, by decide, by decide, by decide, by decide⟩

/-- C8 (amended): for every interface name I, signal name M and service name S the
rule `SubscribeToSignal` passes to `AddMatch` is "type='signal',interface='I',member='M'"
when S is empty and that text followed by ",sender='S'" when it is not, the names put
in as they are; the sender clause is in the text if and only if S is non-empty. When
I, M and S contain no apostrophe, the rule encodes the spec's matching predicate on
the signals whose interface and member contain no apostrophe: a connection with this
rule is forwarded a signal exactly when its interface is I, its member is M, and S is
empty or its sender is S. -/
theorem addMatch_rule_encodes_filter (s : DBusService)
    (busType serviceName interfaceName signalName : String) (addMatchErr : Option String)
    (now : Nat) (b : Bus) (hconn : getConnection s busType = .ok b) :
    addMatchCalls (SubscribeToSignal s busType serviceName interfaceName signalName
        addMatchErr now).2.log =
      addMatchCalls s.log ++
        [(b, if serviceName = "" then
               "type='signal',interface='" ++ interfaceName ++ "',member='" ++ signalName ++ "'"
             else
               "type='signal',interface='" ++ interfaceName ++ "',member='" ++ signalName ++
                 "',sender='" ++ serviceName ++ "'")] ∧
    (matchRule serviceName interfaceName signalName =
        "type='signal',interface='" ++ interfaceName ++ "',member='" ++ signalName ++ "'"
      ↔ serviceName = "") ∧
    (apostrophe ∉ interfaceName.data → apostrophe ∉ signalName.data →
      apostrophe ∉ serviceName.data →
      ∀ sig : Signal, apostrophe ∉ sig.iface.data → apostrophe ∉ sig.member.data →
        busForwards (connWithRule (matchRule serviceName interfaceName signalName)) sig =
          (decide (sig.iface = interfaceName) && decide (sig.member = signalName) &&
            (decide (serviceName = "") || decide (sig.sender = serviceName))) ∧
        busForwards (connWithRule (matchRule serviceName interfaceName signalName)) sig =
          specMatches serviceName interfaceName signalName sig) := by
  obtain ⟨t1, t2⟩ := addMatch_rule_text s busType serviceName interfaceName signalName
    addMatchErr now b hconn
  refine ⟨t1, t2, ?_⟩
  intro hi hm _ sig hsi hsm
  have e := busForwards_eq_specMatches serviceName interfaceName signalName sig hi hm hsi hsm
  exact ⟨e, e⟩

/-- C8 (amended) on the subscription to `NameOwnerChanged` of sender ":1.42": the
rule text, and the signals a connection with this rule is forwarded. -/
theorem addMatch_rule_encodes_filter_witness :
    getConnection svcSystem "system" = .ok .system ∧
    addMatchCalls (SubscribeToSignal svcSystem "system" ":1.42" "org.freedesktop.DBus"
        "NameOwnerChanged" none 1).2.log =
      [(.system,
        "type='signal',interface='org.freedesktop.DBus',member='NameOwnerChanged',sender=':1.42'")] ∧
    busForwards
      (connWithRule (matchRule ":1.42" "org.freedesktop.DBus" "NameOwnerChanged"))
      { sender := ":1.42", path := "/org/freedesktop/DBus"
        iface := "org.freedesktop.DBus", member := "NameOwnerChanged" } = true ∧
    busForwards
      (connWithRule (matchRule ":1.42" "org.freedesktop.DBus" "NameOwnerChanged"))
      sigOwnerChanged = false :=
  ⟨rfl,
   (addMatch_rule_encodes_filter svcSystem "system" ":1.42" "org.freedesktop.DBus"
      "NameOwnerChanged" none 1 .system rfl).1.trans (by decide),
   (((addMatch_rule_encodes_filter svcSystem "system" ":1.42" "org.freedesktop.DBus"
      "NameOwnerChanged" none 1 .system rfl).2.2 (by decide) (by decide) (by decide)
      { sender := ":1.42", path := "/org/freedesktop/DBus"
        iface := "org.freedesktop.DBus", member := "NameOwnerChanged" }
      (by decide) (by decide)).1).trans (by decide),
   (((addMatch_rule_encodes_filter svcSystem "system" ":1.42" "org.freedesktop.DBus"
      "NameOwnerChanged" none 1 .system rfl).2.2 (by decide) (by decide) (by decide)
      sigOwnerChanged (by decide) (by decide)).1).trans (by decide)⟩

/-! ## A `Close` that panics: lemmas -/

theorem decays_set_inactive (s : DBusService) (h : Nat) (hd : SignalHandler)
    (l : List Effect) :
    Decays s { s with
               handlers := s.handlers.set h { hd with active := false }
               log := l } := by
  intro i hd0 hi
  by_cases hih : h = i
  · subst hih
    have hlt := getElem?_lt_of_some _ _ _ hi
    exact ⟨{ hd with active := false }, by simp [hlt], fun _ => rfl⟩
  · exact ⟨hd0, by simp [List.getElem?_set_ne hih, hi], fun k => k⟩

/-- The loop of `Close`, as far as it gets, leaves the connections and the registry
alone and makes no handler active. -/
theorem closeHandlersHeap_keeps :
    ∀ (hs : List Nat) (s : DBusService),
      (closeHandlersHeap hs s).2.systemConn = s.systemConn ∧
      (closeHandlersHeap hs s).2.sessionConn = s.sessionConn ∧
      (closeHandlersHeap hs s).2.subscriptions = s.subscriptions ∧
      Decays s (closeHandlersHeap hs s).2 := by
  intro hs
  induction hs with
  | nil => intro s; exact ⟨rfl, rfl, rfl, decays_refl s⟩
  | cons h rest ih =>
    intro s
    unfold closeHandlersHeap
    cases hget : s.handlers[h]? with
    | none => exact ⟨rfl, rfl, rfl, decays_refl s⟩
    | some hd =>
      simp only
      have d1 := decays_set_inactive s h hd (s.log ++ [.handlerLock h])
      cases hc : closeChan
          ({ s with
             handlers := s.handlers.set h { hd with active := false }
             log := s.log ++ [.handlerLock h] } : DBusService) hd.channel with
      | error e => exact ⟨rfl, rfl, rfl, d1⟩
      | ok s2 =>
        simp only
        obtain ⟨a1, a2, a3⟩ := closeChan_keeps _ _ _ hc
        have a4 := (closeChan_shape _ _ _ hc).subs
        obtain ⟨b1, b2, b3, b4⟩ := ih { s2 with log := s2.log ++ [.handlerUnlock h] }
        refine ⟨b1.trans a1, b2.trans a2, b3.trans a4, ?_⟩
        exact decays_trans (decays_trans d1 (decays_of_eq a3)) b4

/-- The two library calls at the head of `Close` leave both connections closed, and
the handlers and the registry as they were. -/
theorem connCloseBoth_keeps (lib : BusLibrary) (s s1 s2 : DBusService)
    (h1 : connClose lib { s with log := s.log ++ [.lock] } .system = .ok s1)
    (h2 : connClose lib s1 .session = .ok s2) :
    ConnsKept s s2 ∧ s2.handlers = s.handlers ∧ s2.subscriptions = s.subscriptions ∧
      Frozen s2 := by
  obtain ⟨k1, e1, c1⟩ := connClose_keeps lib _ _ _ h1
  obtain ⟨k2, e2, c2⟩ := connClose_keeps lib _ _ _ h2
  have k01 : ConnsKept s s1 := connsKept_trans (connsKept_of_eq rfl rfl) k1
  have u1 := (connClose_shape lib _ _ _ h1).subs
  have u2 := (connClose_shape lib _ _ _ h2).subs
  refine ⟨connsKept_trans k01 k2, e2.trans e1, u2.trans u1, ?_⟩
  intro b c hc
  cases b with
  | session => exact c2 c hc
  | system =>
    cases hs1 : s1.conn .system with
    | none =>
      have := (k2 .system).1 hs1
      rw [this] at hc
      simp at hc
    | some c0 =>
      obtain ⟨c3, hc3, k⟩ := (k2 .system).2 c0 hs1
      rw [hc3] at hc
      simp only [Option.some.injEq] at hc
      exact hc ▸ k (c1 c0 hs1)

/-- The heap a panicking `Close` leaves: the connection fields are kept, no handler
has become active, the registry is what it was, and both connections are closed. -/
theorem ClosePanicHeap_keeps (lib : BusLibrary) (s u : DBusService) (hs : List Nat)
    (h : ClosePanicHeap lib s hs = some u) :
    ConnsKept s u ∧ Decays s u ∧ u.subscriptions = s.subscriptions ∧ Frozen u := by
  unfold ClosePanicHeap at h
  cases h1 : connClose lib { s with log := s.log ++ [.lock] } .system with
  | error e => simp [h1] at h
  | ok s1 =>
    simp only [h1] at h
    cases h2 : connClose lib s1 .session with
    | error e => simp [h2] at h
    | ok s2 =>
      simp only [h2] at h
      obtain ⟨k, e, u0, fr⟩ := connCloseBoth_keeps lib s s1 s2 h1 h2
      obtain ⟨a1, a2, a3, a4⟩ := closeHandlersHeap_keeps hs s2
      generalize closeHandlersHeap hs s2 = r at h a1 a2 a3 a4
      obtain ⟨flag, s3⟩ := r
      cases flag with
      | false => simp at h
      | true =>
        simp only [Option.some.injEq] at h
        subst h
        simp only at a1 a2 a3 a4
        have k23 : ConnsKept s2 s3 := connsKept_of_eq a1 a2
        refine ⟨connsKept_trans (connsKept_trans k k23) (connsKept_of_eq rfl rfl),
          decays_trans (decays_trans (decays_of_eq e) a4) (decays_of_eq rfl),
          a3.trans u0, ?_⟩
        intro b c hc
        have hc2 : s2.conn b = some c := by
          cases b with
          | system =>
            have e3 : s3.conn .system = s2.conn .system := a1
            have hc3 : s3.conn .system = some c := hc
            rw [e3] at hc3
            exact hc3
          | session =>
            have e3 : s3.conn .session = s2.conn .session := a2
            have hc3 : s3.conn .session = some c := hc
            rw [e3] at hc3
            exact hc3
        exact fr b c hc2

theorem runs_of_steps (lib : BusLibrary) (ok : DBusService → Op → Bool) (s t : DBusService)
    (h : Steps lib ok s t) : Runs lib ok s t := by
  induction h with
  | refl => exact Runs.refl _
  | op o _ hok he ih => exact Runs.op o ih hok he
  | arrive b sig _ ih => exact Runs.arrive b sig ih

theorem runs_keep (lib : BusLibrary) (ok : DBusService → Op → Bool) (s t : DBusService)
    (h : Runs lib ok s t) : ConnsKept s t ∧ Decays s t := by
  induction h with
  | refl => exact ⟨connsKept_refl s, decays_refl s⟩
  | op o _ _ he ih =>
    obtain ⟨k, d⟩ := exec_keeps lib _ _ o he
    exact ⟨connsKept_trans ih.1 k, decays_trans ih.2 d⟩
  | arrive b sig _ ih =>
    obtain ⟨k, d, _⟩ := deliver_keeps _ b sig
    exact ⟨connsKept_trans ih.1 k, decays_trans ih.2 d⟩
  | panicked hs _ _ hp ih =>
    obtain ⟨k, d, _, _⟩ := ClosePanicHeap_keeps lib _ _ hs hp
    exact ⟨connsKept_trans ih.1 k, decays_trans ih.2 d⟩

/-- Along every execution from `NewDBusService`, panics of `Close` included, either
every handler is active or every connection is closed: a handler becomes inactive in
`Close` only, after both connections have been closed. -/
theorem active_or_frozen_runs (lib : BusLibrary) (ok : DBusService → Op → Bool)
    (a b : Bool) (s : DBusService) (h : Runs lib ok (NewDBusService a b) s) :
    (∀ (i : Nat) (hd : SignalHandler), s.handlers[i]? = some hd → hd.active = true) ∨
      Frozen s := by
  generalize hs0 : NewDBusService a b = s0 at h
  induction h with
  | refl =>
    left
    intro i hd hi
    rw [← hs0] at hi
    simp [NewDBusService] at hi
  | @op t u o hst hok he ih =>
    rcases ih with hact | hfr
    · cases o
      case SubscribeToSignal bt sn i_n sg e now =>
        simp only [exec, Except.ok.injEq] at he
        subst he
        exact Or.inl (allActive_subscribe t bt sn i_n sg e now hact)
      case Close => exact Or.inr (Close_keeps lib t u he).2.2
      all_goals
        left
        have hk := onlyLogged_keeps
          (exec_read_onlyLogged lib t u _ (by simp [Op.method]) (by simp [Op.method]) he)
        rw [hk.2.1]
        exact hact
    · exact Or.inr (frozen_of_connsKept hfr (exec_keeps lib t u o he).1)
  | @arrive t b2 sig _ ih =>
    rcases ih with hact | hfr
    · left
      have e : (deliver t b2 sig).handlers = t.handlers := by
        unfold deliver
        split
        · rfl
        · split <;> rfl
      rw [e]
      exact hact
    · exact Or.inr (frozen_of_connsKept hfr (deliver_keeps t b2 sig).1)
  | @panicked t u hs hst hperm hp ih =>
    exact Or.inr (ClosePanicHeap_keeps lib t u hs hp).2.2.2

/-- Once every connection is closed and the bus refuses `AddMatch` on a closed
connection, the connections stay closed and the registry stays what it is, panics of
`Close` included. -/
theorem frozen_runs (lib : BusLibrary) (s t : DBusService) (hf : Frozen s)
    (h : Runs lib closedConnRefuses s t) :
    Frozen t ∧ t.subscriptions = s.subscriptions := by
  induction h with
  | refl => exact ⟨hf, rfl⟩
  | @op t u o _ hok he ih =>
    exact ⟨frozen_of_connsKept ih.1 (exec_keeps lib t u o he).1,
      (frozen_exec_registry lib t u o ih.1 hok he).trans ih.2⟩
  | @arrive t b sig _ ih =>
    exact ⟨frozen_of_connsKept ih.1 (deliver_keeps t b sig).1,
      (deliver_keeps t b sig).2.2.trans ih.2⟩
  | @panicked t u hs _ _ hp ih =>
    obtain ⟨_, _, e, fr⟩ := ClosePanicHeap_keeps lib t u hs hp
    exact ⟨fr, e.trans ih.2⟩

/-- The loop as far as it gets agrees with the loop of `Close`: it ends without a
panic in the state the loop of `Close` ends in, and in a panic where that loop
panics. -/
theorem closeHandlersHeap_of_fold :
    ∀ (hs : List Nat) (s : DBusService),
      (∀ t, hs.foldlM closeHandler s = .ok t → closeHandlersHeap hs s = (false, t)) ∧
      (∀ e, hs.foldlM closeHandler s = .error e → (closeHandlersHeap hs s).1 = true) := by
  intro hs
  induction hs with
  | nil =>
    intro s
    constructor
    · intro t h
      simp only [List.foldlM_nil, pure, Except.pure, Except.ok.injEq] at h
      subst h
      rfl
    · intro e h
      simp [pure, Except.pure] at h
  | cons h rest ih =>
    intro s
    rw [List.foldlM_cons]
    unfold closeHandlersHeap closeHandler
    cases hget : s.handlers[h]? with
    | none =>
      constructor
      · intro t ht
        simp [bind, Except.bind] at ht
      · intro _ _
        rfl
    | some hd =>
      simp only
      cases hc : closeChan
          ({ s with
             handlers := s.handlers.set h { hd with active := false }
             log := s.log ++ [.handlerLock h] } : DBusService) hd.channel with
      | error e0 =>
        constructor
        · intro t ht
          simp [Except.map, bind, Except.bind] at ht
        · intro _ _
          rfl
      | ok s2 =>
        simp only [Except.map, bind, Except.bind]
        exact ih { s2 with log := s2.log ++ [.handlerUnlock h] }

/-- A panic heap in the order of the registry arises only when `Close` panics. -/
theorem Close_panics_of_ClosePanicHeap (lib : BusLibrary) (s u : DBusService)
    (h : ClosePanicHeap lib s (s.subscriptions.map Prod.snd) = some u) :
    ∃ e, Close lib s = .error e := by
  cases hc : Close lib s with
  | error e => exact ⟨e, rfl⟩
  | ok t =>
    exfalso
    unfold Close at hc
    simp only [bind, Except.bind, pure, Except.pure] at hc
    unfold ClosePanicHeap at h
    cases h1 : connClose lib { s with log := s.log ++ [.lock] } .system with
    | error e => simp [h1] at h
    | ok s1 =>
      simp only [h1] at h hc
      cases h2 : connClose lib s1 .session with
      | error e => simp [h2] at h
      | ok s2 =>
        simp only [h2] at h hc
        have e2 : s2.subscriptions = s.subscriptions :=
          ((connClose_shape lib _ _ _ h2).subs).trans (connClose_shape lib _ _ _ h1).subs
        rw [e2] at hc
        cases h3 : List.foldlM closeHandler s2 (s.subscriptions.map Prod.snd) with
        | error e => simp [h3] at hc
        | ok s3 =>
          rw [(closeHandlersHeap_of_fold _ s2).1 s3 h3] at h
          simp at h

/-! ## Shutdown with the library closing the registered channels -/

/-- C5: the claim fails on the code. With a library whose `Conn.Close` closes the
channels passed to `Conn.Signal`, `Close` on a service reached from `NewDBusService`
by `SubscribeToSignal` calls panics whenever a subscription is registered: the
connection has closed the channel when the loop closes it. On the service with the
subscriptions to `NameOwnerChanged` and `NameLost` the panic comes at the first
handler the loop visits; that handler is inactive, the other one is left active and
its subscription is still registered as active. -/
theorem Close_panics_with_subscriptions :
    Live svcTwo ∧
    mapKeys svcTwo.subscriptions =
      ["system::org.freedesktop.DBus:NameOwnerChanged",
       "system::org.freedesktop.DBus:NameLost"] ∧
    Close libClosesChans svcTwo = .error "close of closed channel" ∧
    (ClosePanicHeap libClosesChans svcTwo [0, 1]).map
        (fun u => u.handlers.map (fun hd => hd.active)) = some [false, true] ∧
    (ClosePanicHeap libClosesChans svcTwo [0, 1]).map
        (fun u => entryActive u "system::org.freedesktop.DBus:NameLost") = some true ∧
    (ClosePanicHeap libClosesChans svcTwo [1, 0]).map
        (fun u => u.handlers.map (fun hd => hd.active)) = some [true, false] ∧
    (ClosePanicHeap libClosesChans svcTwo [1, 0]).map
        (fun u => entryActive u "system::org.freedesktop.DBus:NameOwnerChanged") = some true ∧
    (∀ (lib : BusLibrary) (s : DBusService), lib.closeClosesSignalChans = true →
      Live s → s.subscriptions ≠ [] → Close lib s = .error "close of closed channel") :=
  ⟨Live.subscribe _ _ _ _ _ _ (Live.subscribe _ _ _ _ _ _ (Live.init true false)),
   rfl, rfl, rfl, rfl, rfl, rfl,
   fun lib s hlib hs hne => Close_panics_when_library_closes lib s hlib hs hne⟩

/-! ## A closed subscription stays closed, panics of `Close` included -/

/-- C11: along every execution from `NewDBusService` in which the bus refuses
`AddMatch` on a closed connection, whatever the library does to the registered
channels and with the panics of `Close` counted as steps that leave their heap,
an entry of the registry that is closed (its handler inactive) stays closed under
every later sequence of operations and signal arrivals: the id keeps an entry, and
that entry is never active again. -/
theorem closed_entry_never_reopens (lib : BusLibrary) (a b : Bool) (s t : DBusService)
    (id : String) (hreach : Runs lib closedConnRefuses (NewDBusService a b) s)
    (hclosed : entryInactive s id = true) (hruns : Runs lib closedConnRefuses s t) :
    entryInactive t id = true ∧ entryActive t id = false := by
  unfold entryInactive at hclosed
  cases hl : mapLookup s.subscriptions id with
  | none => simp [hl] at hclosed
  | some h =>
    cases hh : s.handlers[h]? with
    | none => simp [hl, hh] at hclosed
    | some hd =>
      simp only [hl, hh, Bool.not_eq_true'] at hclosed
      have hfr : Frozen s := by
        rcases active_or_frozen_runs lib closedConnRefuses a b s hreach with hact | hfr
        · have := hact h hd hh
          rw [hclosed] at this
          simp at this
        · exact hfr
      obtain ⟨_, hsub⟩ := frozen_runs lib s t hfr hruns
      obtain ⟨hd2, hh2, k⟩ := (runs_keep lib closedConnRefuses s t hruns).2 h hd hh
      have hin := k hclosed
      simp [entryInactive, entryActive, hsub, hl, hh2, hin]

/-- C11 with the library that closes the registered channels: `Close` on the service
with one subscription panics and leaves the handler inactive; the same subscription
requested again is refused by the bus, and the entry is still closed. -/
theorem closed_entry_never_reopens_witness :
    Close libClosesChans svcOne = .error "close of closed channel" ∧
    ClosePanicHeap libClosesChans svcOne [0] = some svcCrashed ∧
    Runs libClosesChans closedConnRefuses (NewDBusService true false) svcCrashed ∧
    entryInactive svcCrashed "system::org.freedesktop.DBus:NameOwnerChanged" = true ∧
    Runs libClosesChans closedConnRefuses svcCrashed svcCrashedRefused ∧
    entryInactive svcCrashedRefused "system::org.freedesktop.DBus:NameOwnerChanged" = true ∧
    entryActive svcCrashedRefused "system::org.freedesktop.DBus:NameOwnerChanged" = false :=
  ⟨rfl, rfl,
   Runs.panicked [0]
      (Runs.op
        (Op.SubscribeToSignal "system" "" "org.freedesktop.DBus" "NameOwnerChanged" none 1)
        (Runs.refl _) rfl rfl)
      (List.Perm.refl [0]) rfl,
   rfl,
   Runs.op
      (Op.SubscribeToSignal "system" "" "org.freedesktop.DBus" "NameOwnerChanged"
        (some "dbus: connection closed by user") 3)
      (Runs.refl _) rfl rfl,
   (closed_entry_never_reopens libClosesChans true false svcCrashed svcCrashedRefused
      "system::org.freedesktop.DBus:NameOwnerChanged"
      (Runs.panicked [0]
        (Runs.op
          (Op.SubscribeToSignal "system" "" "org.freedesktop.DBus" "NameOwnerChanged" none 1)
          (Runs.refl _) rfl rfl)
        (List.Perm.refl [0]) rfl)
      rfl
      (Runs.op
        (Op.SubscribeToSignal "system" "" "org.freedesktop.DBus" "NameOwnerChanged"
          (some "dbus: connection closed by user") 3)
        (Runs.refl _) rfl rfl)).1,
   (closed_entry_never_reopens libClosesChans true false svcCrashed svcCrashedRefused
      "system::org.freedesktop.DBus:NameOwnerChanged"
      (Runs.panicked [0]
        (Runs.op
          (Op.SubscribeToSignal "system" "" "org.freedesktop.DBus" "NameOwnerChanged" none 1)
          (Runs.refl _) rfl rfl)
        (List.Perm.refl [0]) rfl)
      rfl
      (Runs.op
        (Op.SubscribeToSignal "system" "" "org.freedesktop.DBus" "NameOwnerChanged"
          (some "dbus: connection closed by user") 3)
        (Runs.refl _) rfl rfl)).2⟩

/-- The service itself does not keep a closed entry closed: on the heap a panicking
`Close` leaves, if the bus accepted `AddMatch` on the closed connection,
`SubscribeToSignal` with the parameters of the closed entry would store a fresh
active handler under the id. -/
theorem crashed_entry_reopened_when_bus_accepts :
    entryInactive svcCrashed "system::org.freedesktop.DBus:NameOwnerChanged" = true ∧
    closedConnRefuses svcCrashed
      (Op.SubscribeToSignal "system" "" "org.freedesktop.DBus" "NameOwnerChanged" none 3)
      = false ∧
    entryActive svcCrashedAccepted "system::org.freedesktop.DBus:NameOwnerChanged" = true :=
  ⟨rfl, rfl, rfl⟩

end DBusController
